import Mathlib

/-!
# Verification of `tools/strip_soundfont.py`

Shallow embedding of the SoundFont (SF2) subsetting tool:
MIDI scanning (`scan_midi_for_programs`, `scan_midi_directory`),
the record (de)serializers (`from_bytes` / `to_bytes` of the six record
dataclasses), the record-table parsing done by `parse_sf2` on the `pdta`
sub-chunks, the chunk assembly done by `write_sf2`, and the subsetting
transform `subset_sf2`.

Modelling conventions:
* Python `bytes` are `List Nat` (each element a byte value `< 256`).
* Python `str` names decoded with latin-1 are kept as their byte lists
  (`latin-1` is a bijection between characters U+0000..U+00FF and bytes).
* Python ints are `Nat` (or `Int` for the one signed field, the
  modulator amount, and for intermediate signed arithmetic).
* `struct.pack` raises on out-of-range values; the embedding's `pack`
  functions use base-256 digit extraction, which agrees with `struct.pack`
  on all in-range values (the well-formedness predicates used by the
  theorems keep every packed value in range).
* `struct.unpack` demands an exact buffer length; the `from_bytes`
  embeddings return `none` exactly when the Python code would raise.
* Python list indexing raises `IndexError` out of bounds; the embedding
  uses `List.getD` with a default.  Theorems about `subset_sf2` carry
  well-formedness hypotheses under which every access is in bounds, so
  the defaults are never observed there.
* `subset_sf2` mutates records of its *input* model in place (the
  `new_index` / `new_start` / `new_end` / `new_bag_idx` scratch fields and
  the `sample_link` rewrite act on objects shared between the input lists
  and the output lists).  The embedding therefore returns a pair:
  the constructed output model *and* the post-call state of the input
  model, with the mutations applied.
-/

/-! ## Byte-level primitives -/

/-- Bytes of an ASCII string literal (used for chunk tags and the
terminal record names `"EOS"`, `"EOI"`, `"EOP"`). -/
def strBytes (s : String) : List Nat :=
  s.toList.map Char.toNat

/-- Little-endian 16-bit encoding, as `struct.pack '<H'` for in-range
values. -/
def pack16 (x : Nat) : List Nat := [x % 256, x / 256]

/-- Little-endian 32-bit encoding, as `struct.pack '<I'`/`'<L'` for
in-range values. -/
def pack32 (x : Nat) : List Nat :=
  [x % 256, x / 256 % 256, x / 65536 % 256, x / 16777216]

/-- 8-bit encoding, as `struct.pack '<B'` for in-range values. -/
def pack8 (x : Nat) : List Nat := [x % 256]

/-- Signed little-endian 16-bit encoding, as `struct.pack '<h'` for
values in `[-32768, 32768)`. -/
def pack16i (z : Int) : List Nat := pack16 (z % 65536).toNat

/-- Signed little-endian 32-bit encoding of an intermediate signed
computation, as `struct.pack '<I'` accepts only the nonnegative range;
theorems restrict to inputs where the value is nonnegative. -/
def pack32i (z : Int) : List Nat := pack32 (z % 4294967296).toNat

/-- Little-endian 16-bit decode at offset `o`, as `struct.unpack '<H'`. -/
def u16 (l : List Nat) (o : Nat) : Nat :=
  l.getD o 0 + 256 * l.getD (o + 1) 0

/-- Little-endian 32-bit decode at offset `o`, as `struct.unpack '<I'`. -/
def u32 (l : List Nat) (o : Nat) : Nat :=
  l.getD o 0 + 256 * l.getD (o + 1) 0 + 65536 * l.getD (o + 2) 0 +
    16777216 * l.getD (o + 3) 0

/-- Signed little-endian 16-bit decode, as `struct.unpack '<h'`. -/
def i16 (l : List Nat) (o : Nat) : Int :=
  let u := u16 l o
  if u < 32768 then (u : Int) else (u : Int) - 65536

/-- `bytes.rstrip(b'\x00')`: drop trailing zero bytes. -/
def dropTrailingZeros (l : List Nat) : List Nat :=
  (l.reverse.dropWhile (· == 0)).reverse

/-- Name decoding of a record: `data[0:20].rstrip(b'\x00')`. -/
def stripName (data : List Nat) : List Nat :=
  dropTrailingZeros (data.take 20)

/-- Name encoding of a record:
`name.encode('latin-1')[:20].ljust(20, b'\x00')`. -/
def padName (name : List Nat) : List Nat :=
  name.take 20 ++ List.replicate (20 - (name.take 20).length) 0

/-- Python slice `data[a:b]` for `0 ≤ a, b` (clamped, never failing). -/
def pySlice (data : List Nat) (a b : Nat) : List Nat :=
  (data.drop a).take (b - a)

/-! ## SF2 record types (the six dataclasses) -/

/-- `SF2Sample`: sample header record (`shdr`), including the runtime
scratch fields written by the subsetter. -/
structure SF2Sample where
  name : List Nat
  start : Nat
  end_ : Nat
  loop_start : Nat
  loop_end : Nat
  sample_rate : Nat
  original_pitch : Nat
  pitch_correction : Nat
  sample_link : Nat
  sample_type : Nat
  new_index : Int := -1
  new_start : Nat := 0
  new_end : Nat := 0
deriving DecidableEq, Repr

/-- Placeholder record for out-of-bounds `getD` reads (where Python
would raise `IndexError`; theorems keep all reads in bounds). -/
instance : Inhabited SF2Sample :=
  ⟨{ name := [], start := 0, end_ := 0, loop_start := 0, loop_end := 0
     sample_rate := 0, original_pitch := 0, pitch_correction := 0
     sample_link := 0, sample_type := 0 }⟩

/-- `SF2Sample.from_bytes`: name from `data[0:20]`, then
`struct.unpack('<IIIIIBBHH', data[20:46])`; fails (Python `struct.error`)
unless the unpacked slice has exactly 26 bytes, i.e. `46 ≤ data.length`. -/
def SF2Sample.from_bytes (data : List Nat) : Option SF2Sample :=
  if 46 ≤ data.length then
    some { name := stripName data
           start := u32 data 20
           end_ := u32 data 24
           loop_start := u32 data 28
           loop_end := u32 data 32
           sample_rate := u32 data 36
           original_pitch := data.getD 40 0
           pitch_correction := data.getD 41 0
           sample_link := u16 data 42
           sample_type := u16 data 44 }
  else none

/-- `SF2Sample.to_bytes`: writes the *runtime* `new_start`/`new_end`
offsets and loop points shifted by `new_start - start`. -/
def SF2Sample.to_bytes (s : SF2Sample) : List Nat :=
  padName s.name ++ pack32 s.new_start ++ pack32 s.new_end ++
    pack32i ((s.new_start : Int) + ((s.loop_start : Int) - (s.start : Int))) ++
    pack32i ((s.new_start : Int) + ((s.loop_end : Int) - (s.start : Int))) ++
    pack32 s.sample_rate ++ pack8 s.original_pitch ++
    pack8 s.pitch_correction ++ pack16 s.sample_link ++ pack16 s.sample_type

/-- `SF2Generator`: generator record (`pgen`/`igen`). -/
structure SF2Generator where
  oper : Nat
  amount : Nat
deriving DecidableEq, Repr

instance : Inhabited SF2Generator := ⟨⟨0, 0⟩⟩

/-- `SF2Generator.from_bytes`: `struct.unpack('<HH', data)` on the whole
slice, demanding exactly 4 bytes. -/
def SF2Generator.from_bytes (data : List Nat) : Option SF2Generator :=
  if data.length = 4 then some { oper := u16 data 0, amount := u16 data 2 }
  else none

def SF2Generator.to_bytes (g : SF2Generator) : List Nat :=
  pack16 g.oper ++ pack16 g.amount

/-- `SF2Modulator`: modulator record (`pmod`/`imod`); `amount` is the one
signed (`'<h'`) field. -/
structure SF2Modulator where
  src : Nat
  dest : Nat
  amount : Int
  amt_src : Nat
  transform : Nat
deriving DecidableEq, Repr

instance : Inhabited SF2Modulator := ⟨⟨0, 0, 0, 0, 0⟩⟩

/-- `SF2Modulator.from_bytes`: `struct.unpack('<HHhHH', data)`, demanding
exactly 10 bytes. -/
def SF2Modulator.from_bytes (data : List Nat) : Option SF2Modulator :=
  if data.length = 10 then
    some { src := u16 data 0, dest := u16 data 2, amount := i16 data 4
           amt_src := u16 data 6, transform := u16 data 8 }
  else none

def SF2Modulator.to_bytes (m : SF2Modulator) : List Nat :=
  pack16 m.src ++ pack16 m.dest ++ pack16i m.amount ++ pack16 m.amt_src ++
    pack16 m.transform

/-- `SF2Bag`: bag record (`pbag`/`ibag`). -/
structure SF2Bag where
  gen_idx : Nat
  mod_idx : Nat
deriving DecidableEq, Repr

instance : Inhabited SF2Bag := ⟨⟨0, 0⟩⟩

/-- `SF2Bag.from_bytes`: `struct.unpack('<HH', data)`, demanding exactly
4 bytes. -/
def SF2Bag.from_bytes (data : List Nat) : Option SF2Bag :=
  if data.length = 4 then some { gen_idx := u16 data 0, mod_idx := u16 data 2 }
  else none

def SF2Bag.to_bytes (b : SF2Bag) : List Nat :=
  pack16 b.gen_idx ++ pack16 b.mod_idx

/-- `SF2Inst`: instrument header record (`inst`), including runtime
scratch fields. -/
structure SF2Inst where
  name : List Nat
  bag_idx : Nat
  new_index : Int := -1
  new_bag_idx : Nat := 0
deriving DecidableEq, Repr

instance : Inhabited SF2Inst := ⟨{ name := [], bag_idx := 0 }⟩

/-- `SF2Inst.from_bytes`: name plus `struct.unpack('<H', data[20:22])`,
demanding `22 ≤ data.length`. -/
def SF2Inst.from_bytes (data : List Nat) : Option SF2Inst :=
  if 22 ≤ data.length then
    some { name := stripName data, bag_idx := u16 data 20 }
  else none

/-- `SF2Inst.to_bytes`: writes the *runtime* `new_bag_idx`. -/
def SF2Inst.to_bytes (i : SF2Inst) : List Nat :=
  padName i.name ++ pack16 i.new_bag_idx

/-- `SF2Preset`: preset header record (`phdr`), including the runtime
scratch field. -/
structure SF2Preset where
  name : List Nat
  preset : Nat
  bank : Nat
  bag_idx : Nat
  library : Nat
  genre : Nat
  morphology : Nat
  new_bag_idx : Nat := 0
deriving DecidableEq, Repr

instance : Inhabited SF2Preset :=
  ⟨{ name := [], preset := 0, bank := 0, bag_idx := 0, library := 0
     genre := 0, morphology := 0 }⟩

/-- `SF2Preset.from_bytes`: name plus
`struct.unpack('<HHHLLL', data[20:38])`, demanding `38 ≤ data.length`. -/
def SF2Preset.from_bytes (data : List Nat) : Option SF2Preset :=
  if 38 ≤ data.length then
    some { name := stripName data
           preset := u16 data 20
           bank := u16 data 22
           bag_idx := u16 data 24
           library := u32 data 26
           genre := u32 data 30
           morphology := u32 data 34 }
  else none

/-- `SF2Preset.to_bytes`: writes the *runtime* `new_bag_idx` in place of
the parsed `bag_idx`. -/
def SF2Preset.to_bytes (p : SF2Preset) : List Nat :=
  padName p.name ++ pack16 p.preset ++ pack16 p.bank ++
    pack16 p.new_bag_idx ++ pack32 p.library ++ pack32 p.genre ++
    pack32 p.morphology

/-! ## Fixed-size record-table parsing

`parse_sf2` slices each `pdta` sub-chunk into fixed-size records:
`for i in range(0, len(data), sz): records.append(R.from_bytes(data[i:i+sz]))`.
A trailing partial slice makes `from_bytes` raise, aborting the parse. -/

/-- Fuel-based worker for `parseTable` (structural recursion keeps the
definition kernel-reducible; each iteration consumes `sz ≥ 1` bytes, so
`fuel = data.length` always suffices). -/
def parseTableGo (sz : Nat) (fb : List Nat → Option α) :
    Nat → List Nat → Option (List α)
  | _, [] => some []
  | 0, _ :: _ => none
  | fuel + 1, data => do
      let r ← fb (data.take sz)
      let rest ← parseTableGo sz fb fuel (data.drop sz)
      pure (r :: rest)

def parseTable (sz : Nat) (fb : List Nat → Option α) (data : List Nat) :
    Option (List α) :=
  if sz = 0 then none else parseTableGo sz fb data.length data

theorem parseTableGo_nil (sz : Nat) (fb : List Nat → Option α) (fuel : Nat) :
    parseTableGo sz fb fuel [] = some [] := by
  cases fuel <;> rfl

theorem parseTableGo_fuel_irrel (sz : Nat) (fb : List Nat → Option α)
    (hsz : 0 < sz) : ∀ fuel (data : List Nat), data.length ≤ fuel →
    parseTableGo sz fb fuel data = parseTableGo sz fb data.length data := by
  intro fuel
  induction fuel using Nat.strong_induction_on with
  | _ fuel ih =>
    intro data hlen
    cases data with
    | nil => rw [parseTableGo_nil, parseTableGo_nil]
    | cons d t =>
      cases fuel with
      | zero => simp at hlen
      | succ f =>
        have h1 : (List.drop sz (d :: t)).length ≤ f := by
          simp only [List.length_drop, List.length_cons] at hlen ⊢
          omega
        have e1 := ih f (by omega) (List.drop sz (d :: t)) h1
        have hl2 : (d :: t).length = t.length + 1 := by simp
        rw [parseTableGo, e1, hl2, parseTableGo,
          ih t.length (by omega) (List.drop sz (d :: t))
            (by simp only [List.length_drop, List.length_cons]; omega)] <;>
          simp

/-- Unfolding `parseTable` on non-empty data: parse one record slice,
then the rest. -/
theorem parseTable_cons (sz : Nat) (fb : List Nat → Option α)
    (data : List Nat) (hsz : 0 < sz) (h : data ≠ []) :
    parseTable sz fb data = (do
      let r ← fb (data.take sz)
      let rest ← parseTable sz fb (data.drop sz)
      pure (r :: rest)) := by
  cases data with
  | nil => exact absurd rfl h
  | cons d t =>
    unfold parseTable
    rw [if_neg (by omega)]
    have hl2 : (d :: t).length = t.length + 1 := by simp
    rw [hl2, parseTableGo,
      parseTableGo_fuel_irrel sz fb hsz t.length (List.drop sz (d :: t))
        (by simp only [List.length_drop, List.length_cons]; omega)]
    all_goals simp [parseTable, Nat.pos_iff_ne_zero.mp hsz]

theorem parseTable_nil (sz : Nat) (fb : List Nat → Option α) (hsz : 0 < sz) :
    parseTable sz fb [] = some [] := by
  unfold parseTable
  rw [if_neg (by omega)]
  rfl

/-! ## The parsed-file model (`SF2File`) -/

/-- `SF2File`: the in-memory bank model.  `info_chunks` is the Python
`dict` as an insertion-ordered association list from 4-byte tags to
payloads. -/
structure SF2File where
  info_chunks : List (List Nat × List Nat) := []
  sample_data : List Nat := []
  sample_data_24 : List Nat := []
  presets : List SF2Preset := []
  preset_bags : List SF2Bag := []
  preset_mods : List SF2Modulator := []
  preset_gens : List SF2Generator := []
  instruments : List SF2Inst := []
  inst_bags : List SF2Bag := []
  inst_mods : List SF2Modulator := []
  inst_gens : List SF2Generator := []
  samples : List SF2Sample := []
deriving DecidableEq, Repr, Inhabited

/-! ## Record-table parsers (the `pdta` dispatch of `parse_sf2`) -/

def parsePhdrData : List Nat → Option (List SF2Preset) :=
  parseTable 38 SF2Preset.from_bytes

def parsePbagData : List Nat → Option (List SF2Bag) :=
  parseTable 4 SF2Bag.from_bytes

def parsePmodData : List Nat → Option (List SF2Modulator) :=
  parseTable 10 SF2Modulator.from_bytes

def parsePgenData : List Nat → Option (List SF2Generator) :=
  parseTable 4 SF2Generator.from_bytes

def parseInstData : List Nat → Option (List SF2Inst) :=
  parseTable 22 SF2Inst.from_bytes

def parseIbagData : List Nat → Option (List SF2Bag) :=
  parseTable 4 SF2Bag.from_bytes

def parseImodData : List Nat → Option (List SF2Modulator) :=
  parseTable 10 SF2Modulator.from_bytes

def parseIgenData : List Nat → Option (List SF2Generator) :=
  parseTable 4 SF2Generator.from_bytes

def parseShdrData : List Nat → Option (List SF2Sample) :=
  parseTable 46 SF2Sample.from_bytes

/-- One step of the `pdta` sub-chunk loop of `parse_sf2` (lines 314-346):
dispatch on the sub-chunk id, appending parsed records to the model's
lists; unknown ids are read and discarded. -/
def parsePdtaChunk (acc : SF2File) (c : List Nat × List Nat) :
    Option SF2File :=
  let (tag, data) := c
  if tag = strBytes "phdr" then
    (parsePhdrData data).map fun rs => { acc with presets := acc.presets ++ rs }
  else if tag = strBytes "pbag" then
    (parsePbagData data).map fun rs =>
      { acc with preset_bags := acc.preset_bags ++ rs }
  else if tag = strBytes "pmod" then
    (parsePmodData data).map fun rs =>
      { acc with preset_mods := acc.preset_mods ++ rs }
  else if tag = strBytes "pgen" then
    (parsePgenData data).map fun rs =>
      { acc with preset_gens := acc.preset_gens ++ rs }
  else if tag = strBytes "inst" then
    (parseInstData data).map fun rs =>
      { acc with instruments := acc.instruments ++ rs }
  else if tag = strBytes "ibag" then
    (parseIbagData data).map fun rs =>
      { acc with inst_bags := acc.inst_bags ++ rs }
  else if tag = strBytes "imod" then
    (parseImodData data).map fun rs =>
      { acc with inst_mods := acc.inst_mods ++ rs }
  else if tag = strBytes "igen" then
    (parseIgenData data).map fun rs =>
      { acc with inst_gens := acc.inst_gens ++ rs }
  else if tag = strBytes "shdr" then
    (parseShdrData data).map fun rs => { acc with samples := acc.samples ++ rs }
  else some acc

/-- The `pdta` sub-chunk loop of `parse_sf2`, over the already-split
sequence of `(id, data)` sub-chunks.  A record-table failure aborts the
whole parse (the Python exception propagates), so no partial model is
returned. -/
def parsePdtaChunks (acc : SF2File) : List (List Nat × List Nat) →
    Option SF2File
  | [] => some acc
  | c :: rest => do
      let acc' ← parsePdtaChunk acc c
      parsePdtaChunks acc' rest

/-- The `sdta` sub-chunk loop of `parse_sf2` (lines 301-310): `smpl` sets
the PCM blob, `sm24` the 24-bit extension, anything else is skipped. -/
def parseSdtaChunks (sd sd24 : List Nat) : List (List Nat × List Nat) →
    List Nat × List Nat
  | [] => (sd, sd24)
  | (tag, data) :: rest =>
      if tag = strBytes "smpl" then parseSdtaChunks data sd24 rest
      else if tag = strBytes "sm24" then parseSdtaChunks sd data rest
      else parseSdtaChunks sd sd24 rest

/-- Splitting a chunk-list body into `(id, data)` sub-chunks: each
iteration reads a 4-byte id, a 4-byte little-endian size, `size` payload
bytes and, if the size is odd, one pad byte (this is the shared shape of
the `INFO` / `sdta` / `pdta` reading loops of `parse_sf2`).  Returns
`none` if a header or payload is truncated. -/
def splitChunksGo : Nat → List Nat → Option (List (List Nat × List Nat))
  | _, [] => some []
  | 0, _ :: _ => none
  | fuel + 1, data =>
      if 8 + u32 data 4 ≤ data.length then
        ((splitChunksGo fuel
            ((data.drop (8 + u32 data 4)).drop (u32 data 4 % 2))).map
          fun cs => (data.take 4, (data.drop 8).take (u32 data 4)) :: cs)
      else none

def splitChunks (data : List Nat) : Option (List (List Nat × List Nat)) :=
  splitChunksGo data.length data

theorem splitChunksGo_nil (fuel : Nat) : splitChunksGo fuel [] = some [] := by
  cases fuel <;> rfl

theorem splitChunksGo_fuel_irrel : ∀ fuel (data : List Nat),
    data.length ≤ fuel → splitChunksGo fuel data = splitChunks data := by
  intro fuel
  induction fuel using Nat.strong_induction_on with
  | _ fuel ih =>
    intro data hlen
    cases data with
    | nil => rw [splitChunksGo_nil]; rfl
    | cons d t =>
      cases fuel with
      | zero => simp at hlen
      | succ f =>
        unfold splitChunks
        simp only [List.length_cons] at hlen ⊢
        rw [splitChunksGo, splitChunksGo]
        simp only [List.length_cons]
        by_cases hc : 8 + u32 (d :: t) 4 ≤ t.length + 1
        · rw [if_pos hc, if_pos hc]
          have hr : (((d :: t).drop (8 + u32 (d :: t) 4)).drop
              (u32 (d :: t) 4 % 2)).length ≤ f := by
            simp only [List.length_drop, List.length_cons]
            omega
          rw [ih f (by omega) _ hr,
            ih t.length (by omega) _
              (by simp only [List.length_drop, List.length_cons]; omega)]
        · rw [if_neg hc, if_neg hc]
        all_goals simp

/-- Unfolding `splitChunks` on non-empty data. -/
theorem splitChunks_cons (data : List Nat) (h : data ≠ []) :
    splitChunks data =
      (if 8 + u32 data 4 ≤ data.length then
        ((splitChunks ((data.drop (8 + u32 data 4)).drop
            (u32 data 4 % 2))).map
          fun cs => (data.take 4, (data.drop 8).take (u32 data 4)) :: cs)
      else none) := by
  cases data with
  | nil => exact absurd rfl h
  | cons d t =>
    unfold splitChunks
    simp only [List.length_cons]
    rw [splitChunksGo]
    have hr : (((d :: t).drop (8 + u32 (d :: t) 4)).drop
        (u32 (d :: t) 4 % 2)).length ≤ t.length := by
      simp only [List.length_drop, List.length_cons]
      omega
    rw [splitChunksGo_fuel_irrel t.length _ hr]
    all_goals simp [splitChunks]

/-! ## The writer (`write_sf2`)

`write_sf2` serializes each record table with `b''.join(r.to_bytes())`,
prefixes each with its id and byte length (no pad: every record size is
even), assembles the three `LIST` bodies, and wraps everything in a
`RIFF` container whose size field is computed from the emitted bytes. -/

/-- A sub-chunk as emitted inside the `INFO` body and by `write_chunk`:
id, little-endian length, payload, and a pad byte after an odd-length
payload. -/
def chunkBytes (tag : List Nat) (data : List Nat) : List Nat :=
  tag ++ pack32 data.length ++ data ++
    (if data.length % 2 = 1 then [0] else [])

/-- A `pdta` record sub-chunk: id, length, payload, *no* pad byte
(`write_sf2` does not pad the record tables; their sizes are even). -/
def recChunkBytes (tag : List Nat) (data : List Nat) : List Nat :=
  tag ++ pack32 data.length ++ data

def phdrData (m : SF2File) : List Nat :=
  (m.presets.map SF2Preset.to_bytes).flatten

def pbagData (m : SF2File) : List Nat :=
  (m.preset_bags.map SF2Bag.to_bytes).flatten

def pmodData (m : SF2File) : List Nat :=
  (m.preset_mods.map SF2Modulator.to_bytes).flatten

def pgenData (m : SF2File) : List Nat :=
  (m.preset_gens.map SF2Generator.to_bytes).flatten

def instData (m : SF2File) : List Nat :=
  (m.instruments.map SF2Inst.to_bytes).flatten

def ibagData (m : SF2File) : List Nat :=
  (m.inst_bags.map SF2Bag.to_bytes).flatten

def imodData (m : SF2File) : List Nat :=
  (m.inst_mods.map SF2Modulator.to_bytes).flatten

def igenData (m : SF2File) : List Nat :=
  (m.inst_gens.map SF2Generator.to_bytes).flatten

def shdrData (m : SF2File) : List Nat :=
  (m.samples.map SF2Sample.to_bytes).flatten

/-- The `INFO` body: each info chunk with id, length, payload, pad. -/
def infoBody (m : SF2File) : List Nat :=
  (m.info_chunks.map fun c => chunkBytes c.1 c.2).flatten

/-- The `sdta` body: exactly one `smpl` sub-chunk (padded); `write_sf2`
never emits an `sm24` sub-chunk. -/
def sdtaBody (m : SF2File) : List Nat :=
  chunkBytes (strBytes "smpl") m.sample_data

/-- The `pdta` body: the nine record sub-chunks in fixed order. -/
def pdtaBody (m : SF2File) : List Nat :=
  recChunkBytes (strBytes "phdr") (phdrData m) ++
  recChunkBytes (strBytes "pbag") (pbagData m) ++
  recChunkBytes (strBytes "pmod") (pmodData m) ++
  recChunkBytes (strBytes "pgen") (pgenData m) ++
  recChunkBytes (strBytes "inst") (instData m) ++
  recChunkBytes (strBytes "ibag") (ibagData m) ++
  recChunkBytes (strBytes "imod") (imodData m) ++
  recChunkBytes (strBytes "igen") (igenData m) ++
  recChunkBytes (strBytes "shdr") (shdrData m)

/-- The complete byte stream written by `write_sf2`: `RIFF` header with
the computed total size, the `sfbk` form tag, and the three `LIST`
chunks. -/
def writeSF2Bytes (m : SF2File) : List Nat :=
  let infoList := strBytes "INFO" ++ infoBody m
  let sdtaList := strBytes "sdta" ++ sdtaBody m
  let pdtaList := strBytes "pdta" ++ pdtaBody m
  let totalSize := 4 + (8 + infoList.length) +
    (if infoList.length % 2 = 1 then 1 else 0) + (8 + sdtaList.length) +
    (if sdtaList.length % 2 = 1 then 1 else 0) + (8 + pdtaList.length) +
    (if pdtaList.length % 2 = 1 then 1 else 0)
  strBytes "RIFF" ++ pack32 totalSize ++ strBytes "sfbk" ++
    chunkBytes (strBytes "LIST") infoList ++
    chunkBytes (strBytes "LIST") sdtaList ++
    chunkBytes (strBytes "LIST") pdtaList

/-! ## MIDI scanning (`scan_midi_for_programs`, `scan_midi_directory`) -/

/-- Python `set` values are modelled as duplicate-free, insertion-ordered
lists: `s.add(a)` appends `a` when absent.  (Membership and the sorted
view, the only ways the code consumes these sets, agree with any other
faithful set model.) -/
def pyInsert [DecidableEq α] (l : List α) (a : α) : List α :=
  if a ∈ l then l else l ++ [a]

/-- Python `sorted(s)` on a set of naturals: the ascending list of its
elements (insertion sort keeps the definition kernel-reducible). -/
def pySorted (l : List Nat) : List Nat :=
  l.insertionSort (· ≤ ·)

/-- The byte-scan loop of `scan_midi_for_programs`.  While at least two
bytes remain (`while i < len(data) - 1`): a status byte `0xC0..0xCF`
records `(channel, program)` when the program byte is `< 128` and skips
two bytes; `0x90..0x9F` records the note channel and skips three bytes;
anything else advances one byte. -/
def scanMidiGo : Nat → List Nat → List (Nat × Nat) → List Nat →
    List (Nat × Nat) × List Nat
  | fuel + 1, b :: c :: rest, progs, chans =>
      if 0xC0 ≤ b ∧ b ≤ 0xCF then
        scanMidiGo fuel rest
          (if c < 128 then pyInsert progs (b % 16, c) else progs) chans
      else if 0x90 ≤ b ∧ b ≤ 0x9F then
        scanMidiGo fuel (rest.drop 1) progs (pyInsert chans (b % 16))
      else
        scanMidiGo fuel (c :: rest) progs chans
  | _, _, progs, chans => (progs, chans)

/-- `scan_midi_for_programs`: returns the `(channel, program)` pairs of
the program-change events and the channels of the note-on events the
byte scan observes.  Every loop iteration consumes at least one byte, so
`fuel = data.length` always suffices. -/
def scan_midi_for_programs (data : List Nat) :
    List (Nat × Nat) × List Nat :=
  scanMidiGo data.length data [] []

/-- `scan_midi_directory`, over the scanned files' contents: every
program-change on a channel other than 9 contributes `(0, program)`;
if channel 9 carries any note-on in any file, `(128, 0)` is added at the
end. -/
def scan_midi_directory (files : List (List Nat)) : List (Nat × Nat) :=
  let st := files.foldl
    (fun (acc : List (Nat × Nat) × Bool) f =>
      let scanned := scan_midi_for_programs f
      (scanned.1.foldl
          (fun needed cp =>
            if cp.1 ≠ 9 then pyInsert needed (0, cp.2) else needed)
          acc.1,
        acc.2 || (9 ∈ scanned.2)))
    ([], false)
  if st.2 then pyInsert st.1 (128, 0) else st.1

/-! ## The subsetter (`subset_sf2`)

Structured exactly as the source: keep matching presets (excluding the
terminal), collect the instrument indices referenced by their preset
generators, collect the sample indices referenced by those instruments'
generators plus stereo link partners, then rebuild samples, instruments
and presets bottom-up with index maps, appending terminal records.

Mutation is made explicit: each phase threads the current state of the
source list it mutates (`samplesSrc` / `instsSrc` / `presetsSrc`) and
the output lists alias those final record values. -/

def GEN_INSTRUMENT : Nat := 41
def GEN_SAMPLE_ID : Nat := 53
def GEN_KEY_RANGE : Nat := 43
def GEN_VEL_RANGE : Nat := 44

/-- Indices of the presets kept by the matching loop: every non-terminal
preset (`sf2.presets[:-1]`) whose `(bank, preset)` pair is wanted, in
file order. -/
def keptPresetIdxs (m : SF2File) (needed : List (Nat × Nat)) : List Nat :=
  (List.range (m.presets.length - 1)).filter
    (fun i => ((m.presets.getD i default).bank,
               (m.presets.getD i default).preset) ∈ needed)

/-- `sf2.presets[sf2.presets.index(preset) + 1].bag_idx` for the preset
at position `i` of list `ps`: Python's `list.index` finds the *first*
structurally equal element. -/
def presetBagEndVia (ps : List SF2Preset) (p : SF2Preset) : Nat :=
  (ps.getD (ps.indexOf p + 1) default).bag_idx

/-- End of a preset bag's generator range:
`preset_bags[i+1].gen_idx if i + 1 < len(preset_bags) else len(preset_gens)`. -/
def pbagGenEnd (m : SF2File) (bagIdx : Nat) : Nat :=
  if bagIdx + 1 < m.preset_bags.length then
    (m.preset_bags.getD (bagIdx + 1) default).gen_idx
  else m.preset_gens.length

/-- End of a preset bag's modulator range. -/
def pbagModEnd (m : SF2File) (bagIdx : Nat) : Nat :=
  if bagIdx + 1 < m.preset_bags.length then
    (m.preset_bags.getD (bagIdx + 1) default).mod_idx
  else m.preset_mods.length

/-- End of an instrument bag's generator range. -/
def ibagGenEnd (m : SF2File) (bagIdx : Nat) : Nat :=
  if bagIdx + 1 < m.inst_bags.length then
    (m.inst_bags.getD (bagIdx + 1) default).gen_idx
  else m.inst_gens.length

/-- End of an instrument bag's modulator range. -/
def ibagModEnd (m : SF2File) (bagIdx : Nat) : Nat :=
  if bagIdx + 1 < m.inst_bags.length then
    (m.inst_bags.getD (bagIdx + 1) default).mod_idx
  else m.inst_mods.length

/-- End of an instrument's bag range in the *resolver* (guarded):
`instruments[i+1].bag_idx if i + 1 < len(instruments) else len(inst_bags)`. -/
def instBagEnd (m : SF2File) (instIdx : Nat) : Nat :=
  if instIdx + 1 < m.instruments.length then
    (m.instruments.getD (instIdx + 1) default).bag_idx
  else m.inst_bags.length

/-- Python `range(a, b)`. -/
def pyRange (a b : Nat) : List Nat := List.range' a (b - a)

/-- The instrument-collection loop: for each kept preset, walk its bag
range (bounded via `presets.index`) and each bag's generator range,
inserting the amount of every `GEN_INSTRUMENT` generator. -/
def collectInstIdxs (m : SF2File) (kept : List Nat) : List Nat :=
  kept.foldl
    (fun acc i =>
      let p := m.presets.getD i default
      (pyRange p.bag_idx (presetBagEndVia m.presets p)).foldl
        (fun acc2 bagIdx =>
          let bag := m.preset_bags.getD bagIdx default
          (pyRange bag.gen_idx (pbagGenEnd m bagIdx)).foldl
            (fun acc3 genIdx =>
              let gen := m.preset_gens.getD genIdx default
              if gen.oper = GEN_INSTRUMENT then pyInsert acc3 gen.amount
              else acc3)
            acc2)
        acc)
    []

/-- The sample-collection loop: for each collected instrument (the Python
`set` iterates in some order; the accumulated set is order-independent,
modelled here in the collection order), walk its bag and generator
ranges; every `GEN_SAMPLE_ID` generator inserts its amount and, when
that sample's `sample_link` is non-zero and in bounds, the link as well
(stereo pairing). -/
def collectSampleIdxs (m : SF2File) (instIdxs : List Nat) : List Nat :=
  instIdxs.foldl
    (fun acc instIdx =>
      let inst := m.instruments.getD instIdx default
      (pyRange inst.bag_idx (instBagEnd m instIdx)).foldl
        (fun acc2 bagIdx =>
          let bag := m.inst_bags.getD bagIdx default
          (pyRange bag.gen_idx (ibagGenEnd m bagIdx)).foldl
            (fun acc3 genIdx =>
              let gen := m.inst_gens.getD genIdx default
              if gen.oper = GEN_SAMPLE_ID then
                let sampleIdx := gen.amount
                let acc4 := pyInsert acc3 sampleIdx
                let sample := m.samples.getD sampleIdx default
                if sample.sample_link ≠ 0 ∧
                    sample.sample_link < m.samples.length then
                  pyInsert acc4 sample.sample_link
                else acc4
              else acc3)
            acc2)
        acc)
    []

/-- State of the sample-rebuild loop: the (mutated) source sample list,
the output sample list, the compacted PCM blob being accumulated, and
the old-to-new index map. -/
structure SampPhase where
  samplesSrc : List SF2Sample
  outSamples : List SF2Sample
  newData : List Nat
  smap : List (Nat × Nat)
deriving Repr

/-- One iteration of the sample rebuild (`for new_idx, old_idx in
enumerate(sorted_sample_indices)`): sets the runtime fields on the
shared record, copies its byte range `[start*2, end*2)` out of the old
blob, and records the index mapping. -/
def samplePhaseStep (m : SF2File) (st : SampPhase) (e : Nat × Nat) :
    SampPhase :=
  let newIdx := e.1
  let oldIdx := e.2
  let s0 := st.samplesSrc.getD oldIdx default
  let newStart := st.newData.length / 2
  let sampleBytes := pySlice m.sample_data (s0.start * 2) (s0.end_ * 2)
  let newData := st.newData ++ sampleBytes
  let s := { s0 with new_index := (newIdx : Int), new_start := newStart
                     new_end := newData.length / 2 }
  { samplesSrc := st.samplesSrc.set oldIdx s
    outSamples := st.outSamples ++ [s]
    newData := newData
    smap := st.smap ++ [(oldIdx, newIdx)] }

/-- One iteration of the stereo-link rewrite (`for sample in
out.samples[:-1]`): the link becomes its mapped index, or 0 when the
partner was not retained.  This mutates the record shared with the
input model. -/
def linkRewriteStep (st : SampPhase) (e : Nat × Nat) : SampPhase :=
  let k := e.1
  let oldIdx := e.2
  let s0 := st.samplesSrc.getD oldIdx default
  let newLink := match st.smap.lookup s0.sample_link with
    | some v => v
    | none => 0
  let s := { s0 with sample_link := newLink }
  { st with samplesSrc := st.samplesSrc.set oldIdx s
            outSamples := st.outSamples.set k s }

/-- The whole sample phase of `subset_sf2` (lines 433-464): rebuild in
ascending old-index order, append the zero-length `EOS` terminal whose
offsets equal the new blob's frame count, then rewrite stereo links. -/
def samplePhase (m : SF2File) (sampIdxs : List Nat) : SampPhase :=
  let sorted := pySorted sampIdxs
  let st0 : SampPhase :=
    { samplesSrc := m.samples, outSamples := [], newData := [], smap := [] }
  let st1 := sorted.enum.foldl (samplePhaseStep m) st0
  let term : SF2Sample :=
    { name := strBytes "EOS", start := 0, end_ := 0, loop_start := 0
      loop_end := 0, sample_rate := 0, original_pitch := 0
      pitch_correction := 0, sample_link := 0, sample_type := 0
      new_index := -1, new_start := st1.newData.length / 2
      new_end := st1.newData.length / 2 }
  let st2 := { st1 with outSamples := st1.outSamples ++ [term] }
  sorted.enum.foldl linkRewriteStep st2

/-- State of the instrument-rebuild loop. -/
structure InstPhase where
  instsSrc : List SF2Inst
  outInsts : List SF2Inst
  outBags : List SF2Bag
  outGens : List SF2Generator
  outMods : List SF2Modulator
  imap : List (Nat × Nat)
deriving Repr

/-- Copy one instrument generator, remapping the amount of a
`GEN_SAMPLE_ID` generator through the sample index map when the
referenced sample was retained. -/
def instCopyGen (m : SF2File) (smap : List (Nat × Nat)) (st : InstPhase)
    (genIdx : Nat) : InstPhase :=
  let gen := m.inst_gens.getD genIdx default
  let amt :=
    if gen.oper = GEN_SAMPLE_ID then
      match smap.lookup gen.amount with
      | some v => v
      | none => gen.amount
    else gen.amount
  { st with outGens := st.outGens ++ [⟨gen.oper, amt⟩] }

/-- Copy one instrument bag: a fresh bag pointing at the current end of
the output generator/modulator tables, then its generator and modulator
ranges. -/
def instCopyBag (m : SF2File) (smap : List (Nat × Nat)) (st : InstPhase)
    (bagIdx : Nat) : InstPhase :=
  let oldBag := m.inst_bags.getD bagIdx default
  let st1 := { st with
    outBags := st.outBags ++ [⟨st.outGens.length, st.outMods.length⟩] }
  let st2 := (pyRange oldBag.gen_idx (ibagGenEnd m bagIdx)).foldl
    (instCopyGen m smap) st1
  (pyRange oldBag.mod_idx (ibagModEnd m bagIdx)).foldl
    (fun st x =>
      { st with outMods := st.outMods ++ [m.inst_mods.getD x default] })
    st2

/-- One iteration of the instrument rebuild: set the runtime fields on
the shared record, then copy its bag range
(`bag_end = sf2.instruments[old_idx + 1].bag_idx`, unguarded). -/
def instPhaseStep (m : SF2File) (smap : List (Nat × Nat)) (st : InstPhase)
    (e : Nat × Nat) : InstPhase :=
  let newIdx := e.1
  let old := e.2
  let i0 := st.instsSrc.getD old default
  let i1 := { i0 with new_index := (newIdx : Int)
                      new_bag_idx := st.outBags.length }
  let st1 := { st with instsSrc := st.instsSrc.set old i1
                       outInsts := st.outInsts ++ [i1]
                       imap := st.imap ++ [(old, newIdx)] }
  let bagEnd := (st1.instsSrc.getD (old + 1) default).bag_idx
  (pyRange i1.bag_idx bagEnd).foldl (instCopyBag m smap) st1

/-- The whole instrument phase of `subset_sf2` (lines 466-513), including
the `EOI` terminal instrument, terminal bag, zero generator and zero
modulator. -/
def instPhase (m : SF2File) (instIdxs : List Nat)
    (smap : List (Nat × Nat)) : InstPhase :=
  let sorted := pySorted instIdxs
  let st0 : InstPhase :=
    { instsSrc := m.instruments, outInsts := [], outBags := [], outGens := []
      outMods := [], imap := [] }
  let st1 := sorted.enum.foldl (instPhaseStep m smap) st0
  let term : SF2Inst :=
    { name := strBytes "EOI", bag_idx := 0, new_index := -1
      new_bag_idx := st1.outBags.length }
  { st1 with outInsts := st1.outInsts ++ [term]
             outBags := st1.outBags ++
               [⟨st1.outGens.length, st1.outMods.length⟩]
             outGens := st1.outGens ++ [⟨0, 0⟩]
             outMods := st1.outMods ++ [⟨0, 0, 0, 0, 0⟩] }

/-- State of the preset-rebuild loop. -/
structure PresPhase where
  presetsSrc : List SF2Preset
  outPresets : List SF2Preset
  outBags : List SF2Bag
  outGens : List SF2Generator
  outMods : List SF2Modulator
deriving Repr

/-- Copy one preset generator, remapping the amount of a
`GEN_INSTRUMENT` generator through the instrument index map when the
referenced instrument was retained. -/
def presetCopyGen (m : SF2File) (imap : List (Nat × Nat)) (st : PresPhase)
    (genIdx : Nat) : PresPhase :=
  let gen := m.preset_gens.getD genIdx default
  let amt :=
    if gen.oper = GEN_INSTRUMENT then
      match imap.lookup gen.amount with
      | some v => v
      | none => gen.amount
    else gen.amount
  { st with outGens := st.outGens ++ [⟨gen.oper, amt⟩] }

/-- Copy one preset bag and its generator and modulator ranges. -/
def presetCopyBag (m : SF2File) (imap : List (Nat × Nat)) (st : PresPhase)
    (bagIdx : Nat) : PresPhase :=
  let oldBag := m.preset_bags.getD bagIdx default
  let st1 := { st with
    outBags := st.outBags ++ [⟨st.outGens.length, st.outMods.length⟩] }
  let st2 := (pyRange oldBag.gen_idx (pbagGenEnd m bagIdx)).foldl
    (presetCopyGen m imap) st1
  (pyRange oldBag.mod_idx (pbagModEnd m bagIdx)).foldl
    (fun st x =>
      { st with outMods := st.outMods ++ [m.preset_mods.getD x default] })
    st2

/-- One iteration of the preset rebuild: mutate `new_bag_idx` on the
shared record *first*, then locate the preset's position with
`sf2.presets.index(preset)` on the now-mutated list, and copy its bag
range. -/
def presetPhaseStep (m : SF2File) (imap : List (Nat × Nat)) (st : PresPhase)
    (i : Nat) : PresPhase :=
  let p0 := st.presetsSrc.getD i default
  let p1 := { p0 with new_bag_idx := st.outBags.length }
  let src := st.presetsSrc.set i p1
  let st1 := { st with presetsSrc := src
                       outPresets := st.outPresets ++ [p1] }
  let presetIdx := src.indexOf p1
  let bagEnd := (src.getD (presetIdx + 1) default).bag_idx
  (pyRange p1.bag_idx bagEnd).foldl (presetCopyBag m imap) st1

/-- The whole preset phase of `subset_sf2` (lines 515-556), including the
`EOP` terminal preset, terminal bag, zero generator and zero
modulator. -/
def presetPhase (m : SF2File) (kept : List Nat)
    (imap : List (Nat × Nat)) : PresPhase :=
  let st0 : PresPhase :=
    { presetsSrc := m.presets, outPresets := [], outBags := [], outGens := []
      outMods := [] }
  let st1 := kept.foldl (presetPhaseStep m imap) st0
  let term : SF2Preset :=
    { name := strBytes "EOP", preset := 0, bank := 0, bag_idx := 0
      library := 0, genre := 0, morphology := 0
      new_bag_idx := st1.outBags.length }
  { st1 with outPresets := st1.outPresets ++ [term]
             outBags := st1.outBags ++
               [⟨st1.outGens.length, st1.outMods.length⟩]
             outGens := st1.outGens ++ [⟨0, 0⟩]
             outMods := st1.outMods ++ [⟨0, 0, 0, 0, 0⟩] }

/-- `subset_sf2`.  Returns `(out, post)` where `out` is the constructed
subset model and `post` is the input model as left behind by the call
(the in-place mutations of shared records made explicit).  When no
preset matches, the warning path returns `out` holding only the copied
metadata — with *no* terminal records — and the input untouched. -/
def subset_sf2 (m : SF2File) (needed : List (Nat × Nat)) :
    SF2File × SF2File :=
  let kept := keptPresetIdxs m needed
  if kept = [] then ({ info_chunks := m.info_chunks }, m)
  else
    let instIdxs := collectInstIdxs m kept
    let sampIdxs := collectSampleIdxs m instIdxs
    let sp := samplePhase m sampIdxs
    let ip := instPhase m instIdxs sp.smap
    let pp := presetPhase m kept ip.imap
    ({ info_chunks := m.info_chunks
       sample_data := sp.newData
       sample_data_24 := []
       presets := pp.outPresets
       preset_bags := pp.outBags
       preset_mods := pp.outMods
       preset_gens := pp.outGens
       instruments := ip.outInsts
       inst_bags := ip.outBags
       inst_mods := ip.outMods
       inst_gens := ip.outGens
       samples := sp.outSamples },
     { m with samples := sp.samplesSrc
              instruments := ip.instsSrc
              presets := pp.presetsSrc })

/-! ## Generic list lemmas used throughout -/

theorem getD_set_self (l : List α) (i : Nat) (a d : α) (h : i < l.length) :
    (l.set i a).getD i d = a := by
  simp [List.getD_eq_getElem?_getD, List.getElem?_set_self', h,
    List.getElem?_eq_getElem, List.length_set]

theorem getD_set_ne (l : List α) (i j : Nat) (a d : α) (h : i ≠ j) :
    (l.set i a).getD j d = l.getD j d := by
  simp [List.getD_eq_getElem?_getD, List.getElem?_set_ne h]

theorem getD_append_lt (l l' : List α) (d : α) (n : Nat) (h : n < l.length) :
    (l ++ l').getD n d = l.getD n d :=
  List.getD_append l l' d n h

theorem getD_append_offset (l l' : List α) (d : α) (n : Nat) :
    (l ++ l').getD (l.length + n) d = l'.getD n d := by
  rw [List.getD_eq_getElem?_getD, List.getElem?_append_right (by omega),
    List.getD_eq_getElem?_getD, Nat.add_sub_cancel_left]

theorem getLast?_append_singleton (l : List α) (a : α) :
    (l ++ [a]).getLast? = some a :=
  List.getLast?_concat l

/-! ## Concrete models used by counterexamples and witnesses -/

/-- Build a preset record with only the structurally relevant fields. -/
def mkPreset (nm : String) (bk pr bi : Nat) : SF2Preset :=
  { name := strBytes nm, preset := pr, bank := bk, bag_idx := bi
    library := 0, genre := 0, morphology := 0 }

/-- Build a sample record with the given offsets and stereo link. -/
def mkSample (nm : String) (st en lk : Nat) : SF2Sample :=
  { name := strBytes nm, start := st, end_ := en, loop_start := st
    loop_end := st, sample_rate := 0, original_pitch := 0
    pitch_correction := 0, sample_link := lk, sample_type := 0 }

/-- A small well-formed bank: one real preset `(bank 0, program 0)` whose
single zone references instrument 0, which references sample 0; sample 0
is stereo-linked to sample 1; terminal records close each table. -/
def baseModel : SF2File :=
  { info_chunks := [(strBytes "INAM", strBytes "tiny")]
    sample_data := [10, 0, 20, 0, 30, 0, 40, 0]
    presets := [mkPreset "P0" 0 0 0, mkPreset "EOP" 0 0 1]
    preset_bags := [⟨0, 0⟩, ⟨1, 0⟩]
    preset_gens := [⟨41, 0⟩]
    preset_mods := []
    instruments := [⟨strBytes "I0", 0, -1, 0⟩, ⟨strBytes "EOI", 1, -1, 0⟩]
    inst_bags := [⟨0, 0⟩, ⟨1, 0⟩]
    inst_gens := [⟨53, 0⟩]
    inst_mods := []
    samples := [mkSample "S0" 0 2 1, mkSample "S1" 2 4 0,
                mkSample "EOS" 0 0 0] }

/-- Duplicate-preset model: two structurally identical kept presets
(positions 0 and 2) around an unkept preset whose `bag_idx` delimits the
first one's range.  `list.index` plus the in-place `new_bag_idx`
mutation make the two rebuild walks diverge, dragging in a generator
whose instrument was never resolved. -/
def dupModel : SF2File :=
  { presets := [mkPreset "A" 0 0 0, mkPreset "B" 1 0 1, mkPreset "A" 0 0 0,
                mkPreset "EOP" 0 0 2]
    preset_bags := [⟨0, 0⟩, ⟨1, 0⟩, ⟨2, 0⟩]
    preset_gens := [⟨41, 0⟩, ⟨41, 1⟩]
    preset_mods := []
    instruments := [⟨strBytes "I0", 0, -1, 0⟩, ⟨strBytes "I1", 1, -1, 0⟩,
                    ⟨strBytes "EOI", 2, -1, 0⟩]
    inst_bags := [⟨0, 0⟩, ⟨1, 0⟩, ⟨2, 0⟩]
    inst_gens := [⟨53, 0⟩, ⟨53, 1⟩]
    inst_mods := []
    samples := [mkSample "S0" 0 0 0, mkSample "S1" 0 0 0,
                mkSample "EOS" 0 0 0] }

/-- Stereo-chain model: the single kept instrument references sample 0
only; sample 0 is linked to sample 1, and sample 1 is in turn linked to
sample 2. -/
def linkModel : SF2File :=
  { presets := [mkPreset "P0" 0 0 0, mkPreset "EOP" 0 0 1]
    preset_bags := [⟨0, 0⟩, ⟨1, 0⟩]
    preset_gens := [⟨41, 0⟩]
    preset_mods := []
    instruments := [⟨strBytes "I0", 0, -1, 0⟩, ⟨strBytes "EOI", 1, -1, 0⟩]
    inst_bags := [⟨0, 0⟩, ⟨1, 0⟩]
    inst_gens := [⟨53, 0⟩]
    inst_mods := []
    samples := [mkSample "S0" 0 0 1, mkSample "S1" 0 0 2,
                mkSample "S2" 0 0 0, mkSample "EOS" 0 0 0] }

/-- Overlap model: two kept samples cover the same PCM byte range, and
sample 0's stereo link points at the terminal sample index. -/
def overlapModel : SF2File :=
  { presets := [mkPreset "P0" 0 0 0, mkPreset "EOP" 0 0 1]
    preset_bags := [⟨0, 0⟩, ⟨1, 0⟩]
    preset_gens := [⟨41, 0⟩]
    preset_mods := []
    instruments := [⟨strBytes "I0", 0, -1, 0⟩, ⟨strBytes "EOI", 1, -1, 0⟩]
    inst_bags := [⟨0, 0⟩, ⟨2, 0⟩]
    inst_gens := [⟨53, 0⟩, ⟨53, 1⟩]
    inst_mods := []
    samples := [mkSample "S0" 0 2 2, mkSample "S1" 0 2 0,
                mkSample "EOS" 0 0 0]
    sample_data := [1, 2, 3, 4] }

/-! ## Structural facts about the subsetter phases -/

theorem getLast?_set (l : List α) (k : Nat) (a : α) (h : k + 1 < l.length) :
    (l.set k a).getLast? = l.getLast? := by
  rw [List.getLast?_eq_getElem?, List.getLast?_eq_getElem?, List.length_set,
    List.getElem?_set_ne (by omega)]

/-- The sample-build fold grows `outSamples` by one record per index. -/
theorem samplePhase_foldl_len (m : SF2File) (l : List (Nat × Nat)) :
    ∀ st : SampPhase,
      ((l.foldl (samplePhaseStep m) st).outSamples).length =
        st.outSamples.length + l.length := by
  induction l with
  | nil => intro st; simp
  | cons e t ih =>
      intro st
      rw [List.foldl_cons, ih]
      simp [samplePhaseStep]
      omega

/-- The link-rewrite fold only replaces records at positions strictly
before the last one; the blob, the index map, the table length and the
final (terminal) record are untouched. -/
theorem linkRewrite_foldl_spec (l : List (Nat × Nat)) :
    ∀ st : SampPhase, (∀ e ∈ l, e.1 + 1 < st.outSamples.length) →
      (l.foldl linkRewriteStep st).newData = st.newData ∧
      (l.foldl linkRewriteStep st).smap = st.smap ∧
      (l.foldl linkRewriteStep st).outSamples.length =
        st.outSamples.length ∧
      (l.foldl linkRewriteStep st).outSamples.getLast? =
        st.outSamples.getLast? := by
  induction l with
  | nil => intro st _; exact ⟨rfl, rfl, rfl, rfl⟩
  | cons e t ih =>
      intro st hidx
      rw [List.foldl_cons]
      have hlen : (linkRewriteStep st e).outSamples.length =
          st.outSamples.length := by
        simp [linkRewriteStep]
      obtain ⟨h1, h2, h3, h4⟩ := ih (linkRewriteStep st e)
        (fun e' he' => by rw [hlen]; exact hidx e' (List.mem_cons_of_mem _ he'))
      refine ⟨h1.trans ?_, h2.trans ?_, h3.trans hlen, h4.trans ?_⟩
      · rfl
      · rfl
      · exact getLast?_set _ _ _ (hidx e (List.mem_cons_self _ _))

/-- Every index of `l.enum` is below `l.length`. -/
theorem enum_fst_lt (l : List α) (e : Nat × α) (he : e ∈ l.enum) :
    e.1 < l.length := by
  have := List.mem_enum_iff_getElem?.mp he
  have := List.getElem?_eq_some.mp this
  exact this.1

/-- The terminal `EOS` sample of the sample phase: last record of the
output table, zero length, offsets equal to the compacted blob's frame
count. -/
theorem samplePhase_terminal (m : SF2File) (idxs : List Nat) :
    (samplePhase m idxs).outSamples.getLast? =
      some { name := strBytes "EOS", start := 0, end_ := 0, loop_start := 0
             loop_end := 0, sample_rate := 0, original_pitch := 0
             pitch_correction := 0, sample_link := 0, sample_type := 0
             new_index := -1
             new_start := (samplePhase m idxs).newData.length / 2
             new_end := (samplePhase m idxs).newData.length / 2 } ∧
    (samplePhase m idxs).outSamples.length =
      (pySorted idxs).length + 1 := by
  unfold samplePhase
  set sorted := pySorted idxs with hs
  set st1 := sorted.enum.foldl (samplePhaseStep m)
    { samplesSrc := m.samples, outSamples := [], newData := [], smap := [] }
    with hst1
  have hlen1 : st1.outSamples.length = sorted.length := by
    rw [hst1, samplePhase_foldl_len]
    simp [List.enum_length]
  obtain ⟨h1, _, h3, h4⟩ := linkRewrite_foldl_spec sorted.enum
    { st1 with outSamples := st1.outSamples ++ [_] }
    (by
      intro e he
      have := enum_fst_lt sorted e he
      simp only [List.length_append, List.length_cons, List.length_nil,
        hlen1]
      omega)
  constructor
  · rw [h4, h1, getLast?_append_singleton]
  · rw [h3]
    simp [hlen1]

/-- The terminal `EOI` instrument appended by the instrument phase. -/
theorem instPhase_terminal (m : SF2File) (idxs : List Nat)
    (smap : List (Nat × Nat)) :
    (instPhase m idxs smap).outInsts.getLast? =
      some { name := strBytes "EOI", bag_idx := 0, new_index := -1
             new_bag_idx := (instPhase m idxs smap).outBags.length - 1 } := by
  unfold instPhase
  rw [getLast?_append_singleton]
  simp

/-- The terminal `EOP` preset appended by the preset phase. -/
theorem presetPhase_terminal (m : SF2File) (kept : List Nat)
    (imap : List (Nat × Nat)) :
    (presetPhase m kept imap).outPresets.getLast? =
      some { name := strBytes "EOP", preset := 0, bank := 0, bag_idx := 0
             library := 0, genre := 0, morphology := 0
             new_bag_idx := (presetPhase m kept imap).outBags.length - 1 } := by
  unfold presetPhase
  rw [getLast?_append_singleton]
  simp

/-! ## Claim C2 -/

/-- C2, amended: when the wanted set matches no non-terminal preset,
`subset_sf2` recovers (the warning path returns normally) but the
returned model holds *only* the copied metadata: its preset, instrument
and sample tables, all bag/generator/modulator tables and the PCM blob
are empty — there are no terminal sentinel records — and the input model
is left untouched. -/
theorem c2_nomatch_amended (m : SF2File) (w : List (Nat × Nat))
    (h : keptPresetIdxs m w = []) :
    subset_sf2 m w = ({ info_chunks := m.info_chunks }, m) := by
  simp [subset_sf2, h]

theorem c2_nomatch_amended_witness :
    keptPresetIdxs baseModel [(9, 9)] = [] ∧
    subset_sf2 baseModel [(9, 9)] =
      ({ info_chunks := baseModel.info_chunks }, baseModel) :=
  ⟨by decide, c2_nomatch_amended baseModel [(9, 9)] (by decide)⟩

/-- C2, counterexample to the claim as stated: for `baseModel` and the
unmatched wanted set `{(9, 9)}` the pipeline warns and recovers, but the
output contains *no* records at all — in particular not the claimed
terminal sentinel preset/instrument/sample. -/
theorem c2_nomatch_counterexample :
    keptPresetIdxs baseModel [(9, 9)] = [] ∧
    (subset_sf2 baseModel [(9, 9)]).1.presets = [] ∧
    (subset_sf2 baseModel [(9, 9)]).1.instruments = [] ∧
    (subset_sf2 baseModel [(9, 9)]).1.samples = [] := by decide

/-! ## Claim C3 -/

/-- C3, counterexample to the claim as stated: for `baseModel` with
wanted set `{(0, 0)}` the output's terminal preset carries bag-range
start 1 (the index of the terminal preset bag), while the preset-bag
table — the corresponding child table — has length 2, so the sentinel's
start-index field does *not* equal the child table's length. -/
theorem c3_sentinel_counterexample :
    ((subset_sf2 baseModel [(0, 0)]).1.presets.getLast?.map
        (fun p => p.new_bag_idx)) = some 1 ∧
    (subset_sf2 baseModel [(0, 0)]).1.preset_bags.length = 2 := by decide

/-- C3, amended: whenever at least one preset matches, each of the
output preset, instrument and sample tables ends in its terminal
sentinel; the preset and instrument sentinels' bag-range starts equal
the *index of the terminal bag*, i.e. the child bag table's length minus
one (the bag tables themselves end in a terminal bag), while the sample
sentinel's offsets equal the PCM blob's exact frame count, as claimed.
(When nothing matches, the output tables are empty — see C2.) -/
theorem c3_sentinel_amended (m : SF2File) (w : List (Nat × Nat))
    (h : keptPresetIdxs m w ≠ []) :
    ((subset_sf2 m w).1.presets.getLast? =
      some { name := strBytes "EOP", preset := 0, bank := 0, bag_idx := 0
             library := 0, genre := 0, morphology := 0
             new_bag_idx := (subset_sf2 m w).1.preset_bags.length - 1 }) ∧
    ((subset_sf2 m w).1.instruments.getLast? =
      some { name := strBytes "EOI", bag_idx := 0, new_index := -1
             new_bag_idx := (subset_sf2 m w).1.inst_bags.length - 1 }) ∧
    ((subset_sf2 m w).1.samples.getLast? =
      some { name := strBytes "EOS", start := 0, end_ := 0, loop_start := 0
             loop_end := 0, sample_rate := 0, original_pitch := 0
             pitch_correction := 0, sample_link := 0, sample_type := 0
             new_index := -1
             new_start := (subset_sf2 m w).1.sample_data.length / 2
             new_end := (subset_sf2 m w).1.sample_data.length / 2 }) := by
  unfold subset_sf2
  rw [if_neg h]
  refine ⟨?_, ?_, ?_⟩
  · exact presetPhase_terminal m _ _
  · exact instPhase_terminal m _ _
  · exact (samplePhase_terminal m _).1

theorem c3_sentinel_amended_witness :
    keptPresetIdxs baseModel [(0, 0)] ≠ [] ∧
    ((subset_sf2 baseModel [(0, 0)]).1.samples.getLast?.map
      (fun s => s.new_start)) = some 4 :=
  ⟨by decide, by
    have h := (c3_sentinel_amended baseModel [(0, 0)] (by decide)).2.2
    rw [h]
    decide⟩

/-! ## Claim C10 -/

theorem u32_pack32 (x : Nat) (rest : List Nat) :
    u32 (pack32 x ++ rest) 0 = x := by
  simp only [u32, pack32, List.cons_append, List.nil_append,
    List.getD_cons_zero, List.getD_cons_succ]
  omega

theorem u32_append_offset (l rest : List Nat) (k : Nat) :
    u32 (l ++ rest) (l.length + k) = u32 rest k := by
  have e1 : l.length + k + 1 = l.length + (k + 1) := by omega
  have e2 : l.length + k + 2 = l.length + (k + 2) := by omega
  have e3 : l.length + k + 3 = l.length + (k + 3) := by omega
  simp only [u32, e1, e2, e3, getD_append_offset]

/-- Splitting a single padded chunk as written by `write_chunk` /
the `INFO` body builder. -/
theorem splitChunks_single (tag data : List Nat) (htag : tag.length = 4) :
    splitChunks (chunkBytes tag data) = some [(tag, data)] := by
  set pad := (if data.length % 2 = 1 then ([0] : List Nat) else []) with hpad
  have hchunk : chunkBytes tag data =
      tag ++ (pack32 data.length ++ (data ++ pad)) := by
    simp [chunkBytes, List.append_assoc, hpad]
  have hchunk2 : chunkBytes tag data =
      (tag ++ pack32 data.length) ++ (data ++ pad) := by
    simp [chunkBytes, List.append_assoc, hpad]
  have hchunk3 : chunkBytes tag data =
      (tag ++ pack32 data.length ++ data) ++ pad := by
    simp [chunkBytes, List.append_assoc, hpad]
  have h8 : (tag ++ pack32 data.length).length = 8 := by
    simp [htag, pack32]
  have h8d : (tag ++ pack32 data.length ++ data).length =
      8 + data.length := by
    simp [htag, pack32]
    omega
  have hne : chunkBytes tag data ≠ [] := by
    rw [hchunk2]
    intro hcontra
    have := congrArg List.length hcontra
    rw [List.length_append, h8] at this
    simp at this
  have hu32 : u32 (chunkBytes tag data) 4 = data.length := by
    rw [hchunk, (by omega : (4 : Nat) = tag.length + 0), u32_append_offset]
    exact u32_pack32 _ _
  rw [splitChunks_cons _ hne, hu32]
  have hlenc : (chunkBytes tag data).length =
      8 + data.length + pad.length := by
    rw [hchunk2, List.length_append, h8, List.length_append]
    omega
  have hpadlen : pad.length ≤ 1 := by
    rw [hpad]
    split <;> simp
  rw [if_pos (by omega)]
  have hdrop8 : (chunkBytes tag data).drop 8 = data ++ pad := by
    rw [hchunk2, ← h8, List.drop_left]
  have htake : ((chunkBytes tag data).drop 8).take data.length = data := by
    rw [hdrop8, List.take_left' rfl]
  have hdroprest : ((chunkBytes tag data).drop (8 + data.length)).drop
      (data.length % 2) = [] := by
    have h1 : (chunkBytes tag data).drop (8 + data.length) = pad := by
      rw [hchunk3, ← h8d, List.drop_left]
    rw [h1, hpad]
    split <;> rename_i hsplit
    · rw [hsplit]
      rfl
    · simp
  rw [hdroprest, htake]
  have htag4 : (chunkBytes tag data).take 4 = tag := by
    rw [hchunk, ← htag, List.take_left]
  rw [htag4]
  rfl

/-- C10: the subsetting pipeline drops the 24-bit extension.  The model
built by `subset_sf2` always carries an empty `sample_data_24` (on both
the normal and the no-match path), and the `sdta` section emitted by
`write_sf2` for it consists of exactly one `smpl` sub-chunk — re-parsing
it yields the PCM blob and an *empty* `sm24` extension, whatever the
parsed input contained. -/
theorem c10_sm24_dropped (m : SF2File) (w : List (Nat × Nat)) :
    (subset_sf2 m w).1.sample_data_24 = [] ∧
    splitChunks (sdtaBody (subset_sf2 m w).1) =
      some [(strBytes "smpl", (subset_sf2 m w).1.sample_data)] ∧
    parseSdtaChunks [] []
        [(strBytes "smpl", (subset_sf2 m w).1.sample_data)] =
      ((subset_sf2 m w).1.sample_data, []) := by
  refine ⟨?_, ?_, ?_⟩
  · by_cases hk : keptPresetIdxs m w = [] <;> simp [subset_sf2, hk]
  · exact splitChunks_single _ _ (by rfl)
  · rfl

theorem c10_sm24_dropped_witness :
    (subset_sf2 baseModel [(0, 0)]).1.sample_data_24 = [] ∧
    splitChunks (sdtaBody (subset_sf2 baseModel [(0, 0)]).1) =
      some [(strBytes "smpl", (subset_sf2 baseModel [(0, 0)]).1.sample_data)]
    :=
  ⟨(c10_sm24_dropped baseModel [(0, 0)]).1,
   (c10_sm24_dropped baseModel [(0, 0)]).2.1⟩

/-! ## Claim C6 -/

/-- If every short non-empty slice makes the record decoder fail, then a
table whose byte length is not a multiple of the record size fails to
parse: the trailing partial slice (or an earlier failure) aborts the
whole table. -/
theorem parseTable_not_dvd (sz : Nat) (fb : List Nat → Option α)
    (hsz : 0 < sz)
    (hfb : ∀ c : List Nat, c ≠ [] → c.length < sz → fb c = none) :
    ∀ n (data : List Nat), data.length ≤ n → ¬ (sz ∣ data.length) →
    parseTable sz fb data = none := by
  intro n
  induction n with
  | zero =>
      intro data hlen hdvd
      have h0 : data.length = 0 := Nat.le_zero.mp hlen
      exact absurd (by rw [h0]; exact dvd_zero sz) hdvd
  | succ n ih =>
      intro data hlen hdvd
      have hne : data ≠ [] := by
        intro hc
        exact hdvd (by rw [hc]; exact dvd_zero sz)
      have hdpos : 0 < data.length := List.length_pos.mpr hne
      rw [parseTable_cons sz fb data hsz hne]
      by_cases hshort : data.length < sz
      · rw [hfb (data.take sz)
            (by
              intro hc
              have := congrArg List.length hc
              simp only [List.length_take, List.length_nil] at this
              omega)
            (by simp only [List.length_take]; omega)]
        rfl
      · cases hval : fb (data.take sz) with
        | none => rfl
        | some r =>
            rw [ih (data.drop sz)
              (by simp only [List.length_drop]; omega)
              (by
                simp only [List.length_drop]
                rintro ⟨k, hk⟩
                refine hdvd ⟨k + 1, ?_⟩
                have hm : sz * (k + 1) = sz * k + sz := by ring
                omega)]
            rfl

theorem presetFB_short (c : List Nat) (_hne : c ≠ []) (hlt : c.length < 38) :
    SF2Preset.from_bytes c = none := by
  simp [SF2Preset.from_bytes]
  omega

theorem bagFB_short (c : List Nat) (_hne : c ≠ []) (hlt : c.length < 4) :
    SF2Bag.from_bytes c = none := by
  simp [SF2Bag.from_bytes]
  omega

theorem modFB_short (c : List Nat) (_hne : c ≠ []) (hlt : c.length < 10) :
    SF2Modulator.from_bytes c = none := by
  simp [SF2Modulator.from_bytes]
  omega

theorem genFB_short (c : List Nat) (_hne : c ≠ []) (hlt : c.length < 4) :
    SF2Generator.from_bytes c = none := by
  simp [SF2Generator.from_bytes]
  omega

theorem instFB_short (c : List Nat) (_hne : c ≠ []) (hlt : c.length < 22) :
    SF2Inst.from_bytes c = none := by
  simp [SF2Inst.from_bytes]
  omega

theorem sampleFB_short (c : List Nat) (_hne : c ≠ []) (hlt : c.length < 46) :
    SF2Sample.from_bytes c = none := by
  simp [SF2Sample.from_bytes]
  omega

/-- The fixed record size `parse_sf2` uses for each `pdta` sub-chunk id
(38 for `phdr`, 4 for the bag and generator tables, 10 for the modulator
tables, 22 for `inst`, 46 for `shdr`). -/
def pdtaRecordSize (tag : List Nat) : Nat :=
  if tag = strBytes "phdr" then 38
  else if tag = strBytes "pbag" then 4
  else if tag = strBytes "pmod" then 10
  else if tag = strBytes "pgen" then 4
  else if tag = strBytes "inst" then 22
  else if tag = strBytes "ibag" then 4
  else if tag = strBytes "imod" then 10
  else if tag = strBytes "igen" then 4
  else if tag = strBytes "shdr" then 46
  else 0

/-- The nine record-table sub-chunk ids of the `pdta` list. -/
def pdtaRecordTags : List (List Nat) :=
  [strBytes "phdr", strBytes "pbag", strBytes "pmod", strBytes "pgen",
   strBytes "inst", strBytes "ibag", strBytes "imod", strBytes "igen",
   strBytes "shdr"]

theorem parsePdtaChunk_phdr (acc : SF2File) (data : List Nat) :
    parsePdtaChunk acc (strBytes "phdr", data) = (parsePhdrData data).map
      (fun rs => { acc with presets := acc.presets ++ rs }) := by rfl

theorem parsePdtaChunk_pbag (acc : SF2File) (data : List Nat) :
    parsePdtaChunk acc (strBytes "pbag", data) = (parsePbagData data).map
      (fun rs => { acc with preset_bags := acc.preset_bags ++ rs }) := by rfl

theorem parsePdtaChunk_pmod (acc : SF2File) (data : List Nat) :
    parsePdtaChunk acc (strBytes "pmod", data) = (parsePmodData data).map
      (fun rs => { acc with preset_mods := acc.preset_mods ++ rs }) := by rfl

theorem parsePdtaChunk_pgen (acc : SF2File) (data : List Nat) :
    parsePdtaChunk acc (strBytes "pgen", data) = (parsePgenData data).map
      (fun rs => { acc with preset_gens := acc.preset_gens ++ rs }) := by rfl

theorem parsePdtaChunk_inst (acc : SF2File) (data : List Nat) :
    parsePdtaChunk acc (strBytes "inst", data) = (parseInstData data).map
      (fun rs => { acc with instruments := acc.instruments ++ rs }) := by rfl

theorem parsePdtaChunk_ibag (acc : SF2File) (data : List Nat) :
    parsePdtaChunk acc (strBytes "ibag", data) = (parseIbagData data).map
      (fun rs => { acc with inst_bags := acc.inst_bags ++ rs }) := by rfl

theorem parsePdtaChunk_imod (acc : SF2File) (data : List Nat) :
    parsePdtaChunk acc (strBytes "imod", data) = (parseImodData data).map
      (fun rs => { acc with inst_mods := acc.inst_mods ++ rs }) := by rfl

theorem parsePdtaChunk_igen (acc : SF2File) (data : List Nat) :
    parsePdtaChunk acc (strBytes "igen", data) = (parseIgenData data).map
      (fun rs => { acc with inst_gens := acc.inst_gens ++ rs }) := by rfl

theorem parsePdtaChunk_shdr (acc : SF2File) (data : List Nat) :
    parsePdtaChunk acc (strBytes "shdr", data) = (parseShdrData data).map
      (fun rs => { acc with samples := acc.samples ++ rs }) := by rfl

/-- A record sub-chunk whose byte length is not a multiple of its fixed
record size makes the single-chunk dispatch fail. -/
theorem parsePdtaChunk_malformed (acc : SF2File) (tag data : List Nat)
    (htag : tag ∈ pdtaRecordTags)
    (hbad : ¬ (pdtaRecordSize tag ∣ data.length)) :
    parsePdtaChunk acc (tag, data) = none := by
  simp only [pdtaRecordTags, List.mem_cons, List.not_mem_nil, or_false]
    at htag
  rcases htag with h | h | h | h | h | h | h | h | h <;> subst h
  · rw [parsePdtaChunk_phdr,
      show parsePhdrData data = none from
        parseTable_not_dvd 38 _ (by omega) presetFB_short data.length data
          le_rfl (by
            rw [show pdtaRecordSize (strBytes "phdr") = 38 from by decide]
              at hbad
            exact hbad)]
    rfl
  · rw [parsePdtaChunk_pbag,
      show parsePbagData data = none from
        parseTable_not_dvd 4 _ (by omega) bagFB_short data.length data
          le_rfl (by
            rw [show pdtaRecordSize (strBytes "pbag") = 4 from by decide]
              at hbad
            exact hbad)]
    rfl
  · rw [parsePdtaChunk_pmod,
      show parsePmodData data = none from
        parseTable_not_dvd 10 _ (by omega) modFB_short data.length data
          le_rfl (by
            rw [show pdtaRecordSize (strBytes "pmod") = 10 from by decide]
              at hbad
            exact hbad)]
    rfl
  · rw [parsePdtaChunk_pgen,
      show parsePgenData data = none from
        parseTable_not_dvd 4 _ (by omega) genFB_short data.length data
          le_rfl (by
            rw [show pdtaRecordSize (strBytes "pgen") = 4 from by decide]
              at hbad
            exact hbad)]
    rfl
  · rw [parsePdtaChunk_inst,
      show parseInstData data = none from
        parseTable_not_dvd 22 _ (by omega) instFB_short data.length data
          le_rfl (by
            rw [show pdtaRecordSize (strBytes "inst") = 22 from by decide]
              at hbad
            exact hbad)]
    rfl
  · rw [parsePdtaChunk_ibag,
      show parseIbagData data = none from
        parseTable_not_dvd 4 _ (by omega) bagFB_short data.length data
          le_rfl (by
            rw [show pdtaRecordSize (strBytes "ibag") = 4 from by decide]
              at hbad
            exact hbad)]
    rfl
  · rw [parsePdtaChunk_imod,
      show parseImodData data = none from
        parseTable_not_dvd 10 _ (by omega) modFB_short data.length data
          le_rfl (by
            rw [show pdtaRecordSize (strBytes "imod") = 10 from by decide]
              at hbad
            exact hbad)]
    rfl
  · rw [parsePdtaChunk_igen,
      show parseIgenData data = none from
        parseTable_not_dvd 4 _ (by omega) genFB_short data.length data
          le_rfl (by
            rw [show pdtaRecordSize (strBytes "igen") = 4 from by decide]
              at hbad
            exact hbad)]
    rfl
  · rw [parsePdtaChunk_shdr,
      show parseShdrData data = none from
        parseTable_not_dvd 46 _ (by omega) sampleFB_short data.length data
          le_rfl (by
            rw [show pdtaRecordSize (strBytes "shdr") = 46 from by decide]
              at hbad
            exact hbad)]
    rfl

/-- C6: if any record-data sub-chunk of the `pdta` list has a byte
length that is not an exact multiple of its fixed record size (38 for
presets, 4 for bags and generators, 10 for modulators, 22 for
instruments, 46 for samples), the whole `pdta` parse fails — the record
decoder raises on the trailing partial slice and no model (not even a
partial one) is produced. -/
theorem c6_malformed_record (chunks : List (List Nat × List Nat))
    (acc : SF2File) (tag data : List Nat)
    (hmem : (tag, data) ∈ chunks) (htag : tag ∈ pdtaRecordTags)
    (hbad : ¬ (pdtaRecordSize tag ∣ data.length)) :
    parsePdtaChunks acc chunks = none := by
  induction chunks generalizing acc with
  | nil => cases hmem
  | cons c rest ih =>
      rcases List.mem_cons.mp hmem with hhead | htail
      · rw [parsePdtaChunks, ← hhead,
          parsePdtaChunk_malformed acc tag data htag hbad]
        rfl
      · rw [parsePdtaChunks]
        cases hdisp : parsePdtaChunk acc c with
        | none => rfl
        | some acc' => exact ih acc' htail

theorem c6_malformed_record_witness :
    ((strBytes "phdr", List.replicate 39 0) ∈
      [((strBytes "phdr" : List Nat), List.replicate (39 : Nat) (0 : Nat))]) ∧
    (strBytes "phdr" ∈ pdtaRecordTags) ∧
    ¬ (pdtaRecordSize (strBytes "phdr") ∣ (List.replicate 39 (0 : Nat)).length) ∧
    parsePdtaChunks {} [(strBytes "phdr", List.replicate 39 0)] = none :=
  ⟨by decide, by decide, by decide,
   c6_malformed_record _ {} (strBytes "phdr") (List.replicate 39 0)
     (by decide) (by decide) (by decide)⟩

/-! ## Claim C9 -/

theorem mem_pyInsert [DecidableEq α] (l : List α) (a x : α) :
    x ∈ pyInsert l a ↔ x = a ∨ x ∈ l := by
  unfold pyInsert
  split <;> rename_i hmem
  · constructor
    · exact Or.inr
    · rintro (rfl | hx) <;> assumption
  · simp [List.mem_append, or_comm]

/-- One file's contribution step of `scan_midi_directory`. -/
def scanDirStep (acc : List (Nat × Nat) × Bool) (f : List Nat) :
    List (Nat × Nat) × Bool :=
  let scanned := scan_midi_for_programs f
  (scanned.1.foldl
      (fun needed cp =>
        if cp.1 ≠ 9 then pyInsert needed (0, cp.2) else needed)
      acc.1,
    acc.2 || (9 ∈ scanned.2))

theorem scan_midi_directory_eq (files : List (List Nat)) :
    scan_midi_directory files =
      (if (files.foldl scanDirStep ([], false)).2 then
        pyInsert (files.foldl scanDirStep ([], false)).1 (128, 0)
      else (files.foldl scanDirStep ([], false)).1) := rfl


theorem inner_fold_mono (ps : List (Nat × Nat)) :
    ∀ (acc : List (Nat × Nat)) (x : Nat × Nat), x ∈ acc →
      x ∈ ps.foldl
        (fun needed cp =>
          if cp.1 ≠ 9 then pyInsert needed (0, cp.2) else needed) acc := by
  induction ps with
  | nil => intro acc x hx; exact hx
  | cons p t ih =>
      intro acc x hx
      rw [List.foldl_cons]
      refine ih _ x ?_
      split
      · exact (mem_pyInsert _ _ _).mpr (Or.inr hx)
      · exact hx

theorem inner_fold_adds (ps : List (Nat × Nat)) :
    ∀ (acc : List (Nat × Nat)) (cp : Nat × Nat), cp ∈ ps → cp.1 ≠ 9 →
      (0, cp.2) ∈ ps.foldl
        (fun needed cp =>
          if cp.1 ≠ 9 then pyInsert needed (0, cp.2) else needed) acc := by
  induction ps with
  | nil => intro acc cp hcp; cases hcp
  | cons p t ih =>
      intro acc cp hcp hne
      rw [List.foldl_cons]
      rcases List.mem_cons.mp hcp with rfl | htail
      · rw [if_pos hne]
        exact inner_fold_mono t _ _ ((mem_pyInsert _ _ _).mpr (Or.inl rfl))
      · exact ih _ cp htail hne

theorem scanDir_fold_mono (files : List (List Nat)) :
    ∀ (acc : List (Nat × Nat) × Bool) (x : Nat × Nat), x ∈ acc.1 →
      x ∈ (files.foldl scanDirStep acc).1 := by
  induction files with
  | nil => intro acc x hx; exact hx
  | cons g t ih =>
      intro acc x hx
      rw [List.foldl_cons]
      exact ih _ x (inner_fold_mono _ _ _ hx)

theorem scanDir_fold_mem (files : List (List Nat)) :
    ∀ (acc : List (Nat × Nat) × Bool) (f : List Nat), f ∈ files →
      ∀ cp ∈ (scan_midi_for_programs f).1, cp.1 ≠ 9 →
        (0, cp.2) ∈ (files.foldl scanDirStep acc).1 := by
  induction files with
  | nil => intro acc f hf; cases hf
  | cons g t ih =>
      intro acc f hf cp hcp hne
      rw [List.foldl_cons]
      rcases List.mem_cons.mp hf with rfl | htail
      · exact scanDir_fold_mono t _ _ (inner_fold_adds _ _ cp hcp hne)
      · exact ih _ f htail cp hcp hne

theorem scanDir_fold_bool (files : List (List Nat)) :
    ∀ (acc : List (Nat × Nat) × Bool),
      ((∃ f ∈ files, 9 ∈ (scan_midi_for_programs f).2) ∨ acc.2 = true) →
      (files.foldl scanDirStep acc).2 = true := by
  induction files with
  | nil =>
      intro acc h
      rcases h with ⟨f, hf, _⟩ | h
      · cases hf
      · exact h
  | cons g t ih =>
      intro acc h
      rw [List.foldl_cons]
      rcases h with ⟨f, hf, h9⟩ | hacc
      · rcases List.mem_cons.mp hf with rfl | htail
        · refine ih _ (Or.inr ?_)
          simp [scanDirStep, h9]
        · exact ih _ (Or.inl ⟨f, htail, h9⟩)
      · refine ih _ (Or.inr ?_)
        simp [scanDirStep, hacc]

/-- C9: the wanted set produced by the MIDI scan contains a
`(bank 0, program)` entry for every program-change the byte scan
observes on a channel other than 9, and contains `(128, 0)` whenever
any scanned file carries a note-on on channel 9, even absent any
program-change on that channel. -/
theorem c9_midi_scan (files : List (List Nat)) (f : List Nat)
    (hf : f ∈ files) :
    (∀ cp ∈ (scan_midi_for_programs f).1, cp.1 ≠ 9 →
      (0, cp.2) ∈ scan_midi_directory files) ∧
    (9 ∈ (scan_midi_for_programs f).2 →
      (128, 0) ∈ scan_midi_directory files) := by
  rw [scan_midi_directory_eq]
  constructor
  · intro cp hcp hne
    have hmem := scanDir_fold_mem files ([], false) f hf cp hcp hne
    split
    · exact (mem_pyInsert _ _ _).mpr (Or.inr hmem)
    · exact hmem
  · intro h9
    have hbool := scanDir_fold_bool files ([], false)
      (Or.inl ⟨f, hf, h9⟩)
    rw [if_pos hbool]
    exact (mem_pyInsert _ _ _).mpr (Or.inl rfl)

theorem c9_midi_scan_witness :
    ([0xC0, 5, 0x99, 60, 100] ∈ [[0xC0, 5, 0x99, 60, 100]] : Prop) ∧
    (0, 5) ∈ scan_midi_directory [[0xC0, 5, 0x99, 60, 100]] ∧
    (128, 0) ∈ scan_midi_directory [[0xC0, 5, 0x99, 60, 100]] :=
  ⟨by decide,
   (c9_midi_scan [[0xC0, 5, 0x99, 60, 100]] [0xC0, 5, 0x99, 60, 100]
      (by decide)).1 (0, 5) (by decide) (by decide),
   (c9_midi_scan [[0xC0, 5, 0x99, 60, 100]] [0xC0, 5, 0x99, 60, 100]
      (by decide)).2 (by decide)⟩

/-! ## Claim C1 -/

theorem padName_length (n : List Nat) : (padName n).length = 20 := by
  simp [padName]

theorem u16_pack16 (x : Nat) (rest : List Nat) :
    u16 (pack16 x ++ rest) 0 = x := by
  simp only [u16, pack16, List.cons_append, List.nil_append,
    List.getD_cons_zero, List.getD_cons_succ]
  omega

theorem u16_append_offset (l rest : List Nat) (k : Nat) :
    u16 (l ++ rest) (l.length + k) = u16 rest k := by
  simp only [u16]
  rw [getD_append_offset, Nat.add_assoc, getD_append_offset]

theorem i16_pack16i (z : Int) (rest : List Nat) (h1 : -32768 ≤ z)
    (h2 : z < 32768) : i16 (pack16i z ++ rest) 0 = z := by
  unfold i16 pack16i
  rw [u16_pack16]
  by_cases h : (z % 65536).toNat < 32768 <;> simp [h] <;> omega

theorem dropWhile_zero_replicate (k : Nat) (l : List Nat) :
    List.dropWhile (· == 0) (List.replicate k 0 ++ l) =
      List.dropWhile (· == 0) l := by
  induction k with
  | zero => rfl
  | succ n ih => simp [List.replicate_succ, ih]

theorem dropTrailingZeros_pad (n : List Nat) (h1 : n.length ≤ 20)
    (h2 : dropTrailingZeros n = n) : dropTrailingZeros (padName n) = n := by
  have hpad : padName n = n ++ List.replicate (20 - n.length) 0 := by
    unfold padName
    rw [List.take_of_length_le h1]
  have hdw : List.dropWhile (· == 0) n.reverse = n.reverse := by
    have h3 := congrArg List.reverse h2
    unfold dropTrailingZeros at h3
    rwa [List.reverse_reverse] at h3
  unfold dropTrailingZeros
  rw [hpad, List.reverse_append, List.reverse_replicate,
    dropWhile_zero_replicate, hdw, List.reverse_reverse]

theorem stripName_pad (n : List Nat) (rest : List Nat) (h1 : n.length ≤ 20)
    (h2 : dropTrailingZeros n = n) :
    stripName (padName n ++ rest) = n := by
  unfold stripName
  rw [List.take_left' (padName_length n), dropTrailingZeros_pad n h1 h2]

/-- The record types parsed back from their own serialization:
`bag_idx` comes back as the written runtime `new_bag_idx`, the runtime
fields reset to their defaults. -/
def presetReparse (p : SF2Preset) : SF2Preset :=
  { name := p.name, preset := p.preset, bank := p.bank
    bag_idx := p.new_bag_idx, library := p.library, genre := p.genre
    morphology := p.morphology }

def instReparse (i : SF2Inst) : SF2Inst :=
  { name := i.name, bag_idx := i.new_bag_idx }

/-- A sample parsed back from its own serialization (for an as-parsed
record with `new_start = new_end = 0`): offsets replaced by the runtime
fields, loop points rebased against the old `start`. -/
def sampleReparse (s : SF2Sample) : SF2Sample :=
  { name := s.name, start := s.new_start, end_ := s.new_end
    loop_start := s.new_start + (s.loop_start - s.start)
    loop_end := s.new_start + (s.loop_end - s.start)
    sample_rate := s.sample_rate, original_pitch := s.original_pitch
    pitch_correction := s.pitch_correction, sample_link := s.sample_link
    sample_type := s.sample_type }

/-- Name well-formedness of a parsed record: at most 20 bytes and no
trailing zero byte — exactly what `from_bytes` produces. -/
def NameWF (n : List Nat) : Prop :=
  n.length ≤ 20 ∧ dropTrailingZeros n = n

instance (n : List Nat) : Decidable (NameWF n) := by
  unfold NameWF
  infer_instance

theorem u16_pack16_nil (x : Nat) : u16 (pack16 x) 0 = x := by
  have := u16_pack16 x []
  rwa [List.append_nil] at this

theorem u32_pack32_nil (x : Nat) : u32 (pack32 x) 0 = x := by
  have := u32_pack32 x []
  rwa [List.append_nil] at this

theorem bag_from_to (b : SF2Bag) :
    (SF2Bag.to_bytes b).length = 4 ∧
    SF2Bag.from_bytes (SF2Bag.to_bytes b) = some b := by
  have hlen : (SF2Bag.to_bytes b).length = 4 := by
    simp [SF2Bag.to_bytes, pack16]
  refine ⟨hlen, ?_⟩
  unfold SF2Bag.from_bytes
  rw [if_pos hlen]
  have f0 : u16 (SF2Bag.to_bytes b) 0 = b.gen_idx := u16_pack16 _ _
  have f2 : u16 (SF2Bag.to_bytes b) 2 = b.mod_idx := by
    rw [show SF2Bag.to_bytes b = pack16 b.gen_idx ++ pack16 b.mod_idx
        from rfl,
      show (2 : Nat) = (pack16 b.gen_idx).length + 0 from by simp [pack16],
      u16_append_offset, u16_pack16_nil]
  rw [f0, f2]

theorem gen_from_to (g : SF2Generator) :
    (SF2Generator.to_bytes g).length = 4 ∧
    SF2Generator.from_bytes (SF2Generator.to_bytes g) = some g := by
  have hlen : (SF2Generator.to_bytes g).length = 4 := by
    simp [SF2Generator.to_bytes, pack16]
  refine ⟨hlen, ?_⟩
  unfold SF2Generator.from_bytes
  rw [if_pos hlen]
  have f0 : u16 (SF2Generator.to_bytes g) 0 = g.oper := u16_pack16 _ _
  have f2 : u16 (SF2Generator.to_bytes g) 2 = g.amount := by
    rw [show SF2Generator.to_bytes g = pack16 g.oper ++ pack16 g.amount
        from rfl,
      show (2 : Nat) = (pack16 g.oper).length + 0 from by simp [pack16],
      u16_append_offset, u16_pack16_nil]
  rw [f0, f2]

theorem mod_from_to (mo : SF2Modulator) (h1 : -32768 ≤ mo.amount)
    (h2 : mo.amount < 32768) :
    (SF2Modulator.to_bytes mo).length = 10 ∧
    SF2Modulator.from_bytes (SF2Modulator.to_bytes mo) = some mo := by
  have hlen : (SF2Modulator.to_bytes mo).length = 10 := by
    simp [SF2Modulator.to_bytes, pack16, pack16i]
  refine ⟨hlen, ?_⟩
  unfold SF2Modulator.from_bytes
  rw [if_pos hlen]
  have f0 : u16 (SF2Modulator.to_bytes mo) 0 = mo.src := u16_pack16 _ _
  have f2 : u16 (SF2Modulator.to_bytes mo) 2 = mo.dest := by
    rw [show SF2Modulator.to_bytes mo = (pack16 mo.src) ++
        (pack16 mo.dest ++ (pack16i mo.amount ++ (pack16 mo.amt_src ++
          pack16 mo.transform))) from by
        simp [SF2Modulator.to_bytes, List.append_assoc],
      show (2 : Nat) = (pack16 mo.src).length + 0 from by simp [pack16],
      u16_append_offset, u16_pack16]
  have f4 : i16 (SF2Modulator.to_bytes mo) 4 = mo.amount := by
    rw [show SF2Modulator.to_bytes mo = (pack16 mo.src ++ pack16 mo.dest) ++
        (pack16i mo.amount ++ (pack16 mo.amt_src ++ pack16 mo.transform))
        from by simp [SF2Modulator.to_bytes, List.append_assoc],
      show (4 : Nat) = (pack16 mo.src ++ pack16 mo.dest).length + 0 from by
        simp [pack16]]
    unfold i16
    rw [u16_append_offset]
    have := i16_pack16i mo.amount (pack16 mo.amt_src ++ pack16 mo.transform)
      h1 h2
    unfold i16 at this
    simpa using this
  have f6 : u16 (SF2Modulator.to_bytes mo) 6 = mo.amt_src := by
    rw [show SF2Modulator.to_bytes mo = (pack16 mo.src ++ pack16 mo.dest ++
        pack16i mo.amount) ++ (pack16 mo.amt_src ++ pack16 mo.transform)
        from by simp [SF2Modulator.to_bytes, List.append_assoc],
      show (6 : Nat) = (pack16 mo.src ++ pack16 mo.dest ++
        pack16i mo.amount).length + 0 from by simp [pack16, pack16i],
      u16_append_offset, u16_pack16]
  have f8 : u16 (SF2Modulator.to_bytes mo) 8 = mo.transform := by
    rw [show SF2Modulator.to_bytes mo = (pack16 mo.src ++ pack16 mo.dest ++
        pack16i mo.amount ++ pack16 mo.amt_src) ++ pack16 mo.transform
        from by simp [SF2Modulator.to_bytes, List.append_assoc],
      show (8 : Nat) = (pack16 mo.src ++ pack16 mo.dest ++
        pack16i mo.amount ++ pack16 mo.amt_src).length + 0 from by
        simp [pack16, pack16i],
      u16_append_offset, u16_pack16_nil]
  rw [f0, f2, f4, f6, f8]

theorem preset_from_to (p : SF2Preset) (h : NameWF p.name) :
    (SF2Preset.to_bytes p).length = 38 ∧
    SF2Preset.from_bytes (SF2Preset.to_bytes p) = some (presetReparse p) := by
  obtain ⟨h1, h2⟩ := h
  have hlen : (SF2Preset.to_bytes p).length = 38 := by
    simp [SF2Preset.to_bytes, padName_length, pack16, pack32]
  refine ⟨hlen, ?_⟩
  unfold SF2Preset.from_bytes
  rw [if_pos (by omega)]
  have hname : stripName (SF2Preset.to_bytes p) = p.name := by
    rw [show SF2Preset.to_bytes p = padName p.name ++ (pack16 p.preset ++
        (pack16 p.bank ++ (pack16 p.new_bag_idx ++ (pack32 p.library ++
          (pack32 p.genre ++ pack32 p.morphology))))) from by
        simp [SF2Preset.to_bytes, List.append_assoc]]
    exact stripName_pad p.name _ h1 h2
  have f20 : u16 (SF2Preset.to_bytes p) 20 = p.preset := by
    rw [show SF2Preset.to_bytes p = padName p.name ++ (pack16 p.preset ++
        (pack16 p.bank ++ (pack16 p.new_bag_idx ++ (pack32 p.library ++
          (pack32 p.genre ++ pack32 p.morphology))))) from by
        simp [SF2Preset.to_bytes, List.append_assoc],
      show (20 : Nat) = (padName p.name).length + 0 from by
        rw [padName_length],
      u16_append_offset, u16_pack16]
  have f22 : u16 (SF2Preset.to_bytes p) 22 = p.bank := by
    rw [show SF2Preset.to_bytes p = (padName p.name ++ pack16 p.preset) ++
        (pack16 p.bank ++ (pack16 p.new_bag_idx ++ (pack32 p.library ++
          (pack32 p.genre ++ pack32 p.morphology)))) from by
        simp [SF2Preset.to_bytes, List.append_assoc],
      show (22 : Nat) = (padName p.name ++ pack16 p.preset).length + 0
        from by simp [padName_length, pack16],
      u16_append_offset, u16_pack16]
  have f24 : u16 (SF2Preset.to_bytes p) 24 = p.new_bag_idx := by
    rw [show SF2Preset.to_bytes p = (padName p.name ++ pack16 p.preset ++
        pack16 p.bank) ++ (pack16 p.new_bag_idx ++ (pack32 p.library ++
          (pack32 p.genre ++ pack32 p.morphology))) from by
        simp [SF2Preset.to_bytes, List.append_assoc],
      show (24 : Nat) = (padName p.name ++ pack16 p.preset ++
        pack16 p.bank).length + 0 from by simp [padName_length, pack16],
      u16_append_offset, u16_pack16]
  have f26 : u32 (SF2Preset.to_bytes p) 26 = p.library := by
    rw [show SF2Preset.to_bytes p = (padName p.name ++ pack16 p.preset ++
        pack16 p.bank ++ pack16 p.new_bag_idx) ++ (pack32 p.library ++
          (pack32 p.genre ++ pack32 p.morphology)) from by
        simp [SF2Preset.to_bytes, List.append_assoc],
      show (26 : Nat) = (padName p.name ++ pack16 p.preset ++
        pack16 p.bank ++ pack16 p.new_bag_idx).length + 0 from by
        simp [padName_length, pack16],
      u32_append_offset, u32_pack32]
  have f30 : u32 (SF2Preset.to_bytes p) 30 = p.genre := by
    rw [show SF2Preset.to_bytes p = (padName p.name ++ pack16 p.preset ++
        pack16 p.bank ++ pack16 p.new_bag_idx ++ pack32 p.library) ++
        (pack32 p.genre ++ pack32 p.morphology) from by
        simp [SF2Preset.to_bytes, List.append_assoc],
      show (30 : Nat) = (padName p.name ++ pack16 p.preset ++
        pack16 p.bank ++ pack16 p.new_bag_idx ++ pack32 p.library).length +
        0 from by simp [padName_length, pack16, pack32],
      u32_append_offset, u32_pack32]
  have f34 : u32 (SF2Preset.to_bytes p) 34 = p.morphology := by
    rw [show SF2Preset.to_bytes p = (padName p.name ++ pack16 p.preset ++
        pack16 p.bank ++ pack16 p.new_bag_idx ++ pack32 p.library ++
        pack32 p.genre) ++ pack32 p.morphology from by
        simp [SF2Preset.to_bytes, List.append_assoc],
      show (34 : Nat) = (padName p.name ++ pack16 p.preset ++
        pack16 p.bank ++ pack16 p.new_bag_idx ++ pack32 p.library ++
        pack32 p.genre).length + 0 from by
        simp [padName_length, pack16, pack32],
      u32_append_offset, u32_pack32_nil]
  rw [hname, f20, f22, f24, f26, f30, f34]
  rfl

theorem inst_from_to (i : SF2Inst) (h : NameWF i.name) :
    (SF2Inst.to_bytes i).length = 22 ∧
    SF2Inst.from_bytes (SF2Inst.to_bytes i) = some (instReparse i) := by
  obtain ⟨h1, h2⟩ := h
  have hlen : (SF2Inst.to_bytes i).length = 22 := by
    simp [SF2Inst.to_bytes, padName_length, pack16]
  refine ⟨hlen, ?_⟩
  unfold SF2Inst.from_bytes
  rw [if_pos (by omega)]
  have hname : stripName (SF2Inst.to_bytes i) = i.name :=
    stripName_pad i.name _ h1 h2
  have f20 : u16 (SF2Inst.to_bytes i) 20 = i.new_bag_idx := by
    rw [show SF2Inst.to_bytes i = padName i.name ++ pack16 i.new_bag_idx
        from rfl,
      show (20 : Nat) = (padName i.name).length + 0 from by
        rw [padName_length],
      u16_append_offset, u16_pack16_nil]
  rw [hname, f20]
  rfl

theorem u32_pack32i (z : Int) (rest : List Nat) :
    u32 (pack32i z ++ rest) 0 = (z % 4294967296).toNat :=
  u32_pack32 _ _

theorem getD_pack8 (x : Nat) (rest : List Nat) :
    (pack8 x ++ rest).getD 0 0 = x % 256 := by
  simp [pack8]

theorem sample_from_to (s : SF2Sample) (hn : NameWF s.name)
    (hp : s.original_pitch < 256) (hc : s.pitch_correction < 256)
    (hns : s.new_start = 0) (hl1 : s.start ≤ s.loop_start)
    (hl2 : s.start ≤ s.loop_end) (hb1 : s.loop_start < 4294967296)
    (hb2 : s.loop_end < 4294967296) :
    (SF2Sample.to_bytes s).length = 46 ∧
    SF2Sample.from_bytes (SF2Sample.to_bytes s) = some (sampleReparse s) := by
  obtain ⟨h1, h2⟩ := hn
  have hlen : (SF2Sample.to_bytes s).length = 46 := by
    simp [SF2Sample.to_bytes, padName_length, pack16, pack32, pack32i,
      pack8, pack16i]
  refine ⟨hlen, ?_⟩
  unfold SF2Sample.from_bytes
  rw [if_pos (by omega)]
  have hname : stripName (SF2Sample.to_bytes s) = s.name := by
    rw [show SF2Sample.to_bytes s = padName s.name ++ (pack32 s.new_start ++
        (pack32 s.new_end ++ (pack32i ((s.new_start : Int) +
          ((s.loop_start : Int) - (s.start : Int))) ++ (pack32i
          ((s.new_start : Int) + ((s.loop_end : Int) - (s.start : Int))) ++
          (pack32 s.sample_rate ++ (pack8 s.original_pitch ++
          (pack8 s.pitch_correction ++ (pack16 s.sample_link ++
          pack16 s.sample_type)))))))) from by
        simp [SF2Sample.to_bytes, List.append_assoc]]
    exact stripName_pad s.name _ h1 h2
  have f20 : u32 (SF2Sample.to_bytes s) 20 = s.new_start := by
    rw [show SF2Sample.to_bytes s = padName s.name ++ (pack32 s.new_start ++
        (pack32 s.new_end ++ (pack32i ((s.new_start : Int) +
          ((s.loop_start : Int) - (s.start : Int))) ++ (pack32i
          ((s.new_start : Int) + ((s.loop_end : Int) - (s.start : Int))) ++
          (pack32 s.sample_rate ++ (pack8 s.original_pitch ++
          (pack8 s.pitch_correction ++ (pack16 s.sample_link ++
          pack16 s.sample_type)))))))) from by
        simp [SF2Sample.to_bytes, List.append_assoc],
      show (20 : Nat) = (padName s.name).length + 0 from by
        rw [padName_length],
      u32_append_offset, u32_pack32]
  have f24 : u32 (SF2Sample.to_bytes s) 24 = s.new_end := by
    rw [show SF2Sample.to_bytes s = (padName s.name ++
        pack32 s.new_start) ++ (pack32 s.new_end ++ (pack32i
          ((s.new_start : Int) + ((s.loop_start : Int) - (s.start : Int))) ++
          (pack32i ((s.new_start : Int) + ((s.loop_end : Int) -
          (s.start : Int))) ++ (pack32 s.sample_rate ++
          (pack8 s.original_pitch ++ (pack8 s.pitch_correction ++
          (pack16 s.sample_link ++ pack16 s.sample_type))))))) from by
        simp [SF2Sample.to_bytes, List.append_assoc],
      show (24 : Nat) = (padName s.name ++ pack32 s.new_start).length + 0
        from by simp [padName_length, pack32],
      u32_append_offset, u32_pack32]
  have f28 : u32 (SF2Sample.to_bytes s) 28 =
      s.new_start + (s.loop_start - s.start) := by
    rw [show SF2Sample.to_bytes s = (padName s.name ++ pack32 s.new_start ++
        pack32 s.new_end) ++ (pack32i ((s.new_start : Int) +
          ((s.loop_start : Int) - (s.start : Int))) ++ (pack32i
          ((s.new_start : Int) + ((s.loop_end : Int) - (s.start : Int))) ++
          (pack32 s.sample_rate ++ (pack8 s.original_pitch ++
          (pack8 s.pitch_correction ++ (pack16 s.sample_link ++
          pack16 s.sample_type)))))) from by
        simp [SF2Sample.to_bytes, List.append_assoc],
      show (28 : Nat) = (padName s.name ++ pack32 s.new_start ++
        pack32 s.new_end).length + 0 from by simp [padName_length, pack32],
      u32_append_offset, u32_pack32i]
    omega
  have f32 : u32 (SF2Sample.to_bytes s) 32 =
      s.new_start + (s.loop_end - s.start) := by
    rw [show SF2Sample.to_bytes s = (padName s.name ++ pack32 s.new_start ++
        pack32 s.new_end ++ pack32i ((s.new_start : Int) +
          ((s.loop_start : Int) - (s.start : Int)))) ++ (pack32i
          ((s.new_start : Int) + ((s.loop_end : Int) - (s.start : Int))) ++
          (pack32 s.sample_rate ++ (pack8 s.original_pitch ++
          (pack8 s.pitch_correction ++ (pack16 s.sample_link ++
          pack16 s.sample_type))))) from by
        simp [SF2Sample.to_bytes, List.append_assoc],
      show (32 : Nat) = (padName s.name ++ pack32 s.new_start ++
        pack32 s.new_end ++ pack32i ((s.new_start : Int) +
          ((s.loop_start : Int) - (s.start : Int)))).length + 0 from by
        simp [padName_length, pack32, pack32i],
      u32_append_offset, u32_pack32i]
    omega
  have f36 : u32 (SF2Sample.to_bytes s) 36 = s.sample_rate := by
    rw [show SF2Sample.to_bytes s = (padName s.name ++ pack32 s.new_start ++
        pack32 s.new_end ++ pack32i ((s.new_start : Int) +
          ((s.loop_start : Int) - (s.start : Int))) ++ pack32i
          ((s.new_start : Int) + ((s.loop_end : Int) - (s.start : Int)))) ++
          (pack32 s.sample_rate ++ (pack8 s.original_pitch ++
          (pack8 s.pitch_correction ++ (pack16 s.sample_link ++
          pack16 s.sample_type)))) from by
        simp [SF2Sample.to_bytes, List.append_assoc],
      show (36 : Nat) = (padName s.name ++ pack32 s.new_start ++
        pack32 s.new_end ++ pack32i ((s.new_start : Int) +
          ((s.loop_start : Int) - (s.start : Int))) ++ pack32i
          ((s.new_start : Int) + ((s.loop_end : Int) -
          (s.start : Int)))).length + 0 from by
        simp [padName_length, pack32, pack32i],
      u32_append_offset, u32_pack32]
  have f40 : (SF2Sample.to_bytes s).getD 40 0 = s.original_pitch := by
    rw [show SF2Sample.to_bytes s = (padName s.name ++ pack32 s.new_start ++
        pack32 s.new_end ++ pack32i ((s.new_start : Int) +
          ((s.loop_start : Int) - (s.start : Int))) ++ pack32i
          ((s.new_start : Int) + ((s.loop_end : Int) - (s.start : Int))) ++
          pack32 s.sample_rate) ++ (pack8 s.original_pitch ++
          (pack8 s.pitch_correction ++ (pack16 s.sample_link ++
          pack16 s.sample_type))) from by
        simp [SF2Sample.to_bytes, List.append_assoc],
      show (40 : Nat) = (padName s.name ++ pack32 s.new_start ++
        pack32 s.new_end ++ pack32i ((s.new_start : Int) +
          ((s.loop_start : Int) - (s.start : Int))) ++ pack32i
          ((s.new_start : Int) + ((s.loop_end : Int) - (s.start : Int))) ++
          pack32 s.sample_rate).length + 0 from by
        simp [padName_length, pack32, pack32i],
      getD_append_offset]
    rw [show pack8 s.original_pitch ++ (pack8 s.pitch_correction ++
        (pack16 s.sample_link ++ pack16 s.sample_type)) =
        pack8 s.original_pitch ++ (pack8 s.pitch_correction ++
        (pack16 s.sample_link ++ pack16 s.sample_type)) from rfl,
      getD_pack8]
    omega
  have f41 : (SF2Sample.to_bytes s).getD 41 0 = s.pitch_correction := by
    rw [show SF2Sample.to_bytes s = (padName s.name ++ pack32 s.new_start ++
        pack32 s.new_end ++ pack32i ((s.new_start : Int) +
          ((s.loop_start : Int) - (s.start : Int))) ++ pack32i
          ((s.new_start : Int) + ((s.loop_end : Int) - (s.start : Int))) ++
          pack32 s.sample_rate ++ pack8 s.original_pitch) ++
          (pack8 s.pitch_correction ++ (pack16 s.sample_link ++
          pack16 s.sample_type)) from by
        simp [SF2Sample.to_bytes, List.append_assoc],
      show (41 : Nat) = (padName s.name ++ pack32 s.new_start ++
        pack32 s.new_end ++ pack32i ((s.new_start : Int) +
          ((s.loop_start : Int) - (s.start : Int))) ++ pack32i
          ((s.new_start : Int) + ((s.loop_end : Int) - (s.start : Int))) ++
          pack32 s.sample_rate ++ pack8 s.original_pitch).length + 0
        from by simp [padName_length, pack32, pack32i, pack8],
      getD_append_offset, getD_pack8]
    omega
  have f42 : u16 (SF2Sample.to_bytes s) 42 = s.sample_link := by
    rw [show SF2Sample.to_bytes s = (padName s.name ++ pack32 s.new_start ++
        pack32 s.new_end ++ pack32i ((s.new_start : Int) +
          ((s.loop_start : Int) - (s.start : Int))) ++ pack32i
          ((s.new_start : Int) + ((s.loop_end : Int) - (s.start : Int))) ++
          pack32 s.sample_rate ++ pack8 s.original_pitch ++
          pack8 s.pitch_correction) ++ (pack16 s.sample_link ++
          pack16 s.sample_type) from by
        simp [SF2Sample.to_bytes, List.append_assoc],
      show (42 : Nat) = (padName s.name ++ pack32 s.new_start ++
        pack32 s.new_end ++ pack32i ((s.new_start : Int) +
          ((s.loop_start : Int) - (s.start : Int))) ++ pack32i
          ((s.new_start : Int) + ((s.loop_end : Int) - (s.start : Int))) ++
          pack32 s.sample_rate ++ pack8 s.original_pitch ++
          pack8 s.pitch_correction).length + 0 from by
        simp [padName_length, pack32, pack32i, pack8],
      u16_append_offset, u16_pack16]
  have f44 : u16 (SF2Sample.to_bytes s) 44 = s.sample_type := by
    rw [show SF2Sample.to_bytes s = (padName s.name ++ pack32 s.new_start ++
        pack32 s.new_end ++ pack32i ((s.new_start : Int) +
          ((s.loop_start : Int) - (s.start : Int))) ++ pack32i
          ((s.new_start : Int) + ((s.loop_end : Int) - (s.start : Int))) ++
          pack32 s.sample_rate ++ pack8 s.original_pitch ++
          pack8 s.pitch_correction ++ pack16 s.sample_link) ++
          pack16 s.sample_type from by
        simp [SF2Sample.to_bytes, List.append_assoc],
      show (44 : Nat) = (padName s.name ++ pack32 s.new_start ++
        pack32 s.new_end ++ pack32i ((s.new_start : Int) +
          ((s.loop_start : Int) - (s.start : Int))) ++ pack32i
          ((s.new_start : Int) + ((s.loop_end : Int) - (s.start : Int))) ++
          pack32 s.sample_rate ++ pack8 s.original_pitch ++
          pack8 s.pitch_correction ++ pack16 s.sample_link).length + 0
        from by simp [padName_length, pack32, pack32i, pack8, pack16],
      u16_append_offset, u16_pack16_nil]
  rw [hname, f20, f24, f28, f32, f36, f40, f41, f42, f44]
  rfl

/-- Parsing the concatenation of fixed-size serialized records yields
exactly the reparsed records. -/
theorem parseTable_join (sz : Nat) (fb : List Nat → Option α)
    {β : Type} (tb : β → List Nat) (g : β → α) (hsz : 0 < sz) (l : List β)
    (h : ∀ a ∈ l, (tb a).length = sz ∧ fb (tb a) = some (g a)) :
    parseTable sz fb (l.map tb).flatten = some (l.map g) := by
  induction l with
  | nil =>
      simpa using parseTable_nil sz fb hsz
  | cons a t ih =>
      obtain ⟨hl, hf⟩ := h a (List.mem_cons_self a t)
      have hne : (tb a ++ (t.map tb).flatten) ≠ [] := by
        intro hc
        have := congrArg List.length hc
        simp [hl] at this
        omega
      rw [List.map_cons, List.flatten_cons, parseTable_cons _ _ _ hsz hne,
        List.take_left' hl, List.drop_left' hl, hf,
        ih (fun b hb => h b (List.mem_cons_of_mem _ hb))]
      rfl

/-- Splitting a padded chunk followed by further chunk bytes. -/
theorem splitChunks_prepend (tag data rest : List Nat)
    (htag : tag.length = 4) :
    splitChunks (chunkBytes tag data ++ rest) =
      (splitChunks rest).map (fun cs => (tag, data) :: cs) := by
  set pad := (if data.length % 2 = 1 then ([0] : List Nat) else [])
    with hpad
  have hchunk : chunkBytes tag data ++ rest =
      tag ++ (pack32 data.length ++ (data ++ (pad ++ rest))) := by
    simp [chunkBytes, List.append_assoc, hpad]
  have hchunk2 : chunkBytes tag data ++ rest =
      (tag ++ pack32 data.length) ++ (data ++ (pad ++ rest)) := by
    simp [chunkBytes, List.append_assoc, hpad]
  have hchunk3 : chunkBytes tag data ++ rest =
      (tag ++ pack32 data.length ++ data) ++ (pad ++ rest) := by
    simp [chunkBytes, List.append_assoc, hpad]
  have h8 : (tag ++ pack32 data.length).length = 8 := by
    simp [htag, pack32]
  have h8d : (tag ++ pack32 data.length ++ data).length =
      8 + data.length := by
    simp [htag, pack32]
    omega
  have hne : chunkBytes tag data ++ rest ≠ [] := by
    rw [hchunk2]
    intro hcontra
    have := congrArg List.length hcontra
    rw [List.length_append, h8] at this
    simp at this
  have hu32 : u32 (chunkBytes tag data ++ rest) 4 = data.length := by
    rw [hchunk, (by omega : (4 : Nat) = tag.length + 0), u32_append_offset]
    exact u32_pack32 _ _
  rw [splitChunks_cons _ hne, hu32]
  have hlenc : (chunkBytes tag data ++ rest).length =
      8 + data.length + (pad ++ rest).length := by
    rw [hchunk2, List.length_append, h8, List.length_append]
    omega
  rw [if_pos (by rw [hlenc]; omega)]
  have hdrop8 : (chunkBytes tag data ++ rest).drop 8 =
      data ++ (pad ++ rest) := by
    rw [hchunk2, ← h8, List.drop_left]
  have htake : ((chunkBytes tag data ++ rest).drop 8).take data.length =
      data := by
    rw [hdrop8, List.take_left' rfl]
  have hdroprest : ((chunkBytes tag data ++ rest).drop
      (8 + data.length)).drop (data.length % 2) = rest := by
    have h1 : (chunkBytes tag data ++ rest).drop (8 + data.length) =
        pad ++ rest := by
      rw [hchunk3, ← h8d, List.drop_left]
    rw [h1, hpad]
    split <;> rename_i hsplit
    · rw [hsplit]
      rfl
    · have h0 : data.length % 2 = 0 := by omega
      rw [h0]
      simp
  rw [hdroprest, htake]
  have htag4 : (chunkBytes tag data ++ rest).take 4 = tag := by
    rw [hchunk, ← htag, List.take_left]
  rw [htag4]

/-- Splitting the `INFO` body recovers the metadata chunk list
byte-for-byte. -/
theorem splitChunks_infoBody (cs : List (List Nat × List Nat))
    (h : ∀ c ∈ cs, c.1.length = 4) :
    splitChunks ((cs.map fun c => chunkBytes c.1 c.2).flatten) =
      some cs := by
  induction cs with
  | nil => rfl
  | cons c t ih =>
      rw [List.map_cons, List.flatten_cons,
        splitChunks_prepend c.1 c.2 _ (h c (List.mem_cons_self c t)),
        ih (fun b hb => h b (List.mem_cons_of_mem _ hb))]
      rfl

/-- Well-formedness of a freshly parsed model: exactly the properties
`parse_sf2` guarantees for every record it produces (names of at most
20 bytes without trailing zeros, 8/16/32-bit fields in range, runtime
scratch fields at their defaults), plus loop points at or after the
sample start (true of well-formed банк files; when violated, the Python
writer crashes on a negative `'<I'` pack instead of round-tripping). -/
def ParsedModelWF (m : SF2File) : Prop :=
  (∀ p ∈ m.presets, NameWF p.name) ∧
  (∀ i ∈ m.instruments, NameWF i.name) ∧
  (∀ mo ∈ m.preset_mods, -32768 ≤ mo.amount ∧ mo.amount < 32768) ∧
  (∀ mo ∈ m.inst_mods, -32768 ≤ mo.amount ∧ mo.amount < 32768) ∧
  (∀ s ∈ m.samples, NameWF s.name ∧ s.original_pitch < 256 ∧
    s.pitch_correction < 256 ∧ s.new_start = 0 ∧ s.start ≤ s.loop_start ∧
    s.start ≤ s.loop_end ∧ s.loop_start < 4294967296 ∧
    s.loop_end < 4294967296) ∧
  (∀ c ∈ m.info_chunks, c.1.length = 4)

instance (m : SF2File) : Decidable (ParsedModelWF m) := by
  unfold ParsedModelWF
  infer_instance

/-- C1, amended: writing immediately after parsing round-trips the bag,
generator and modulator tables, the metadata chunks and the PCM blob
record-for-record, but *not* the whole model: preset and instrument
records come back with their bag-range start replaced by the runtime
`new_bag_idx` (zero after parsing), sample records with their offsets
replaced by the runtime `new_start`/`new_end` (zero after parsing) and
rebased loop points, and the optional 24-bit extension is dropped.
Full record-for-record equality therefore holds only for the records
whose positional fields were zero to begin with. -/
theorem c1_roundtrip_amended (m : SF2File) (h : ParsedModelWF m) :
    parsePhdrData (phdrData m) = some (m.presets.map presetReparse) ∧
    parsePbagData (pbagData m) = some m.preset_bags ∧
    parsePmodData (pmodData m) = some m.preset_mods ∧
    parsePgenData (pgenData m) = some m.preset_gens ∧
    parseInstData (instData m) = some (m.instruments.map instReparse) ∧
    parseIbagData (ibagData m) = some m.inst_bags ∧
    parseImodData (imodData m) = some m.inst_mods ∧
    parseIgenData (igenData m) = some m.inst_gens ∧
    parseShdrData (shdrData m) = some (m.samples.map sampleReparse) ∧
    splitChunks (infoBody m) = some m.info_chunks ∧
    splitChunks (sdtaBody m) = some [(strBytes "smpl", m.sample_data)] := by
  obtain ⟨hp, hi, hpm, him, hs, hinfo⟩ := h
  refine ⟨?_, ?_, ?_, ?_, ?_, ?_, ?_, ?_, ?_, ?_, ?_⟩
  · exact parseTable_join 38 SF2Preset.from_bytes SF2Preset.to_bytes
      presetReparse (by omega) m.presets
      (fun p hmem => preset_from_to p (hp p hmem))
  · have := parseTable_join 4 SF2Bag.from_bytes SF2Bag.to_bytes id
      (by omega) m.preset_bags (fun b _ => bag_from_to b)
    simpa using this
  · have := parseTable_join 10 SF2Modulator.from_bytes SF2Modulator.to_bytes
      id (by omega) m.preset_mods
      (fun mo hmem => mod_from_to mo (hpm mo hmem).1 (hpm mo hmem).2)
    simpa using this
  · have := parseTable_join 4 SF2Generator.from_bytes SF2Generator.to_bytes
      id (by omega) m.preset_gens (fun g _ => gen_from_to g)
    simpa using this
  · exact parseTable_join 22 SF2Inst.from_bytes SF2Inst.to_bytes
      instReparse (by omega) m.instruments
      (fun i hmem => inst_from_to i (hi i hmem))
  · have := parseTable_join 4 SF2Bag.from_bytes SF2Bag.to_bytes id
      (by omega) m.inst_bags (fun b _ => bag_from_to b)
    simpa using this
  · have := parseTable_join 10 SF2Modulator.from_bytes SF2Modulator.to_bytes
      id (by omega) m.inst_mods
      (fun mo hmem => mod_from_to mo (him mo hmem).1 (him mo hmem).2)
    simpa using this
  · have := parseTable_join 4 SF2Generator.from_bytes SF2Generator.to_bytes
      id (by omega) m.inst_gens (fun g _ => gen_from_to g)
    simpa using this
  · refine parseTable_join 46 SF2Sample.from_bytes SF2Sample.to_bytes
      sampleReparse (by omega) m.samples (fun s hmem => ?_)
    obtain ⟨hn, h1, h2, h3, h4, h5, h6, h7⟩ := hs s hmem
    exact sample_from_to s hn h1 h2 h3 h4 h5 h6 h7
  · exact splitChunks_infoBody m.info_chunks hinfo
  · exact splitChunks_single _ _ (by rfl)

/-- C1, counterexample to the claim as stated: `baseModel` is a
well-formed as-parsed model whose terminal preset has bag-range start 1;
serializing its preset table and parsing it back yields bag-range start
0 (the runtime `new_bag_idx` written by `to_bytes`), so the reparsed
model is not record-for-record equal to the original. -/
theorem c1_roundtrip_counterexample :
    ParsedModelWF baseModel ∧
    parsePhdrData (phdrData baseModel) =
      some [mkPreset "P0" 0 0 0, mkPreset "EOP" 0 0 0] ∧
    baseModel.presets = [mkPreset "P0" 0 0 0, mkPreset "EOP" 0 0 1] ∧
    parsePhdrData (phdrData baseModel) ≠ some baseModel.presets := by
  decide

theorem c1_roundtrip_amended_witness :
    ParsedModelWF baseModel ∧
    parsePhdrData (phdrData baseModel) =
      some (baseModel.presets.map presetReparse) :=
  ⟨by decide, (c1_roundtrip_amended baseModel (by decide)).1⟩

/-! ## Generic fold and set utilities for the subsetter proofs -/

theorem foldl_invariant {σ γ : Type} (step : σ → γ → σ) (P : σ → Prop)
    (hstep : ∀ s x, P s → P (step s x)) :
    ∀ (l : List γ) (s : σ), P s → P (l.foldl step s) := by
  intro l
  induction l with
  | nil => intro s hs; exact hs
  | cons x t ih => intro s hs; exact ih _ (hstep s x hs)

/-- If `x` occurs in `l`, a monotone fold picks up `x`'s contribution. -/
theorem foldl_mem_step {γ : Type} (step : List Nat → γ → List Nat)
    (hmono : ∀ acc x a, a ∈ acc → a ∈ step acc x) (l : List γ) (x : γ)
    (hx : x ∈ l) (a : Nat) (hstep : ∀ acc, a ∈ step acc x) :
    ∀ acc, a ∈ l.foldl step acc := by
  induction l with
  | nil => cases hx
  | cons y t ih =>
      intro acc
      rcases List.mem_cons.mp hx with rfl | htail
      · rw [List.foldl_cons]
        exact foldl_invariant step (fun s => a ∈ s)
          (fun s z hs => hmono s z a hs) t _ (hstep acc)
      · exact ih htail _

theorem getD_set_cases (l : List α) (i k : Nat) (a d : α) :
    (l.set i a).getD k d =
      if i = k ∧ i < l.length then a else l.getD k d := by
  by_cases h1 : i = k
  · subst h1
    by_cases h2 : i < l.length
    · rw [getD_set_self l i a d h2, if_pos ⟨rfl, h2⟩]
    · rw [if_neg (by tauto), List.set_eq_of_length_le (by omega)]
  · rw [getD_set_ne l i k a d h1, if_neg (by tauto)]

theorem set_getD_self (l : List α) (k : Nat) (d : α) (h : k < l.length) :
    l.set k (l.getD k d) = l := by
  apply List.ext_getElem?
  intro n
  by_cases hn : k = n
  · subst hn
    rw [List.getElem?_set_self', List.getD_eq_getElem?_getD,
      List.getElem?_eq_getElem h]
    rfl
  · rw [List.getElem?_set_ne hn]

theorem getD_mem (l : List α) (n : Nat) (d : α) (h : n < l.length) :
    l.getD n d ∈ l := by
  rw [List.getD_eq_getElem?_getD, List.getElem?_eq_getElem h]
  exact List.getElem_mem h

theorem pyInsert_nodup [DecidableEq α] (l : List α) (a : α)
    (h : l.Nodup) : (pyInsert l a).Nodup := by
  unfold pyInsert
  split <;> rename_i hmem
  · exact h
  · simp [List.nodup_append, h, hmem]

theorem nodup_bounded_length (l : List Nat) (h1 : l.Nodup) (k : Nat)
    (h2 : ∀ a ∈ l, a < k) : l.length ≤ k := by
  have hsub : l ⊆ List.range k := fun a ha => List.mem_range.mpr (h2 a ha)
  have := (h1.subperm hsub).length_le
  simpa using this

theorem pySorted_mem (l : List Nat) (a : Nat) :
    a ∈ pySorted l ↔ a ∈ l :=
  List.mem_insertionSort _

theorem pySorted_length (l : List Nat) : (pySorted l).length = l.length :=
  (List.perm_insertionSort _ l).length_eq

theorem pySorted_nodup (l : List Nat) (h : l.Nodup) :
    (pySorted l).Nodup :=
  ((List.perm_insertionSort _ l).nodup_iff).mpr h

theorem pySorted_pairwise_lt (l : List Nat) (h : l.Nodup) :
    (pySorted l).Pairwise (· < ·) := by
  have hs : (pySorted l).Pairwise (· ≤ ·) :=
    List.sorted_insertionSort (· ≤ ·) l
  have hn : (pySorted l).Pairwise (· ≠ ·) := pySorted_nodup l h
  exact (hs.and hn).imp (fun hab => lt_of_le_of_ne hab.1 hab.2)

/-- The parsed (non-runtime) projection of a preset record. -/
def pCore (p : SF2Preset) : List Nat × Nat × Nat × Nat × Nat × Nat × Nat :=
  (p.name, p.preset, p.bank, p.bag_idx, p.library, p.genre, p.morphology)

/-- The parsed projection of an instrument record. -/
def iCore (i : SF2Inst) : List Nat × Nat :=
  (i.name, i.bag_idx)

/-- The projection of a sample record that the subsetter never mutates
(everything except `sample_link` and the runtime fields). -/
def sCore (s : SF2Sample) :
    List Nat × Nat × Nat × Nat × Nat × Nat × Nat × Nat × Nat :=
  (s.name, s.start, s.end_, s.loop_start, s.loop_end, s.sample_rate,
   s.original_pitch, s.pitch_correction, s.sample_type)

/-- The PCM byte range `[start*2, end*2)` a sample copies out of the
blob. -/
def sampSlice (dat : List Nat) (s : SF2Sample) : List Nat :=
  pySlice dat (s.start * 2) (s.end_ * 2)

theorem sampSlice_congr (dat : List Nat) (s s' : SF2Sample)
    (h : sCore s = sCore s') : sampSlice dat s = sampSlice dat s' := by
  unfold sCore at h
  simp only [Prod.mk.injEq] at h
  unfold sampSlice
  rw [h.2.1, h.2.2.1]

theorem samplePhaseStep_samplesSrc (m : SF2File) (st : SampPhase)
    (e : Nat × Nat) :
    (samplePhaseStep m st e).samplesSrc =
      st.samplesSrc.set e.2
        { st.samplesSrc.getD e.2 default with
          new_index := (e.1 : Int)
          new_start := st.newData.length / 2
          new_end := (st.newData ++
            sampSlice m.sample_data (st.samplesSrc.getD e.2 default)).length /
            2 } := rfl

theorem samplePhaseStep_outSamples (m : SF2File) (st : SampPhase)
    (e : Nat × Nat) :
    (samplePhaseStep m st e).outSamples =
      st.outSamples ++
        [{ st.samplesSrc.getD e.2 default with
           new_index := (e.1 : Int)
           new_start := st.newData.length / 2
           new_end := (st.newData ++
             sampSlice m.sample_data
               (st.samplesSrc.getD e.2 default)).length / 2 }] := rfl

theorem samplePhaseStep_newData (m : SF2File) (st : SampPhase)
    (e : Nat × Nat) :
    (samplePhaseStep m st e).newData =
      st.newData ++ sampSlice m.sample_data
        (st.samplesSrc.getD e.2 default) := rfl

theorem samplePhaseStep_smap (m : SF2File) (st : SampPhase)
    (e : Nat × Nat) :
    (samplePhaseStep m st e).smap = st.smap ++ [(e.2, e.1)] := rfl

/-- Master specification of the sample-build fold: the mutated source
list keeps its length and its never-mutated projections, untouched
positions keep their records, and the output table, compacted blob and
index map accumulate one contribution per processed index. -/
theorem sampBuild_spec (m : SF2File) (l : List (Nat × Nat)) :
    ∀ st : SampPhase,
      (l.foldl (samplePhaseStep m) st).samplesSrc.length =
        st.samplesSrc.length ∧
      (∀ k, sCore ((l.foldl (samplePhaseStep m) st).samplesSrc.getD k
        default) = sCore (st.samplesSrc.getD k default)) ∧
      (∀ k, k ∉ l.map Prod.snd →
        (l.foldl (samplePhaseStep m) st).samplesSrc.getD k default =
          st.samplesSrc.getD k default) ∧
      (l.foldl (samplePhaseStep m) st).outSamples.map sCore =
        st.outSamples.map sCore ++
          l.map (fun e => sCore (st.samplesSrc.getD e.2 default)) ∧
      (l.foldl (samplePhaseStep m) st).newData = st.newData ++
        (l.map (fun e =>
          sampSlice m.sample_data (st.samplesSrc.getD e.2 default))).flatten ∧
      (l.foldl (samplePhaseStep m) st).smap =
        st.smap ++ l.map (fun e => (e.2, e.1)) := by
  induction l with
  | nil => intro st; simp
  | cons e t ih =>
      intro st
      rw [List.foldl_cons]
      obtain ⟨ih1, ih2, ih3, ih4, ih5, ih6⟩ := ih (samplePhaseStep m st e)
      have hcore : ∀ k,
          sCore ((samplePhaseStep m st e).samplesSrc.getD k default) =
            sCore (st.samplesSrc.getD k default) := by
        intro k
        rw [samplePhaseStep_samplesSrc, getD_set_cases]
        split <;> rename_i hc
        · rw [← hc.1]
          rfl
        · rfl
      refine ⟨?_, ?_, ?_, ?_, ?_, ?_⟩
      · rw [ih1, samplePhaseStep_samplesSrc, List.length_set]
      · intro k
        rw [ih2 k, hcore k]
      · intro k hk
        simp only [List.map_cons, List.mem_cons] at hk
        push_neg at hk
        rw [ih3 k (by simpa using hk.2), samplePhaseStep_samplesSrc,
          getD_set_ne _ _ _ _ _ (fun hc => hk.1 hc.symm)]
      · rw [ih4, samplePhaseStep_outSamples, List.map_append,
          List.map_congr_left (fun a _ => congrArg
            (fun s => sCore s) rfl)]
        simp only [List.map_cons, List.map_nil]
        rw [List.map_congr_left
          (fun a (_ : a ∈ t) => by rw [hcore a.2])]
        simp [List.append_assoc]
        rfl
      · rw [ih5, samplePhaseStep_newData, List.map_cons,
          List.flatten_cons]
        rw [List.map_congr_left (fun a (_ : a ∈ t) =>
          sampSlice_congr m.sample_data _ _ (hcore a.2))]
        simp [List.append_assoc]
      · rw [ih6, samplePhaseStep_smap]
        simp

/-- The link rewrite applied to one record: the mapped index, or 0 when
the partner was not retained. -/
def rwLink (smap : List (Nat × Nat)) (s : SF2Sample) : SF2Sample :=
  { s with sample_link := match smap.lookup s.sample_link with
      | some v => v
      | none => 0 }

theorem sCore_rwLink (smap : List (Nat × Nat)) (s : SF2Sample) :
    sCore (rwLink smap s) = sCore s := rfl

theorem linkRewriteStep_expand (st : SampPhase) (e : Nat × Nat) :
    linkRewriteStep st e =
      { st with
        samplesSrc := st.samplesSrc.set e.2
          (rwLink st.smap (st.samplesSrc.getD e.2 default))
        outSamples := st.outSamples.set e.1
          (rwLink st.smap (st.samplesSrc.getD e.2 default)) } := rfl

theorem map_set_getD_self (l : List α) (f : α → β) (k : Nat) (d : α)
    (h : k < l.length) :
    (l.map f).set k (f (l.getD k d)) = l.map f := by
  rw [← List.map_set, set_getD_self l k d h]

/-- Master specification of the stereo-link rewrite fold: the blob, the
map and the lengths are untouched, the never-mutated sample projections
survive on both the source and the output lists, and untouched source
positions keep their records.  The coupling hypothesis says each
processed pair `(k, old)` points at an output slot holding (the core of)
source record `old`, which is how the fold's aliasing works. -/
theorem linkRW_spec (l : List (Nat × Nat)) :
    ∀ st : SampPhase,
      (l.map Prod.fst).Nodup →
      (∀ e ∈ l, e.1 < st.outSamples.length ∧
        sCore (st.outSamples.getD e.1 default) =
          sCore (st.samplesSrc.getD e.2 default)) →
      (l.foldl linkRewriteStep st).newData = st.newData ∧
      (l.foldl linkRewriteStep st).smap = st.smap ∧
      (l.foldl linkRewriteStep st).samplesSrc.length =
        st.samplesSrc.length ∧
      (∀ k, sCore ((l.foldl linkRewriteStep st).samplesSrc.getD k
        default) = sCore (st.samplesSrc.getD k default)) ∧
      (∀ k, k ∉ l.map Prod.snd →
        (l.foldl linkRewriteStep st).samplesSrc.getD k default =
          st.samplesSrc.getD k default) ∧
      (l.foldl linkRewriteStep st).outSamples.length =
        st.outSamples.length ∧
      (l.foldl linkRewriteStep st).outSamples.map sCore =
        st.outSamples.map sCore := by
  induction l with
  | nil => intro st _ _; exact ⟨rfl, rfl, rfl, fun _ => rfl, fun _ _ => rfl,
      rfl, rfl⟩
  | cons e t ih =>
      intro st hnd hcpl
      rw [List.foldl_cons]
      obtain ⟨he1, he2⟩ := hcpl e (List.mem_cons_self e t)
      have hndt : (t.map Prod.fst).Nodup := by
        simp only [List.map_cons] at hnd
        exact hnd.of_cons
      have hfst : ∀ e' ∈ t, e'.1 ≠ e.1 := by
        intro e' he'
        simp only [List.map_cons, List.nodup_cons] at hnd
        intro hc
        exact hnd.1 (hc ▸ List.mem_map_of_mem Prod.fst he')
      have hsrc_core : ∀ k,
          sCore ((linkRewriteStep st e).samplesSrc.getD k default) =
            sCore (st.samplesSrc.getD k default) := by
        intro k
        rw [linkRewriteStep_expand]
        show sCore ((st.samplesSrc.set e.2 _).getD k default) = _
        rw [getD_set_cases]
        split <;> rename_i hc
        · rw [← hc.1, sCore_rwLink]
        · rfl
      have hout_len : (linkRewriteStep st e).outSamples.length =
          st.outSamples.length := by
        rw [linkRewriteStep_expand]
        exact List.length_set ..
      have hout_core : (linkRewriteStep st e).outSamples.map sCore =
          st.outSamples.map sCore := by
        rw [linkRewriteStep_expand]
        show (st.outSamples.set e.1 _).map sCore = _
        rw [List.map_set, sCore_rwLink, ← he2, map_set_getD_self _ _ _ _ he1]
      have hcplt : ∀ e' ∈ t, e'.1 < (linkRewriteStep st e).outSamples.length ∧
          sCore ((linkRewriteStep st e).outSamples.getD e'.1 default) =
            sCore ((linkRewriteStep st e).samplesSrc.getD e'.2 default) := by
        intro e' he'
        obtain ⟨h1, h2⟩ := hcpl e' (List.mem_cons_of_mem _ he')
        refine ⟨by rw [hout_len]; exact h1, ?_⟩
        rw [hsrc_core]
        rw [linkRewriteStep_expand]
        show sCore ((st.outSamples.set e.1 _).getD e'.1 default) = _
        rw [getD_set_ne _ _ _ _ _ (fun hc => hfst e' he' hc.symm)]
        exact h2
      obtain ⟨ih1, ih2, ih3, ih4, ih5, ih6, ih7⟩ :=
        ih (linkRewriteStep st e) hndt hcplt
      refine ⟨ih1, ih2, ?_, ?_, ?_, ?_, ?_⟩
      · rw [ih3, linkRewriteStep_expand]
        exact List.length_set ..
      · intro k
        rw [ih4 k, hsrc_core k]
      · intro k hk
        simp only [List.map_cons, List.mem_cons] at hk
        push_neg at hk
        rw [ih5 k (by simpa using hk.2), linkRewriteStep_expand]
        show (st.samplesSrc.set e.2 _).getD k default = _
        rw [getD_set_ne _ _ _ _ _ (fun hc => hk.1 hc.symm)]
      · rw [ih6, hout_len]
      · rw [ih7, hout_core]

theorem getD_map (l : List α) (f : α → β) (k : Nat) (d : α) :
    (l.map f).getD k (f d) = f (l.getD k d) := by
  rw [List.getD_eq_getElem?_getD, List.getElem?_map,
    List.getD_eq_getElem?_getD]
  cases l[k]? <;> rfl

theorem enum_map_comp_snd (l : List α) (f : α → β) :
    l.enum.map (fun e => f e.2) = l.map f := by
  rw [show (fun e : Nat × α => f e.2) = f ∘ Prod.snd from rfl,
    ← List.map_map, List.enum_map_snd]

/-- The core of the terminal `EOS` sample. -/
def eosCore : List Nat × Nat × Nat × Nat × Nat × Nat × Nat × Nat × Nat :=
  (strBytes "EOS", 0, 0, 0, 0, 0, 0, 0, 0)

/-- Combined specification of the whole sample phase. -/
theorem samplePhase_spec (m : SF2File) (idxs : List Nat) :
    (samplePhase m idxs).newData = ((pySorted idxs).map
      (fun o => sampSlice m.sample_data (m.samples.getD o default))).flatten ∧
    (samplePhase m idxs).smap =
      (pySorted idxs).enum.map (fun e => (e.2, e.1)) ∧
    (samplePhase m idxs).samplesSrc.length = m.samples.length ∧
    (∀ k, sCore ((samplePhase m idxs).samplesSrc.getD k default) =
      sCore (m.samples.getD k default)) ∧
    (∀ k, k ∉ pySorted idxs →
      (samplePhase m idxs).samplesSrc.getD k default =
        m.samples.getD k default) ∧
    (samplePhase m idxs).outSamples.map sCore =
      (pySorted idxs).map (fun o => sCore (m.samples.getD o default)) ++
        [eosCore] := by
  obtain ⟨b1, b2, b3, b4, b5, b6⟩ := sampBuild_spec m (pySorted idxs).enum
    { samplesSrc := m.samples, outSamples := [], newData := [], smap := [] }
  set st1 := (pySorted idxs).enum.foldl (samplePhaseStep m)
    { samplesSrc := m.samples, outSamples := [], newData := [], smap := [] }
    with hst1
  set term : SF2Sample :=
    { name := strBytes "EOS", start := 0, end_ := 0, loop_start := 0
      loop_end := 0, sample_rate := 0, original_pitch := 0
      pitch_correction := 0, sample_link := 0, sample_type := 0
      new_index := -1, new_start := st1.newData.length / 2
      new_end := st1.newData.length / 2 } with hterm
  set st2 : SampPhase := { st1 with outSamples := st1.outSamples ++ [term] }
    with hst2
  have hphase : samplePhase m idxs =
      (pySorted idxs).enum.foldl linkRewriteStep st2 := rfl
  have hlen1 : st1.outSamples.length = (pySorted idxs).length := by
    have := samplePhase_foldl_len m (pySorted idxs).enum
      { samplesSrc := m.samples, outSamples := [], newData := [], smap := [] }
    rw [← hst1] at this
    simpa [List.enum_length] using this
  have hcpl : ∀ e ∈ (pySorted idxs).enum,
      e.1 < st2.outSamples.length ∧
      sCore (st2.outSamples.getD e.1 default) =
        sCore (st2.samplesSrc.getD e.2 default) := by
    intro e he
    have hk : e.1 < (pySorted idxs).length := enum_fst_lt _ e he
    have hsome : (pySorted idxs).enum[e.1]? = some e := by
      rw [List.getElem?_enum]
      have := List.mem_enum_iff_getElem?.mp he
      rw [this]
      cases e
      rfl
    constructor
    · show e.1 < (st1.outSamples ++ [term]).length
      rw [List.length_append, hlen1]
      simp
      omega
    · have hgetout : st2.outSamples.getD e.1 default =
          st1.outSamples.getD e.1 default := by
        show (st1.outSamples ++ [term]).getD e.1 default = _
        exact getD_append_lt _ _ _ _ (by omega)
      have hmap : sCore (st1.outSamples.getD e.1 default) =
          sCore (m.samples.getD e.2 default) := by
        have h1 : (st1.outSamples.map sCore).getD e.1 (sCore default) =
            sCore (st1.outSamples.getD e.1 default) := getD_map _ _ _ _
        rw [b4] at h1
        simp only [List.map_nil, List.nil_append] at h1
        rw [List.getD_eq_getElem?_getD, List.getElem?_map, hsome] at h1
        simpa using h1.symm
      rw [hgetout, hmap]
      show _ = sCore (st1.samplesSrc.getD e.2 default)
      rw [b2 e.2]
  have hndfst : ((pySorted idxs).enum.map Prod.fst).Nodup := by
    rw [List.enum_map_fst]
    exact List.nodup_range _
  obtain ⟨r1, r2, r3, r4, r5, r6, r7⟩ :=
    linkRW_spec (pySorted idxs).enum st2 hndfst hcpl
  rw [hphase]
  refine ⟨?_, ?_, ?_, ?_, ?_, ?_⟩
  · rw [r1]
    show st1.newData = _
    rw [b5]
    have hmapeq : (pySorted idxs).enum.map
        (fun e => sampSlice m.sample_data (m.samples.getD e.2 default)) =
        (pySorted idxs).map
        (fun o => sampSlice m.sample_data (m.samples.getD o default)) :=
      enum_map_comp_snd (pySorted idxs)
        (fun o => sampSlice m.sample_data (m.samples.getD o default))
    show [] ++ ((pySorted idxs).enum.map
      (fun e => sampSlice m.sample_data (m.samples.getD e.2 default))).flatten = _
    rw [List.nil_append, hmapeq]
  · rw [r2]
    show st1.smap = _
    rw [b6]
    simp
  · rw [r3]
    show st1.samplesSrc.length = _
    rw [b1]
  · intro k
    rw [r4 k]
    show sCore (st1.samplesSrc.getD k default) = _
    rw [b2 k]
  · intro k hk
    have hk' : k ∉ (pySorted idxs).enum.map Prod.snd := by
      rw [List.enum_map_snd]
      exact hk
    rw [r5 k hk']
    show st1.samplesSrc.getD k default = _
    rw [b3 k hk']
  · rw [r7]
    show (st1.outSamples ++ [term]).map sCore = _
    rw [List.map_append, b4]
    have hmapeq2 : (pySorted idxs).enum.map
        (fun e => sCore (m.samples.getD e.2 default)) =
        (pySorted idxs).map (fun o => sCore (m.samples.getD o default)) :=
      enum_map_comp_snd (pySorted idxs)
        (fun o => sCore (m.samples.getD o default))
    show ([] ++ (pySorted idxs).enum.map
      (fun e => sCore (m.samples.getD e.2 default))) ++ [sCore term] = _
    rw [List.nil_append, hmapeq2]
    rfl

/-! ## Frame lemmas for the instrument and preset phases -/

theorem instCopyGen_instsSrc (m : SF2File) (smap : List (Nat × Nat))
    (st : InstPhase) (g : Nat) :
    (instCopyGen m smap st g).instsSrc = st.instsSrc := rfl

theorem instCopyBag_instsSrc (m : SF2File) (smap : List (Nat × Nat))
    (st : InstPhase) (b : Nat) :
    (instCopyBag m smap st b).instsSrc = st.instsSrc := by
  unfold instCopyBag
  refine foldl_invariant _ (fun s : InstPhase => s.instsSrc = st.instsSrc)
    ?_ _ _ ?_
  · exact fun s x hs => hs
  refine foldl_invariant _ (fun s : InstPhase => s.instsSrc = st.instsSrc)
    ?_ _ _ ?_
  · exact fun s x hs => hs
  rfl

theorem instPhaseStep_instsSrc (m : SF2File) (smap : List (Nat × Nat))
    (st : InstPhase) (e : Nat × Nat) :
    (instPhaseStep m smap st e).instsSrc =
      st.instsSrc.set e.2
        { st.instsSrc.getD e.2 default with
          new_index := (e.1 : Int)
          new_bag_idx := st.outBags.length } := by
  unfold instPhaseStep
  refine foldl_invariant _
    (fun s : InstPhase => s.instsSrc = st.instsSrc.set e.2
      { st.instsSrc.getD e.2 default with
        new_index := (e.1 : Int), new_bag_idx := st.outBags.length })
    ?_ _ _ ?_
  · exact fun s x hs => (instCopyBag_instsSrc m smap s x).trans hs
  rfl

/-- Frame specification of the instrument-rebuild fold on the (shared,
mutated) source instrument list: the length is preserved, the parsed
core of every record is preserved, and records at positions the walk
never visits are bit-for-bit unchanged. -/
theorem instSrc_spec (m : SF2File) (smap : List (Nat × Nat)) :
    ∀ (l : List (Nat × Nat)) (st : InstPhase),
    (l.foldl (instPhaseStep m smap) st).instsSrc.length =
      st.instsSrc.length ∧
    (∀ k, iCore ((l.foldl (instPhaseStep m smap) st).instsSrc.getD k default)
      = iCore (st.instsSrc.getD k default)) ∧
    (∀ k, k ∉ l.map Prod.snd →
      (l.foldl (instPhaseStep m smap) st).instsSrc.getD k default =
        st.instsSrc.getD k default) := by
  intro l
  induction l with
  | nil => exact fun st => ⟨rfl, fun _ => rfl, fun _ _ => rfl⟩
  | cons e t ih =>
      intro st
      obtain ⟨ih1, ih2, ih3⟩ := ih (instPhaseStep m smap st e)
      rw [List.foldl_cons]
      refine ⟨?_, ?_, ?_⟩
      · rw [ih1, instPhaseStep_instsSrc, List.length_set]
      · intro k
        rw [ih2 k, instPhaseStep_instsSrc, getD_set_cases]
        by_cases hk : e.2 = k ∧ e.2 < st.instsSrc.length
        · rw [if_pos hk, ← hk.1]
          rfl
        · rw [if_neg hk]
      · intro k hk
        rw [List.map_cons, List.mem_cons] at hk
        push_neg at hk
        rw [ih3 k hk.2, instPhaseStep_instsSrc,
          getD_set_ne _ _ _ _ _ (Ne.symm hk.1)]

theorem presetCopyGen_presetsSrc (m : SF2File) (imap : List (Nat × Nat))
    (st : PresPhase) (g : Nat) :
    (presetCopyGen m imap st g).presetsSrc = st.presetsSrc := rfl

theorem presetCopyBag_presetsSrc (m : SF2File) (imap : List (Nat × Nat))
    (st : PresPhase) (b : Nat) :
    (presetCopyBag m imap st b).presetsSrc = st.presetsSrc := by
  unfold presetCopyBag
  refine foldl_invariant _ (fun s : PresPhase => s.presetsSrc = st.presetsSrc)
    ?_ _ _ ?_
  · exact fun s x hs => hs
  refine foldl_invariant _ (fun s : PresPhase => s.presetsSrc = st.presetsSrc)
    ?_ _ _ ?_
  · exact fun s x hs => hs
  rfl

theorem presetPhaseStep_presetsSrc (m : SF2File) (imap : List (Nat × Nat))
    (st : PresPhase) (i : Nat) :
    (presetPhaseStep m imap st i).presetsSrc =
      st.presetsSrc.set i
        { st.presetsSrc.getD i default with
          new_bag_idx := st.outBags.length } := by
  unfold presetPhaseStep
  refine foldl_invariant _
    (fun s : PresPhase => s.presetsSrc = st.presetsSrc.set i
      { st.presetsSrc.getD i default with
        new_bag_idx := st.outBags.length })
    ?_ _ _ ?_
  · exact fun s x hs => (presetCopyBag_presetsSrc m imap s x).trans hs
  rfl

/-- Frame specification of the preset-rebuild fold on the (shared,
mutated) source preset list. -/
theorem presSrc_spec (m : SF2File) (imap : List (Nat × Nat)) :
    ∀ (l : List Nat) (st : PresPhase),
    (l.foldl (presetPhaseStep m imap) st).presetsSrc.length =
      st.presetsSrc.length ∧
    (∀ k, pCore ((l.foldl (presetPhaseStep m imap) st).presetsSrc.getD k
      default) = pCore (st.presetsSrc.getD k default)) ∧
    (∀ k, k ∉ l →
      (l.foldl (presetPhaseStep m imap) st).presetsSrc.getD k default =
        st.presetsSrc.getD k default) := by
  intro l
  induction l with
  | nil => exact fun st => ⟨rfl, fun _ => rfl, fun _ _ => rfl⟩
  | cons i t ih =>
      intro st
      obtain ⟨ih1, ih2, ih3⟩ := ih (presetPhaseStep m imap st i)
      rw [List.foldl_cons]
      refine ⟨?_, ?_, ?_⟩
      · rw [ih1, presetPhaseStep_presetsSrc, List.length_set]
      · intro k
        rw [ih2 k, presetPhaseStep_presetsSrc, getD_set_cases]
        by_cases hk : i = k ∧ i < st.presetsSrc.length
        · rw [if_pos hk, ← hk.1]
          rfl
        · rw [if_neg hk]
      · intro k hk
        rw [List.mem_cons] at hk
        push_neg at hk
        rw [ih3 k hk.2, presetPhaseStep_presetsSrc,
          getD_set_ne _ _ _ _ _ (Ne.symm hk.1)]

/-- Closed form of the mutated input model on the kept path. -/
theorem subset_post (m : SF2File) (w : List (Nat × Nat))
    (hk : keptPresetIdxs m w ≠ []) :
    (subset_sf2 m w).2 =
      { m with
        samples := (samplePhase m (collectSampleIdxs m
          (collectInstIdxs m (keptPresetIdxs m w)))).samplesSrc
        instruments := (instPhase m (collectInstIdxs m (keptPresetIdxs m w))
          (samplePhase m (collectSampleIdxs m
            (collectInstIdxs m (keptPresetIdxs m w)))).smap).instsSrc
        presets := (presetPhase m (keptPresetIdxs m w)
          (instPhase m (collectInstIdxs m (keptPresetIdxs m w))
            (samplePhase m (collectSampleIdxs m
              (collectInstIdxs m (keptPresetIdxs m w)))).smap).imap).presetsSrc
      } := by
  simp only [subset_sf2, if_neg hk]

/-- Closed form of the output model on the kept path. -/
theorem subset_out (m : SF2File) (w : List (Nat × Nat))
    (hk : keptPresetIdxs m w ≠ []) :
    (subset_sf2 m w).1 =
      { info_chunks := m.info_chunks
        sample_data := (samplePhase m (collectSampleIdxs m
          (collectInstIdxs m (keptPresetIdxs m w)))).newData
        sample_data_24 := []
        presets := (presetPhase m (keptPresetIdxs m w)
          (instPhase m (collectInstIdxs m (keptPresetIdxs m w))
            (samplePhase m (collectSampleIdxs m
              (collectInstIdxs m (keptPresetIdxs m w)))).smap).imap).outPresets
        preset_bags := (presetPhase m (keptPresetIdxs m w)
          (instPhase m (collectInstIdxs m (keptPresetIdxs m w))
            (samplePhase m (collectSampleIdxs m
              (collectInstIdxs m (keptPresetIdxs m w)))).smap).imap).outBags
        preset_mods := (presetPhase m (keptPresetIdxs m w)
          (instPhase m (collectInstIdxs m (keptPresetIdxs m w))
            (samplePhase m (collectSampleIdxs m
              (collectInstIdxs m (keptPresetIdxs m w)))).smap).imap).outMods
        preset_gens := (presetPhase m (keptPresetIdxs m w)
          (instPhase m (collectInstIdxs m (keptPresetIdxs m w))
            (samplePhase m (collectSampleIdxs m
              (collectInstIdxs m (keptPresetIdxs m w)))).smap).imap).outGens
        instruments := (instPhase m (collectInstIdxs m (keptPresetIdxs m w))
          (samplePhase m (collectSampleIdxs m
            (collectInstIdxs m (keptPresetIdxs m w)))).smap).outInsts
        inst_bags := (instPhase m (collectInstIdxs m (keptPresetIdxs m w))
          (samplePhase m (collectSampleIdxs m
            (collectInstIdxs m (keptPresetIdxs m w)))).smap).outBags
        inst_mods := (instPhase m (collectInstIdxs m (keptPresetIdxs m w))
          (samplePhase m (collectSampleIdxs m
            (collectInstIdxs m (keptPresetIdxs m w)))).smap).outMods
        inst_gens := (instPhase m (collectInstIdxs m (keptPresetIdxs m w))
          (samplePhase m (collectSampleIdxs m
            (collectInstIdxs m (keptPresetIdxs m w)))).smap).outGens
        samples := (samplePhase m (collectSampleIdxs m
          (collectInstIdxs m (keptPresetIdxs m w)))).outSamples } := by
  simp only [subset_sf2, if_neg hk]

/-- C8: `subset_sf2` DOES mutate the input model in place: on `linkModel`
the call sets sample 0's runtime `new_index` and zeroes sample 1's
`sample_link` (its stereo partner was dropped) on the records shared
with the input. -/
theorem c8_nomutation_counterexample :
    (subset_sf2 linkModel [(0, 0)]).2 ≠ linkModel ∧
    ((subset_sf2 linkModel [(0, 0)]).2.samples.getD 1 default).sample_link
      = 0 ∧
    (linkModel.samples.getD 1 default).sample_link = 2 ∧
    ((subset_sf2 linkModel [(0, 0)]).2.samples.getD 0 default).new_index
      = 0 ∧
    (linkModel.samples.getD 0 default).new_index = -1 := by
  decide

/-- C8 (amended): `subset_sf2` leaves the input's metadata, PCM blobs and
all bag/generator/modulator tables untouched and preserves the length
and every parsed (non-runtime, non-link) field of the preset, instrument
and sample tables; but it mutates, in place on the input's records, the
runtime fields `new_index`/`new_bag_idx`/`new_start`/`new_end` of every
retained record and the `sample_link` of every retained sample, so the
input model is NOT left unchanged and the transform is not
side-effect-free. -/
theorem c8_nomutation_amended (m : SF2File) (w : List (Nat × Nat)) :
    (subset_sf2 m w).2.info_chunks = m.info_chunks ∧
    (subset_sf2 m w).2.sample_data = m.sample_data ∧
    (subset_sf2 m w).2.sample_data_24 = m.sample_data_24 ∧
    (subset_sf2 m w).2.preset_bags = m.preset_bags ∧
    (subset_sf2 m w).2.preset_gens = m.preset_gens ∧
    (subset_sf2 m w).2.preset_mods = m.preset_mods ∧
    (subset_sf2 m w).2.inst_bags = m.inst_bags ∧
    (subset_sf2 m w).2.inst_gens = m.inst_gens ∧
    (subset_sf2 m w).2.inst_mods = m.inst_mods ∧
    (subset_sf2 m w).2.presets.length = m.presets.length ∧
    (subset_sf2 m w).2.instruments.length = m.instruments.length ∧
    (subset_sf2 m w).2.samples.length = m.samples.length ∧
    (∀ k, pCore ((subset_sf2 m w).2.presets.getD k default) =
      pCore (m.presets.getD k default)) ∧
    (∀ k, iCore ((subset_sf2 m w).2.instruments.getD k default) =
      iCore (m.instruments.getD k default)) ∧
    (∀ k, sCore ((subset_sf2 m w).2.samples.getD k default) =
      sCore (m.samples.getD k default)) := by
  by_cases hk : keptPresetIdxs m w = []
  · have h : subset_sf2 m w = ({ info_chunks := m.info_chunks }, m) := by
      simp only [subset_sf2, if_pos hk]
    rw [h]
    exact ⟨rfl, rfl, rfl, rfl, rfl, rfl, rfl, rfl, rfl, rfl, rfl, rfl,
      fun _ => rfl, fun _ => rfl, fun _ => rfl⟩
  · rw [subset_post m w hk]
    obtain ⟨_, _, s3, s4, _, _⟩ := samplePhase_spec m
      (collectSampleIdxs m (collectInstIdxs m (keptPresetIdxs m w)))
    obtain ⟨i1, i2, _⟩ := instSrc_spec m
      (samplePhase m (collectSampleIdxs m
        (collectInstIdxs m (keptPresetIdxs m w)))).smap
      (pySorted (collectInstIdxs m (keptPresetIdxs m w))).enum
      { instsSrc := m.instruments, outInsts := [], outBags := []
        outGens := [], outMods := [], imap := [] }
    obtain ⟨p1, p2, _⟩ := presSrc_spec m
      (instPhase m (collectInstIdxs m (keptPresetIdxs m w))
        (samplePhase m (collectSampleIdxs m
          (collectInstIdxs m (keptPresetIdxs m w)))).smap).imap
      (keptPresetIdxs m w)
      { presetsSrc := m.presets, outPresets := [], outBags := []
        outGens := [], outMods := [] }
    exact ⟨rfl, rfl, rfl, rfl, rfl, rfl, rfl, rfl, rfl, p1, i1, s3,
      p2, i2, s4⟩

/-! ## C5: stereo-link retention -/

/-- Parallel folds over the same index list preserve a binary relation
whose preservation holds stepwise. -/
theorem foldl_rel {σ τ γ : Type} (f : σ → γ → σ) (g : τ → γ → τ)
    (R : σ → τ → Prop) (hstep : ∀ s t x, R s t → R (f s x) (g t x)) :
    ∀ (l : List γ) (s : σ) (t : τ), R s t → R (l.foldl f s) (l.foldl g t) := by
  intro l
  induction l with
  | nil => exact fun s t h => h
  | cons x xs ih => exact fun s t h => ih _ _ (hstep s t x h)

/-- The sample indices referenced *directly* by a `GEN_SAMPLE_ID`
generator of the walked instruments — the collection walk of
`collectSampleIdxs` with the stereo-link insertion removed.  A sample is
in the collected set but outside this set exactly when it entered only
as someone's stereo partner. -/
def directSampleRefs (m : SF2File) (instIdxs : List Nat) : List Nat :=
  instIdxs.foldl
    (fun acc instIdx =>
      let inst := m.instruments.getD instIdx default
      (pyRange inst.bag_idx (instBagEnd m instIdx)).foldl
        (fun acc2 bagIdx =>
          let bag := m.inst_bags.getD bagIdx default
          (pyRange bag.gen_idx (ibagGenEnd m bagIdx)).foldl
            (fun acc3 genIdx =>
              let gen := m.inst_gens.getD genIdx default
              if gen.oper = GEN_SAMPLE_ID then pyInsert acc3 gen.amount
              else acc3)
            acc2)
        acc)
    []

/-- Invariant tying a direct-reference accumulator to the full
collection accumulator: everything direct is collected, and the
(non-zero, in-bounds) stereo link of everything direct is collected. -/
def dInv (m : SF2File) (accD accC : List Nat) : Prop :=
  (∀ a ∈ accD, a ∈ accC) ∧
  (∀ a ∈ accD, (m.samples.getD a default).sample_link ≠ 0 →
    (m.samples.getD a default).sample_link < m.samples.length →
    (m.samples.getD a default).sample_link ∈ accC)

theorem directRefs_sub_collect (m : SF2File) (instIdxs : List Nat) :
    dInv m (directSampleRefs m instIdxs) (collectSampleIdxs m instIdxs) := by
  unfold directSampleRefs collectSampleIdxs
  refine foldl_rel _ _ (dInv m) ?_ instIdxs [] []
    ⟨fun a h => absurd h (List.not_mem_nil a),
     fun a h => absurd h (List.not_mem_nil a)⟩
  intro s t instIdx hst
  refine foldl_rel _ _ (dInv m) ?_ _ s t hst
  intro s2 t2 bagIdx hst2
  refine foldl_rel _ _ (dInv m) ?_ _ s2 t2 hst2
  intro s3 t3 genIdx hst3
  by_cases hop : (m.inst_gens.getD genIdx default).oper = GEN_SAMPLE_ID
  · simp only [if_pos hop]
    by_cases hlc :
        (m.samples.getD (m.inst_gens.getD genIdx default).amount
          default).sample_link ≠ 0 ∧
        (m.samples.getD (m.inst_gens.getD genIdx default).amount
          default).sample_link < m.samples.length
    · simp only [if_pos hlc]
      refine ⟨?_, ?_⟩
      · intro a ha
        rcases (mem_pyInsert _ _ _).mp ha with rfl | ha'
        · exact (mem_pyInsert _ _ _).mpr
            (Or.inr ((mem_pyInsert _ _ _).mpr (Or.inl rfl)))
        · exact (mem_pyInsert _ _ _).mpr
            (Or.inr ((mem_pyInsert _ _ _).mpr (Or.inr (hst3.1 a ha'))))
      · intro a ha h1 h2
        rcases (mem_pyInsert _ _ _).mp ha with rfl | ha'
        · exact (mem_pyInsert _ _ _).mpr (Or.inl rfl)
        · exact (mem_pyInsert _ _ _).mpr
            (Or.inr ((mem_pyInsert _ _ _).mpr (Or.inr (hst3.2 a ha' h1 h2))))
    · simp only [if_neg hlc]
      refine ⟨?_, ?_⟩
      · intro a ha
        rcases (mem_pyInsert _ _ _).mp ha with rfl | ha'
        · exact (mem_pyInsert _ _ _).mpr (Or.inl rfl)
        · exact (mem_pyInsert _ _ _).mpr (Or.inr (hst3.1 a ha'))
      · intro a ha h1 h2
        rcases (mem_pyInsert _ _ _).mp ha with rfl | ha'
        · exact absurd ⟨h1, h2⟩ hlc
        · exact (mem_pyInsert _ _ _).mpr (Or.inr (hst3.2 a ha' h1 h2))
  · simp only [if_neg hop]
    exact hst3

/-- Every collected sample index is retained in the output: its parsed
core appears among the output samples' cores. -/
theorem collected_retained (m : SF2File) (w : List (Nat × Nat)) (s : Nat)
    (hk : keptPresetIdxs m w ≠ [])
    (hs : s ∈ collectSampleIdxs m (collectInstIdxs m (keptPresetIdxs m w))) :
    sCore (m.samples.getD s default) ∈
      (subset_sf2 m w).1.samples.map sCore := by
  rw [subset_out m w hk]
  obtain ⟨_, _, _, _, _, s6⟩ := samplePhase_spec m
    (collectSampleIdxs m (collectInstIdxs m (keptPresetIdxs m w)))
  show sCore (m.samples.getD s default) ∈
    (samplePhase m (collectSampleIdxs m
      (collectInstIdxs m (keptPresetIdxs m w)))).outSamples.map sCore
  rw [s6]
  exact List.mem_append_left _
    (List.mem_map.mpr ⟨s, (pySorted_mem _ _).mpr hs, rfl⟩)

/-- C5: stereo completeness fails for transitively linked samples.  In
`linkModel` sample 1 is retained (as sample 0's stereo partner) and its
input `sample_link` is the non-zero in-bounds index 2, but sample 2 is
NOT retained: no output sample has its core.  The walk adds links only
for generator-referenced samples, never chasing a link of a link. -/
theorem c5_stereo_counterexample :
    sCore (linkModel.samples.getD 1 default) ∈
      (subset_sf2 linkModel [(0, 0)]).1.samples.map sCore ∧
    (linkModel.samples.getD 1 default).sample_link = 2 ∧
    (2 : Nat) < linkModel.samples.length ∧
    sCore (linkModel.samples.getD 2 default) ∉
      (subset_sf2 linkModel [(0, 0)]).1.samples.map sCore := by
  decide

/-- C5 (amended): stereo completeness holds for samples referenced
*directly* by a generator of the subsetting walk: if such a sample has a
non-zero, in-bounds stereo link, both it and its partner are retained in
the output (recognizable by their parsed cores; the subsetter rewrites
links and runtime fields in place).  Samples that are themselves
retained only as stereo partners do NOT get their links chased. -/
theorem c5_stereo_amended (m : SF2File) (w : List (Nat × Nat)) (s : Nat)
    (hk : keptPresetIdxs m w ≠ [])
    (hs : s ∈ directSampleRefs m (collectInstIdxs m (keptPresetIdxs m w)))
    (h1 : (m.samples.getD s default).sample_link ≠ 0)
    (h2 : (m.samples.getD s default).sample_link < m.samples.length) :
    sCore (m.samples.getD s default) ∈
      (subset_sf2 m w).1.samples.map sCore ∧
    sCore (m.samples.getD (m.samples.getD s default).sample_link default) ∈
      (subset_sf2 m w).1.samples.map sCore := by
  obtain ⟨hmem, hlink⟩ :=
    directRefs_sub_collect m (collectInstIdxs m (keptPresetIdxs m w))
  exact ⟨collected_retained m w s hk (hmem s hs),
    collected_retained m w _ hk (hlink s hs h1 h2)⟩

theorem c5_stereo_amended_witness :
    keptPresetIdxs baseModel [(0, 0)] ≠ [] ∧
    0 ∈ directSampleRefs baseModel
      (collectInstIdxs baseModel (keptPresetIdxs baseModel [(0, 0)])) ∧
    (baseModel.samples.getD 0 default).sample_link ≠ 0 ∧
    (baseModel.samples.getD 0 default).sample_link <
      baseModel.samples.length ∧
    (sCore (baseModel.samples.getD 0 default) ∈
      (subset_sf2 baseModel [(0, 0)]).1.samples.map sCore ∧
     sCore (baseModel.samples.getD
        (baseModel.samples.getD 0 default).sample_link default) ∈
      (subset_sf2 baseModel [(0, 0)]).1.samples.map sCore) :=
  ⟨by decide, by decide, by decide, by decide,
   c5_stereo_amended baseModel [(0, 0)] 0 (by decide) (by decide)
     (by decide) (by decide)⟩

/-! ## C7: size monotonicity -/

theorem instCopyBag_outInsts (m : SF2File) (smap : List (Nat × Nat))
    (st : InstPhase) (b : Nat) :
    (instCopyBag m smap st b).outInsts = st.outInsts := by
  unfold instCopyBag
  refine foldl_invariant _ (fun s : InstPhase => s.outInsts = st.outInsts)
    ?_ _ _ ?_
  · exact fun s x hs => hs
  refine foldl_invariant _ (fun s : InstPhase => s.outInsts = st.outInsts)
    ?_ _ _ ?_
  · exact fun s x hs => hs
  rfl

theorem instPhaseStep_outInsts (m : SF2File) (smap : List (Nat × Nat))
    (st : InstPhase) (e : Nat × Nat) :
    (instPhaseStep m smap st e).outInsts =
      st.outInsts ++
        [{ st.instsSrc.getD e.2 default with
           new_index := (e.1 : Int), new_bag_idx := st.outBags.length }] := by
  unfold instPhaseStep
  refine foldl_invariant _
    (fun s : InstPhase => s.outInsts = st.outInsts ++
      [{ st.instsSrc.getD e.2 default with
         new_index := (e.1 : Int), new_bag_idx := st.outBags.length }])
    ?_ _ _ ?_
  · exact fun s x hs => (instCopyBag_outInsts m smap s x).trans hs
  rfl

theorem instOut_len (m : SF2File) (smap : List (Nat × Nat)) :
    ∀ (l : List (Nat × Nat)) (st : InstPhase),
    (l.foldl (instPhaseStep m smap) st).outInsts.length =
      st.outInsts.length + l.length := by
  intro l
  induction l with
  | nil => exact fun st => rfl
  | cons e t ih =>
      intro st
      rw [List.foldl_cons, ih, instPhaseStep_outInsts, List.length_append]
      simp
      omega

theorem presetCopyBag_outPresets (m : SF2File) (imap : List (Nat × Nat))
    (st : PresPhase) (b : Nat) :
    (presetCopyBag m imap st b).outPresets = st.outPresets := by
  unfold presetCopyBag
  refine foldl_invariant _ (fun s : PresPhase => s.outPresets = st.outPresets)
    ?_ _ _ ?_
  · exact fun s x hs => hs
  refine foldl_invariant _ (fun s : PresPhase => s.outPresets = st.outPresets)
    ?_ _ _ ?_
  · exact fun s x hs => hs
  rfl

theorem presetPhaseStep_outPresets (m : SF2File) (imap : List (Nat × Nat))
    (st : PresPhase) (i : Nat) :
    (presetPhaseStep m imap st i).outPresets =
      st.outPresets ++
        [{ st.presetsSrc.getD i default with
           new_bag_idx := st.outBags.length }] := by
  unfold presetPhaseStep
  refine foldl_invariant _
    (fun s : PresPhase => s.outPresets = st.outPresets ++
      [{ st.presetsSrc.getD i default with
         new_bag_idx := st.outBags.length }])
    ?_ _ _ ?_
  · exact fun s x hs => (presetCopyBag_outPresets m imap s x).trans hs
  rfl

theorem presOut_len (m : SF2File) (imap : List (Nat × Nat)) :
    ∀ (l : List Nat) (st : PresPhase),
    (l.foldl (presetPhaseStep m imap) st).outPresets.length =
      st.outPresets.length + l.length := by
  intro l
  induction l with
  | nil => exact fun st => rfl
  | cons i t ih =>
      intro st
      rw [List.foldl_cons, ih, presetPhaseStep_outPresets, List.length_append]
      simp
      omega

/-- The collected instrument-index set is duplicate-free. -/
theorem collectInst_nodup (m : SF2File) (kept : List Nat) :
    (collectInstIdxs m kept).Nodup := by
  unfold collectInstIdxs
  refine foldl_invariant _ (fun acc : List Nat => acc.Nodup) ?_ _ _
    List.nodup_nil
  intro acc i hacc
  refine foldl_invariant _ (fun acc : List Nat => acc.Nodup) ?_ _ _ hacc
  intro acc2 b hacc2
  refine foldl_invariant _ (fun acc : List Nat => acc.Nodup) ?_ _ _ hacc2
  intro acc3 g hacc3
  by_cases hop : (m.preset_gens.getD g default).oper = GEN_INSTRUMENT
  · simp only [if_pos hop]
    exact pyInsert_nodup _ _ hacc3
  · simp only [if_neg hop]
    exact hacc3

/-- Under in-bounds generator references, every collected instrument
index avoids the terminal slot. -/
theorem collectInst_bounded (m : SF2File) (kept : List Nat)
    (hpg : ∀ g ∈ m.preset_gens, g.oper = GEN_INSTRUMENT →
      g.amount + 1 < m.instruments.length) :
    ∀ a ∈ collectInstIdxs m kept, a + 1 < m.instruments.length := by
  unfold collectInstIdxs
  refine foldl_invariant _
    (fun acc : List Nat => ∀ a ∈ acc, a + 1 < m.instruments.length) ?_ _ _
    (fun a h => absurd h (List.not_mem_nil a))
  intro acc i hacc
  refine foldl_invariant _
    (fun acc : List Nat => ∀ a ∈ acc, a + 1 < m.instruments.length) ?_ _ _ hacc
  intro acc2 b hacc2
  refine foldl_invariant _
    (fun acc : List Nat => ∀ a ∈ acc, a + 1 < m.instruments.length) ?_ _ _
    hacc2
  intro acc3 g hacc3
  by_cases hop : (m.preset_gens.getD g default).oper = GEN_INSTRUMENT
  · simp only [if_pos hop]
    intro a ha
    rcases (mem_pyInsert _ _ _).mp ha with rfl | ha'
    · by_cases hg : g < m.preset_gens.length
      · exact hpg _ (getD_mem _ _ _ hg) hop
      · rw [List.getD_eq_default _ _ (le_of_not_lt hg)] at hop
        exact absurd hop (by decide)
    · exact hacc3 a ha'
  · simp only [if_neg hop]
    exact hacc3

/-- The collected sample-index set is duplicate-free. -/
theorem collectSamp_nodup (m : SF2File) (instIdxs : List Nat) :
    (collectSampleIdxs m instIdxs).Nodup := by
  unfold collectSampleIdxs
  refine foldl_invariant _ (fun acc : List Nat => acc.Nodup) ?_ _ _
    List.nodup_nil
  intro acc i hacc
  refine foldl_invariant _ (fun acc : List Nat => acc.Nodup) ?_ _ _ hacc
  intro acc2 b hacc2
  refine foldl_invariant _ (fun acc : List Nat => acc.Nodup) ?_ _ _ hacc2
  intro acc3 g hacc3
  by_cases hop : (m.inst_gens.getD g default).oper = GEN_SAMPLE_ID
  · simp only [if_pos hop]
    split
    · exact pyInsert_nodup _ _ (pyInsert_nodup _ _ hacc3)
    · exact pyInsert_nodup _ _ hacc3
  · simp only [if_neg hop]
    exact hacc3

/-- Under in-bounds sample references and stereo links, every collected
sample index avoids the terminal slot. -/
theorem collectSamp_bounded (m : SF2File) (instIdxs : List Nat)
    (hig : ∀ g ∈ m.inst_gens, g.oper = GEN_SAMPLE_ID →
      g.amount + 1 < m.samples.length)
    (hlk : ∀ s ∈ m.samples, s.sample_link ≠ 0 →
      s.sample_link + 1 < m.samples.length) :
    ∀ a ∈ collectSampleIdxs m instIdxs, a + 1 < m.samples.length := by
  unfold collectSampleIdxs
  refine foldl_invariant _
    (fun acc : List Nat => ∀ a ∈ acc, a + 1 < m.samples.length) ?_ _ _
    (fun a h => absurd h (List.not_mem_nil a))
  intro acc i hacc
  refine foldl_invariant _
    (fun acc : List Nat => ∀ a ∈ acc, a + 1 < m.samples.length) ?_ _ _ hacc
  intro acc2 b hacc2
  refine foldl_invariant _
    (fun acc : List Nat => ∀ a ∈ acc, a + 1 < m.samples.length) ?_ _ _ hacc2
  intro acc3 g hacc3
  by_cases hop : (m.inst_gens.getD g default).oper = GEN_SAMPLE_ID
  · simp only [if_pos hop]
    have hamt : ∀ a ∈ pyInsert acc3 (m.inst_gens.getD g default).amount,
        a + 1 < m.samples.length := by
      intro a ha
      rcases (mem_pyInsert _ _ _).mp ha with rfl | ha'
      · by_cases hg : g < m.inst_gens.length
        · exact hig _ (getD_mem _ _ _ hg) hop
        · rw [List.getD_eq_default _ _ (le_of_not_lt hg)] at hop
          exact absurd hop (by decide)
      · exact hacc3 a ha'
    split
    · rename_i hcond
      intro a ha
      rcases (mem_pyInsert _ _ _).mp ha with rfl | ha'
      · by_cases hs : (m.inst_gens.getD g default).amount < m.samples.length
        · exact hlk _ (getD_mem _ _ _ hs) hcond.1
        · rw [List.getD_eq_default _ _ (le_of_not_lt hs)] at hcond
          exact absurd hcond.1 (by decide)
      · exact hamt a ha'
    · exact hamt
  · simp only [if_neg hop]
    exact hacc3

/-- In a monotone sample layout (non-terminal records laid out left to
right), an earlier record ends no later than a later one starts. -/
theorem layout_chain (m : SF2File)
    (hlay1 : ∀ j, j + 1 < m.samples.length →
      (m.samples.getD j default).start ≤ (m.samples.getD j default).end_)
    (hlay2 : ∀ j, j + 2 < m.samples.length →
      (m.samples.getD j default).end_ ≤ (m.samples.getD (j + 1) default).start) :
    ∀ (b a : Nat), a < b → b + 1 < m.samples.length →
      (m.samples.getD a default).end_ ≤ (m.samples.getD b default).start := by
  intro b
  induction b with
  | zero => exact fun a h _ => absurd h (Nat.not_lt_zero a)
  | succ n ih =>
      intro a hab hb
      rcases Nat.lt_succ_iff_lt_or_eq.mp hab with h | h
      · calc (m.samples.getD a default).end_
            ≤ (m.samples.getD n default).start := ih a h (by omega)
          _ ≤ (m.samples.getD n default).end_ := hlay1 n (by omega)
          _ ≤ (m.samples.getD (n + 1) default).start := hlay2 n (by omega)
      · subst h
        exact hlay2 a (by omega)

/-- Sum of the PCM slices of a strictly increasing list of non-terminal
samples in a monotone layout: bounded by the blob bytes above `lo * 2`. -/
theorem slice_sum_le (m : SF2File)
    (hlay1 : ∀ j, j + 1 < m.samples.length →
      (m.samples.getD j default).start ≤ (m.samples.getD j default).end_)
    (hlay2 : ∀ j, j + 2 < m.samples.length →
      (m.samples.getD j default).end_ ≤ (m.samples.getD (j + 1) default).start)
    (hlay3 : ∀ j, j + 1 < m.samples.length →
      (m.samples.getD j default).end_ * 2 ≤ m.sample_data.length) :
    ∀ (l : List Nat) (lo : Nat), l.Pairwise (· < ·) →
    (∀ a ∈ l, a + 1 < m.samples.length) →
    (∀ a ∈ l, lo ≤ (m.samples.getD a default).start) →
    ((l.map (fun o => sampSlice m.sample_data
      (m.samples.getD o default))).flatten).length ≤
      m.sample_data.length - lo * 2 := by
  intro l
  induction l with
  | nil => intro lo _ _ _; simp
  | cons a t ih =>
      intro lo hp hb hlow
      rw [List.map_cons, List.flatten_cons, List.length_append]
      have haN : a + 1 < m.samples.length := hb a (List.mem_cons_self a t)
      have hslice : (sampSlice m.sample_data (m.samples.getD a default)).length
          = (m.samples.getD a default).end_ * 2 -
            (m.samples.getD a default).start * 2 := by
        unfold sampSlice pySlice
        rw [List.length_take, List.length_drop]
        have := hlay3 a haN
        omega
      have hpair := List.pairwise_cons.mp hp
      have iht := ih ((m.samples.getD a default).end_) hpair.2
        (fun b hbm => hb b (List.mem_cons_of_mem a hbm))
        (fun b hbm => layout_chain m hlay1 hlay2 b a (hpair.1 b hbm)
          (hb b (List.mem_cons_of_mem a hbm)))
      have h1 := hlay1 a haN
      have h3 := hlay3 a haN
      have hlo := hlow a (List.mem_cons_self a t)
      rw [hslice]
      omega

/-- C7: size monotonicity fails on `overlapModel`: two kept samples map
the same PCM byte range and a stereo link points at the terminal record,
so the output has more sample records (4 > 3) and more PCM bytes
(8 > 4) than the input. -/
theorem c7_monotonic_counterexample :
    (subset_sf2 overlapModel [(0, 0)]).1.samples.length = 4 ∧
    overlapModel.samples.length = 3 ∧
    (subset_sf2 overlapModel [(0, 0)]).1.sample_data.length = 8 ∧
    overlapModel.sample_data.length = 4 := by
  decide

theorem presetPhase_len (m : SF2File) (kept : List Nat)
    (imap : List (Nat × Nat)) :
    (presetPhase m kept imap).outPresets.length = kept.length + 1 := by
  simp only [presetPhase]
  rw [List.length_append, presOut_len]
  simp

theorem instPhase_len (m : SF2File) (idxs : List Nat)
    (smap : List (Nat × Nat)) :
    (instPhase m idxs smap).outInsts.length = idxs.length + 1 := by
  simp only [instPhase]
  rw [List.length_append, instOut_len]
  simp [List.enum_length, pySorted_length]

/-- C7 (amended): size monotonicity holds for models whose generator
references and stereo links avoid the terminal slots, whose instrument
and sample tables are non-empty, and whose non-terminal samples are laid
out monotonically within the PCM blob. -/
theorem c7_monotonic_amended (m : SF2File) (w : List (Nat × Nat))
    (hinst1 : 1 ≤ m.instruments.length)
    (hsamp1 : 1 ≤ m.samples.length)
    (hpg : ∀ g ∈ m.preset_gens, g.oper = GEN_INSTRUMENT →
      g.amount + 1 < m.instruments.length)
    (hig : ∀ g ∈ m.inst_gens, g.oper = GEN_SAMPLE_ID →
      g.amount + 1 < m.samples.length)
    (hlk : ∀ s ∈ m.samples, s.sample_link ≠ 0 →
      s.sample_link + 1 < m.samples.length)
    (hlay1 : ∀ j < m.samples.length - 1,
      (m.samples.getD j default).start ≤ (m.samples.getD j default).end_)
    (hlay2 : ∀ j < m.samples.length - 2,
      (m.samples.getD j default).end_ ≤ (m.samples.getD (j + 1) default).start)
    (hlay3 : ∀ j < m.samples.length - 1,
      (m.samples.getD j default).end_ * 2 ≤ m.sample_data.length) :
    (subset_sf2 m w).1.presets.length ≤ m.presets.length ∧
    (subset_sf2 m w).1.instruments.length ≤ m.instruments.length ∧
    (subset_sf2 m w).1.samples.length ≤ m.samples.length ∧
    (subset_sf2 m w).1.sample_data.length ≤ m.sample_data.length := by
  have hlay1' : ∀ j, j + 1 < m.samples.length →
      (m.samples.getD j default).start ≤ (m.samples.getD j default).end_ :=
    fun j hj => hlay1 j (by omega)
  have hlay2' : ∀ j, j + 2 < m.samples.length →
      (m.samples.getD j default).end_ ≤
        (m.samples.getD (j + 1) default).start :=
    fun j hj => hlay2 j (by omega)
  have hlay3' : ∀ j, j + 1 < m.samples.length →
      (m.samples.getD j default).end_ * 2 ≤ m.sample_data.length :=
    fun j hj => hlay3 j (by omega)
  by_cases hk : keptPresetIdxs m w = []
  · have h : subset_sf2 m w = ({ info_chunks := m.info_chunks }, m) := by
      simp only [subset_sf2, if_pos hk]
    rw [h]
    exact ⟨Nat.zero_le _, Nat.zero_le _, Nat.zero_le _, Nat.zero_le _⟩
  · rw [subset_out m w hk]
    refine ⟨?_, ?_, ?_, ?_⟩
    · show (presetPhase m (keptPresetIdxs m w)
        (instPhase m (collectInstIdxs m (keptPresetIdxs m w))
          (samplePhase m (collectSampleIdxs m
            (collectInstIdxs m (keptPresetIdxs m w)))).smap).imap
        ).outPresets.length ≤ m.presets.length
      rw [presetPhase_len]
      have h1 : (keptPresetIdxs m w).length ≤ m.presets.length - 1 := by
        unfold keptPresetIdxs
        calc ((List.range (m.presets.length - 1)).filter _).length
            ≤ (List.range (m.presets.length - 1)).length :=
              List.length_filter_le _ _
          _ = m.presets.length - 1 := List.length_range _
      have h2 : 1 ≤ m.presets.length := by
        obtain ⟨x, hx⟩ := List.exists_mem_of_ne_nil _ hk
        unfold keptPresetIdxs at hx
        have := List.mem_range.mp (List.mem_of_mem_filter hx)
        omega
      omega
    · show (instPhase m (collectInstIdxs m (keptPresetIdxs m w))
        (samplePhase m (collectSampleIdxs m
          (collectInstIdxs m (keptPresetIdxs m w)))).smap
        ).outInsts.length ≤ m.instruments.length
      rw [instPhase_len]
      have := nodup_bounded_length (collectInstIdxs m (keptPresetIdxs m w))
        (collectInst_nodup m (keptPresetIdxs m w))
        (m.instruments.length - 1)
        (fun a ha => by
          have := collectInst_bounded m (keptPresetIdxs m w) hpg a ha
          omega)
      omega
    · show (samplePhase m (collectSampleIdxs m
        (collectInstIdxs m (keptPresetIdxs m w)))).outSamples.length ≤
        m.samples.length
      rw [(samplePhase_terminal m _).2, pySorted_length]
      have := nodup_bounded_length
        (collectSampleIdxs m (collectInstIdxs m (keptPresetIdxs m w)))
        (collectSamp_nodup m (collectInstIdxs m (keptPresetIdxs m w)))
        (m.samples.length - 1)
        (fun a ha => by
          have := collectSamp_bounded m
            (collectInstIdxs m (keptPresetIdxs m w)) hig hlk a ha
          omega)
      omega
    · show (samplePhase m (collectSampleIdxs m
        (collectInstIdxs m (keptPresetIdxs m w)))).newData.length ≤
        m.sample_data.length
      obtain ⟨s1, _, _, _, _, _⟩ := samplePhase_spec m
        (collectSampleIdxs m (collectInstIdxs m (keptPresetIdxs m w)))
      rw [s1]
      have := slice_sum_le m hlay1' hlay2' hlay3'
        (pySorted (collectSampleIdxs m
          (collectInstIdxs m (keptPresetIdxs m w)))) 0
        (pySorted_pairwise_lt _
          (collectSamp_nodup m (collectInstIdxs m (keptPresetIdxs m w))))
        (fun a ha => collectSamp_bounded m
          (collectInstIdxs m (keptPresetIdxs m w)) hig hlk a
          ((pySorted_mem _ _).mp ha))
        (fun a _ => Nat.zero_le _)
      omega

theorem c7_monotonic_amended_witness :
    (1 ≤ baseModel.instruments.length ∧
     1 ≤ baseModel.samples.length ∧
     (∀ g ∈ baseModel.preset_gens, g.oper = GEN_INSTRUMENT →
       g.amount + 1 < baseModel.instruments.length) ∧
     (∀ g ∈ baseModel.inst_gens, g.oper = GEN_SAMPLE_ID →
       g.amount + 1 < baseModel.samples.length) ∧
     (∀ s ∈ baseModel.samples, s.sample_link ≠ 0 →
       s.sample_link + 1 < baseModel.samples.length) ∧
     (∀ j < baseModel.samples.length - 1,
       (baseModel.samples.getD j default).start ≤
         (baseModel.samples.getD j default).end_) ∧
     (∀ j < baseModel.samples.length - 2,
       (baseModel.samples.getD j default).end_ ≤
         (baseModel.samples.getD (j + 1) default).start) ∧
     (∀ j < baseModel.samples.length - 1,
       (baseModel.samples.getD j default).end_ * 2 ≤
         baseModel.sample_data.length)) ∧
    ((subset_sf2 baseModel [(0, 0)]).1.presets.length ≤
       baseModel.presets.length ∧
     (subset_sf2 baseModel [(0, 0)]).1.instruments.length ≤
       baseModel.instruments.length ∧
     (subset_sf2 baseModel [(0, 0)]).1.samples.length ≤
       baseModel.samples.length ∧
     (subset_sf2 baseModel [(0, 0)]).1.sample_data.length ≤
       baseModel.sample_data.length) :=
  ⟨⟨by decide, by decide, by decide, by decide, by decide, by decide,
    by decide, by decide⟩,
   c7_monotonic_amended baseModel [(0, 0)] (by decide) (by decide)
     (by decide) (by decide) (by decide) (by decide) (by decide)
     (by decide)⟩

/-! ## C4: referential bounds of the output -/

/-- `foldl_invariant` with membership of the consumed element available
to the step obligation. -/
theorem foldl_invariant_mem {σ γ : Type} (step : σ → γ → σ) (P : σ → Prop) :
    ∀ (l : List γ), (∀ s x, x ∈ l → P s → P (step s x)) →
    ∀ (s : σ), P s → P (l.foldl step s) := by
  intro l
  induction l with
  | nil => exact fun _ s hs => hs
  | cons x t ih =>
      intro hstep s hs
      exact ih (fun s y hy => hstep s y (List.mem_cons_of_mem x hy)) _
        (hstep s x (List.mem_cons_self x t) hs)

/-- `list.index` returns the position of the first structural match. -/
theorem indexOf_eq {α : Type} [DecidableEq α] [Inhabited α] :
    ∀ (l : List α) (a : α) (i : Nat), i < l.length →
    l.getD i default = a → (∀ j, j < i → l.getD j default ≠ a) →
    l.indexOf a = i := by
  intro l
  induction l with
  | nil => intro a i hi; exact absurd hi (by simp)
  | cons x t ih =>
      intro a i hi hget hne
      cases i with
      | zero =>
          have hx : x = a := hget
          simp [List.indexOf_cons, hx]
      | succ k =>
          have hx : x ≠ a := hne 0 (Nat.succ_pos k)
          rw [List.indexOf_cons]
          have hcond : (x == a) = false := beq_eq_false_iff_ne.mpr hx
          rw [hcond]
          simp only [cond_false]
          have := ih a k (by simpa using hi) hget
            (fun j hj => hne (j + 1) (by omega))
          omega

/-- Looking up an element of a duplicate-free list in the flipped
enumeration map yields its position. -/
theorem lookup_enumFrom_flip (l : List Nat) :
    l.Nodup → ∀ (a : Nat), a ∈ l → ∀ (n : Nat),
    ∃ v, ((l.enumFrom n).map (fun e => (e.2, e.1))).lookup a = some v ∧
      n ≤ v ∧ v < n + l.length := by
  induction l with
  | nil => intro _ a ha; exact absurd ha (List.not_mem_nil a)
  | cons x t ih =>
      intro hnd a ha n
      by_cases hax : a = x
      · refine ⟨n, ?_, le_refl n, by simp⟩
        subst hax
        simp [List.enumFrom, List.lookup]
      · have hat : a ∈ t := by
          rcases List.mem_cons.mp ha with h | h
          · exact absurd h hax
          · exact h
        obtain ⟨v, hv, hnv, hvlt⟩ :=
          ih (List.nodup_cons.mp hnd).2 a hat (n + 1)
        refine ⟨v, ?_, by omega, by simp; omega⟩
        have hbeq : (a == x) = false := beq_eq_false_iff_ne.mpr hax
        simp only [List.enumFrom, List.map_cons, List.lookup, hbeq]
        exact hv

theorem lookup_enum_flip (l : List Nat) (hnd : l.Nodup) (a : Nat)
    (ha : a ∈ l) :
    ∃ v, (l.enum.map (fun e => (e.2, e.1))).lookup a = some v ∧
      v < l.length := by
  obtain ⟨v, hv, _, hvl⟩ := lookup_enumFrom_flip l hnd a ha 0
  exact ⟨v, hv, by omega⟩

/-- Whatever the walk of `collectInstIdxs` reaches is collected. -/
theorem collectInst_adds (m : SF2File) (kept : List Nat) (i : Nat)
    (hi : i ∈ kept) (bagIdx : Nat)
    (hb : bagIdx ∈ pyRange (m.presets.getD i default).bag_idx
      (presetBagEndVia m.presets (m.presets.getD i default)))
    (genIdx : Nat)
    (hg : genIdx ∈ pyRange (m.preset_bags.getD bagIdx default).gen_idx
      (pbagGenEnd m bagIdx))
    (hop : (m.preset_gens.getD genIdx default).oper = GEN_INSTRUMENT) :
    (m.preset_gens.getD genIdx default).amount ∈ collectInstIdxs m kept := by
  unfold collectInstIdxs
  refine foldl_mem_step _ ?_ kept i hi _ ?_ []
  · intro acc x a ha
    refine foldl_invariant _ (fun acc : List Nat => a ∈ acc) ?_ _ _ ha
    intro acc2 b2 ha2
    refine foldl_invariant _ (fun acc : List Nat => a ∈ acc) ?_ _ _ ha2
    intro acc3 g3 ha3
    by_cases h : (m.preset_gens.getD g3 default).oper = GEN_INSTRUMENT
    · simp only [if_pos h]
      exact (mem_pyInsert _ _ _).mpr (Or.inr ha3)
    · simp only [if_neg h]
      exact ha3
  · intro acc
    refine foldl_mem_step _ ?_ _ bagIdx hb _ ?_ acc
    · intro acc2 x2 a2 ha2
      refine foldl_invariant _ (fun acc : List Nat => a2 ∈ acc) ?_ _ _ ha2
      intro acc3 g3 ha3
      by_cases h : (m.preset_gens.getD g3 default).oper = GEN_INSTRUMENT
      · simp only [if_pos h]
        exact (mem_pyInsert _ _ _).mpr (Or.inr ha3)
      · simp only [if_neg h]
        exact ha3
    · intro acc2
      refine foldl_mem_step _ ?_ _ genIdx hg _ ?_ acc2
      · intro acc3 x3 a3 ha3
        by_cases h : (m.preset_gens.getD x3 default).oper = GEN_INSTRUMENT
        · simp only [if_pos h]
          exact (mem_pyInsert _ _ _).mpr (Or.inr ha3)
        · simp only [if_neg h]
          exact ha3
      · intro acc3
        simp only [if_pos hop]
        exact (mem_pyInsert _ _ _).mpr (Or.inl rfl)

/-- Whatever the walk of `collectSampleIdxs` reaches is collected. -/
theorem collectSamp_adds (m : SF2File) (instIdxs : List Nat) (old : Nat)
    (hi : old ∈ instIdxs) (bagIdx : Nat)
    (hb : bagIdx ∈ pyRange (m.instruments.getD old default).bag_idx
      (instBagEnd m old))
    (genIdx : Nat)
    (hg : genIdx ∈ pyRange (m.inst_bags.getD bagIdx default).gen_idx
      (ibagGenEnd m bagIdx))
    (hop : (m.inst_gens.getD genIdx default).oper = GEN_SAMPLE_ID) :
    (m.inst_gens.getD genIdx default).amount ∈
      collectSampleIdxs m instIdxs := by
  have hmono1 : ∀ (acc3 : List Nat) (g3 a3 : Nat), a3 ∈ acc3 →
      a3 ∈ (if (m.inst_gens.getD g3 default).oper = GEN_SAMPLE_ID then
        (if (m.samples.getD (m.inst_gens.getD g3 default).amount
              default).sample_link ≠ 0 ∧
            (m.samples.getD (m.inst_gens.getD g3 default).amount
              default).sample_link < m.samples.length then
          pyInsert (pyInsert acc3 (m.inst_gens.getD g3 default).amount)
            (m.samples.getD (m.inst_gens.getD g3 default).amount
              default).sample_link
        else pyInsert acc3 (m.inst_gens.getD g3 default).amount)
      else acc3) := by
    intro acc3 g3 a3 ha3
    by_cases h : (m.inst_gens.getD g3 default).oper = GEN_SAMPLE_ID
    · simp only [if_pos h]
      split
      · exact (mem_pyInsert _ _ _).mpr
          (Or.inr ((mem_pyInsert _ _ _).mpr (Or.inr ha3)))
      · exact (mem_pyInsert _ _ _).mpr (Or.inr ha3)
    · simp only [if_neg h]
      exact ha3
  unfold collectSampleIdxs
  refine foldl_mem_step _ ?_ instIdxs old hi _ ?_ []
  · intro acc x a ha
    refine foldl_invariant _ (fun acc : List Nat => a ∈ acc) ?_ _ _ ha
    intro acc2 b2 ha2
    refine foldl_invariant _ (fun acc : List Nat => a ∈ acc) ?_ _ _ ha2
    intro acc3 g3 ha3
    exact hmono1 acc3 g3 a ha3
  · intro acc
    refine foldl_mem_step _ ?_ _ bagIdx hb _ ?_ acc
    · intro acc2 x2 a2 ha2
      refine foldl_invariant _ (fun acc : List Nat => a2 ∈ acc) ?_ _ _ ha2
      intro acc3 g3 ha3
      exact hmono1 acc3 g3 a2 ha3
    · intro acc2
      refine foldl_mem_step _ ?_ _ genIdx hg _ ?_ acc2
      · intro acc3 x3 a3 ha3
        exact hmono1 acc3 x3 a3 ha3
      · intro acc3
        simp only [if_pos hop]
        split
        · exact (mem_pyInsert _ _ _).mpr
            (Or.inr ((mem_pyInsert _ _ _).mpr (Or.inl rfl)))
        · exact (mem_pyInsert _ _ _).mpr (Or.inl rfl)

theorem instCopyBag_imap (m : SF2File) (smap : List (Nat × Nat))
    (st : InstPhase) (b : Nat) :
    (instCopyBag m smap st b).imap = st.imap := by
  unfold instCopyBag
  refine foldl_invariant _ (fun s : InstPhase => s.imap = st.imap) ?_ _ _ ?_
  · exact fun s x hs => hs
  refine foldl_invariant _ (fun s : InstPhase => s.imap = st.imap) ?_ _ _ ?_
  · exact fun s x hs => hs
  rfl

theorem instPhaseStep_imap (m : SF2File) (smap : List (Nat × Nat))
    (st : InstPhase) (e : Nat × Nat) :
    (instPhaseStep m smap st e).imap = st.imap ++ [(e.2, e.1)] := by
  unfold instPhaseStep
  refine foldl_invariant _
    (fun s : InstPhase => s.imap = st.imap ++ [(e.2, e.1)]) ?_ _ _ ?_
  · exact fun s x hs => (instCopyBag_imap m smap s x).trans hs
  rfl

theorem instImap_spec (m : SF2File) (smap : List (Nat × Nat)) :
    ∀ (l : List (Nat × Nat)) (st : InstPhase),
    (l.foldl (instPhaseStep m smap) st).imap =
      st.imap ++ l.map (fun e => (e.2, e.1)) := by
  intro l
  induction l with
  | nil => intro st; simp
  | cons e t ih =>
      intro st
      rw [List.foldl_cons, ih, instPhaseStep_imap, List.map_cons,
        List.append_assoc]
      rfl

theorem instPhase_imap (m : SF2File) (idxs : List Nat)
    (smap : List (Nat × Nat)) :
    (instPhase m idxs smap).imap =
      (pySorted idxs).enum.map (fun e => (e.2, e.1)) := by
  simp only [instPhase]
  rw [instImap_spec]
  simp

/-- Invariant of the instrument rebuild: output `GEN_SAMPLE_ID`
generators stay below the retained-sample count, and the (mutated)
source list keeps the input's parsed cores. -/
def instQI (m : SF2File) (n : Nat) (st : InstPhase) : Prop :=
  (∀ g ∈ st.outGens, g.oper = GEN_SAMPLE_ID → g.amount < n) ∧
  (∀ k, iCore (st.instsSrc.getD k default) =
    iCore (m.instruments.getD k default)) ∧
  st.instsSrc.length = m.instruments.length

theorem instCopyGen_gbound (m : SF2File) (sampIdxs : List Nat)
    (hnd : sampIdxs.Nodup) (st : InstPhase) (genIdx : Nat)
    (hin : (m.inst_gens.getD genIdx default).oper = GEN_SAMPLE_ID →
      (m.inst_gens.getD genIdx default).amount ∈ sampIdxs)
    (hq : ∀ g ∈ st.outGens, g.oper = GEN_SAMPLE_ID →
      g.amount < sampIdxs.length) :
    ∀ g ∈ (instCopyGen m
      ((pySorted sampIdxs).enum.map (fun e => (e.2, e.1))) st
      genIdx).outGens,
      g.oper = GEN_SAMPLE_ID → g.amount < sampIdxs.length := by
  intro g hg hop
  simp only [instCopyGen] at hg
  rcases List.mem_append.mp hg with h | h
  · exact hq g h hop
  · have hgeq := List.mem_singleton.mp h
    subst hgeq
    have hop' : (m.inst_gens.getD genIdx default).oper = GEN_SAMPLE_ID := hop
    obtain ⟨v, hv, hvlt⟩ := lookup_enum_flip (pySorted sampIdxs)
      (pySorted_nodup _ hnd) _ ((pySorted_mem _ _).mpr (hin hop'))
    simp only [if_pos hop', hv]
    rw [pySorted_length] at hvlt
    exact hvlt

theorem instBagFold_gbound (m : SF2File) (sampIdxs : List Nat)
    (hnd : sampIdxs.Nodup) (l : List Nat) (st1 : InstPhase)
    (hin : ∀ bagIdx ∈ l, ∀ genIdx ∈
      pyRange (m.inst_bags.getD bagIdx default).gen_idx
        (ibagGenEnd m bagIdx),
      (m.inst_gens.getD genIdx default).oper = GEN_SAMPLE_ID →
      (m.inst_gens.getD genIdx default).amount ∈ sampIdxs)
    (hQ1 : instQI m sampIdxs.length st1) :
    instQI m sampIdxs.length
      (l.foldl (instCopyBag m
        ((pySorted sampIdxs).enum.map (fun e => (e.2, e.1)))) st1) := by
  refine foldl_invariant_mem _ (instQI m sampIdxs.length) _ ?_ _ hQ1
  intro s bagIdx hmem hQs
  obtain ⟨hq, hcore, hlen⟩ := hQs
  refine ⟨?_, ?_, ?_⟩
  · -- the generator part: unfold the bag copy
    show ∀ g ∈ (instCopyBag m _ s bagIdx).outGens, _
    unfold instCopyBag
    refine foldl_invariant _
      (fun t : InstPhase => ∀ g ∈ t.outGens,
        g.oper = GEN_SAMPLE_ID → g.amount < sampIdxs.length) ?_ _ _ ?_
    · exact fun t x ht => ht
    refine foldl_invariant_mem _
      (fun t : InstPhase => ∀ g ∈ t.outGens,
        g.oper = GEN_SAMPLE_ID → g.amount < sampIdxs.length) _ ?_ _ ?_
    · intro t genIdx hgen hqt
      exact instCopyGen_gbound m sampIdxs hnd t genIdx
        (hin bagIdx hmem genIdx hgen) hqt
    · exact hq
  · intro k
    rw [instCopyBag_instsSrc]
    exact hcore k
  · rw [instCopyBag_instsSrc]
    exact hlen

theorem instPhaseStep_gbound (m : SF2File) (instIdxs sampIdxs : List Nat)
    (hnd : sampIdxs.Nodup)
    (hbound : ∀ old ∈ instIdxs, old + 1 < m.instruments.length)
    (hadds : ∀ old ∈ instIdxs, ∀ bagIdx ∈
      pyRange (m.instruments.getD old default).bag_idx (instBagEnd m old),
      ∀ genIdx ∈ pyRange (m.inst_bags.getD bagIdx default).gen_idx
        (ibagGenEnd m bagIdx),
      (m.inst_gens.getD genIdx default).oper = GEN_SAMPLE_ID →
      (m.inst_gens.getD genIdx default).amount ∈ sampIdxs)
    (st : InstPhase) (e : Nat × Nat) (he : e.2 ∈ instIdxs)
    (hQ : instQI m sampIdxs.length st) :
    instQI m sampIdxs.length
      (instPhaseStep m
        ((pySorted sampIdxs).enum.map (fun e => (e.2, e.1))) st e) := by
  obtain ⟨hq, hcore, hlen⟩ := hQ
  have hb1 : (st.instsSrc.getD e.2 default).bag_idx =
      (m.instruments.getD e.2 default).bag_idx :=
    congrArg Prod.snd (hcore e.2)
  have hb2 : (st.instsSrc.getD (e.2 + 1) default).bag_idx =
      (m.instruments.getD (e.2 + 1) default).bag_idx :=
    congrArg Prod.snd (hcore (e.2 + 1))
  have hend : (m.instruments.getD (e.2 + 1) default).bag_idx =
      instBagEnd m e.2 := by
    unfold instBagEnd
    rw [if_pos (hbound e.2 he)]
  unfold instPhaseStep
  apply instBagFold_gbound m sampIdxs hnd
  · -- every walked bag index lies in the resolver's range
    intro bagIdx hb genIdx hg hop
    simp only at hb
    rw [getD_set_ne _ _ _ _ _ (by omega : e.2 ≠ e.2 + 1), hb2, hend, hb1]
      at hb
    exact hadds e.2 he bagIdx hb genIdx hg hop
  · -- the invariant survives the runtime-field mutation
    refine ⟨hq, ?_, ?_⟩
    · intro k
      show iCore ((st.instsSrc.set e.2 _).getD k default) = _
      rw [getD_set_cases]
      by_cases h : e.2 = k ∧ e.2 < st.instsSrc.length
      · rw [if_pos h, ← h.1]
        have h0 : iCore { st.instsSrc.getD e.2 default with
            new_index := (e.1 : Int), new_bag_idx := st.outBags.length } =
            iCore (st.instsSrc.getD e.2 default) := rfl
        rw [h0]
        exact hcore e.2
      · rw [if_neg h]
        exact hcore k
    · show (st.instsSrc.set e.2 _).length = _
      rw [List.length_set]
      exact hlen

/-- Every `GEN_SAMPLE_ID` generator emitted by the instrument phase is a
strict index into the retained（non-terminal) sample records. -/
theorem instPhase_gens_bounded (m : SF2File) (instIdxs sampIdxs : List Nat)
    (hnd : sampIdxs.Nodup)
    (hbound : ∀ old ∈ instIdxs, old + 1 < m.instruments.length)
    (hadds : ∀ old ∈ instIdxs, ∀ bagIdx ∈
      pyRange (m.instruments.getD old default).bag_idx (instBagEnd m old),
      ∀ genIdx ∈ pyRange (m.inst_bags.getD bagIdx default).gen_idx
        (ibagGenEnd m bagIdx),
      (m.inst_gens.getD genIdx default).oper = GEN_SAMPLE_ID →
      (m.inst_gens.getD genIdx default).amount ∈ sampIdxs) :
    ∀ g ∈ (instPhase m instIdxs
      ((pySorted sampIdxs).enum.map (fun e => (e.2, e.1)))).outGens,
      g.oper = GEN_SAMPLE_ID → g.amount < sampIdxs.length := by
  intro g hg hop
  simp only [instPhase] at hg
  rcases List.mem_append.mp hg with h | h
  · have hQ : instQI m sampIdxs.length
        ((pySorted instIdxs).enum.foldl
          (instPhaseStep m
            ((pySorted sampIdxs).enum.map (fun e => (e.2, e.1))))
          { instsSrc := m.instruments, outInsts := [], outBags := []
            outGens := [], outMods := [], imap := [] }) := by
      refine foldl_invariant_mem _ (instQI m sampIdxs.length) _ ?_ _
        ⟨fun g hgm => absurd hgm (List.not_mem_nil g),
         fun k => rfl, rfl⟩
      intro s e he hQs
      have he2 : e.2 ∈ instIdxs := by
        have hsome := List.mem_enum_iff_getElem?.mp he
        obtain ⟨hlt, hEq⟩ := List.getElem?_eq_some.mp hsome
        exact (pySorted_mem _ _).mp (hEq ▸ List.getElem_mem hlt)
      exact instPhaseStep_gbound m instIdxs sampIdxs hnd hbound hadds s e
        he2 hQs
    exact hQ.1 g h hop
  · have hgeq := List.mem_singleton.mp h
    subst hgeq
    exact absurd hop (by decide)

/-- Invariant of the preset rebuild: output `GEN_INSTRUMENT` generators
stay below the retained-instrument count, and the (mutated) source list
keeps the input's parsed cores. -/
def presQP (m : SF2File) (n : Nat) (st : PresPhase) : Prop :=
  (∀ g ∈ st.outGens, g.oper = GEN_INSTRUMENT → g.amount < n) ∧
  (∀ k, pCore (st.presetsSrc.getD k default) =
    pCore (m.presets.getD k default)) ∧
  st.presetsSrc.length = m.presets.length

theorem presetCopyGen_gbound (m : SF2File) (instIdxs : List Nat)
    (hnd : instIdxs.Nodup) (st : PresPhase) (genIdx : Nat)
    (hin : (m.preset_gens.getD genIdx default).oper = GEN_INSTRUMENT →
      (m.preset_gens.getD genIdx default).amount ∈ instIdxs)
    (hq : ∀ g ∈ st.outGens, g.oper = GEN_INSTRUMENT →
      g.amount < instIdxs.length) :
    ∀ g ∈ (presetCopyGen m
      ((pySorted instIdxs).enum.map (fun e => (e.2, e.1))) st
      genIdx).outGens,
      g.oper = GEN_INSTRUMENT → g.amount < instIdxs.length := by
  intro g hg hop
  simp only [presetCopyGen] at hg
  rcases List.mem_append.mp hg with h | h
  · exact hq g h hop
  · have hgeq := List.mem_singleton.mp h
    subst hgeq
    have hop' : (m.preset_gens.getD genIdx default).oper = GEN_INSTRUMENT :=
      hop
    obtain ⟨v, hv, hvlt⟩ := lookup_enum_flip (pySorted instIdxs)
      (pySorted_nodup _ hnd) _ ((pySorted_mem _ _).mpr (hin hop'))
    simp only [if_pos hop', hv]
    rw [pySorted_length] at hvlt
    exact hvlt

theorem presBagFold_gbound (m : SF2File) (instIdxs : List Nat)
    (hnd : instIdxs.Nodup) (l : List Nat) (st1 : PresPhase)
    (hin : ∀ bagIdx ∈ l, ∀ genIdx ∈
      pyRange (m.preset_bags.getD bagIdx default).gen_idx
        (pbagGenEnd m bagIdx),
      (m.preset_gens.getD genIdx default).oper = GEN_INSTRUMENT →
      (m.preset_gens.getD genIdx default).amount ∈ instIdxs)
    (hQ1 : presQP m instIdxs.length st1) :
    presQP m instIdxs.length
      (l.foldl (presetCopyBag m
        ((pySorted instIdxs).enum.map (fun e => (e.2, e.1)))) st1) := by
  refine foldl_invariant_mem _ (presQP m instIdxs.length) _ ?_ _ hQ1
  intro s bagIdx hmem hQs
  obtain ⟨hq, hcore, hlen⟩ := hQs
  refine ⟨?_, ?_, ?_⟩
  · show ∀ g ∈ (presetCopyBag m _ s bagIdx).outGens, _
    unfold presetCopyBag
    refine foldl_invariant _
      (fun t : PresPhase => ∀ g ∈ t.outGens,
        g.oper = GEN_INSTRUMENT → g.amount < instIdxs.length) ?_ _ _ ?_
    · exact fun t x ht => ht
    refine foldl_invariant_mem _
      (fun t : PresPhase => ∀ g ∈ t.outGens,
        g.oper = GEN_INSTRUMENT → g.amount < instIdxs.length) _ ?_ _ ?_
    · intro t genIdx hgen hqt
      exact presetCopyGen_gbound m instIdxs hnd t genIdx
        (hin bagIdx hmem genIdx hgen) hqt
    · exact hq
  · intro k
    rw [presetCopyBag_presetsSrc]
    exact hcore k
  · rw [presetCopyBag_presetsSrc]
    exact hlen

theorem presetPhaseStep_gbound (m : SF2File) (kept instIdxs : List Nat)
    (hndI : instIdxs.Nodup)
    (hkb : ∀ i ∈ kept, i + 1 < m.presets.length)
    (hdist : ∀ j2 < m.presets.length, ∀ j1 < j2,
      pCore (m.presets.getD j1 default) ≠ pCore (m.presets.getD j2 default))
    (haddsP : ∀ i ∈ kept, ∀ bagIdx ∈
      pyRange (m.presets.getD i default).bag_idx
        ((m.presets.getD (i + 1) default).bag_idx),
      ∀ genIdx ∈ pyRange (m.preset_bags.getD bagIdx default).gen_idx
        (pbagGenEnd m bagIdx),
      (m.preset_gens.getD genIdx default).oper = GEN_INSTRUMENT →
      (m.preset_gens.getD genIdx default).amount ∈ instIdxs)
    (st : PresPhase) (i : Nat) (hi : i ∈ kept)
    (hQ : presQP m instIdxs.length st) :
    presQP m instIdxs.length
      (presetPhaseStep m
        ((pySorted instIdxs).enum.map (fun e => (e.2, e.1))) st i) := by
  obtain ⟨hq, hcore, hlen⟩ := hQ
  have hbag : ∀ k, (st.presetsSrc.getD k default).bag_idx =
      (m.presets.getD k default).bag_idx := fun k =>
    congrArg
      (fun t : List Nat × Nat × Nat × Nat × Nat × Nat × Nat => t.2.2.2.1)
      (hcore k)
  have hilen : i < st.presetsSrc.length := by
    rw [hlen]
    have := hkb i hi
    omega
  have hstep_eq : presetPhaseStep m
      ((pySorted instIdxs).enum.map (fun e => (e.2, e.1))) st i =
      (pyRange
        ({ st.presetsSrc.getD i default with
           new_bag_idx := st.outBags.length } : SF2Preset).bag_idx
        (((st.presetsSrc.set i
            { st.presetsSrc.getD i default with
              new_bag_idx := st.outBags.length }).getD
          ((st.presetsSrc.set i
            { st.presetsSrc.getD i default with
              new_bag_idx := st.outBags.length }).indexOf
            ({ st.presetsSrc.getD i default with
               new_bag_idx := st.outBags.length }) + 1)
          default).bag_idx)).foldl
        (presetCopyBag m ((pySorted instIdxs).enum.map (fun e => (e.2, e.1))))
        { st with
          presetsSrc := st.presetsSrc.set i
            { st.presetsSrc.getD i default with
              new_bag_idx := st.outBags.length }
          outPresets := st.outPresets ++
            [{ st.presetsSrc.getD i default with
               new_bag_idx := st.outBags.length }] } := rfl
  rw [hstep_eq]
  have hp1core : pCore ({ st.presetsSrc.getD i default with
      new_bag_idx := st.outBags.length } : SF2Preset) =
      pCore (st.presetsSrc.getD i default) := rfl
  have hidx : (st.presetsSrc.set i
      { st.presetsSrc.getD i default with
        new_bag_idx := st.outBags.length }).indexOf
      ({ st.presetsSrc.getD i default with
         new_bag_idx := st.outBags.length }) = i := by
    refine indexOf_eq _ _ i (by rw [List.length_set]; exact hilen) ?_ ?_
    · exact getD_set_self _ _ _ _ hilen
    · intro j hj heq
      rw [getD_set_ne _ _ _ _ _ (by omega : i ≠ j)] at heq
      refine hdist i (by rw [← hlen]; exact hilen) j hj ?_
      rw [← hcore j, ← hcore i, heq, hp1core]
  have hstart : ({ st.presetsSrc.getD i default with
      new_bag_idx := st.outBags.length } : SF2Preset).bag_idx =
      (m.presets.getD i default).bag_idx := hbag i
  have hbagEnd : ((st.presetsSrc.set i
      { st.presetsSrc.getD i default with
        new_bag_idx := st.outBags.length }).getD
      ((st.presetsSrc.set i
        { st.presetsSrc.getD i default with
          new_bag_idx := st.outBags.length }).indexOf
        ({ st.presetsSrc.getD i default with
           new_bag_idx := st.outBags.length }) + 1) default).bag_idx =
      (m.presets.getD (i + 1) default).bag_idx := by
    rw [hidx, getD_set_ne _ _ _ _ _ (by omega : i ≠ i + 1)]
    exact hbag (i + 1)
  apply presBagFold_gbound m instIdxs hndI
  · intro bagIdx hb genIdx hg hop
    rw [hstart, hbagEnd] at hb
    exact haddsP i hi bagIdx hb genIdx hg hop
  · refine ⟨hq, ?_, ?_⟩
    · intro k
      show pCore ((st.presetsSrc.set i _).getD k default) = _
      rw [getD_set_cases]
      by_cases h : i = k ∧ i < st.presetsSrc.length
      · rw [if_pos h, ← h.1, hp1core]
        exact hcore i
      · rw [if_neg h]
        exact hcore k
    · show (st.presetsSrc.set i _).length = _
      rw [List.length_set]
      exact hlen

/-- Every `GEN_INSTRUMENT` generator emitted by the preset phase is a
strict index into the retained (non-terminal) instrument records. -/
theorem presetPhase_gens_bounded (m : SF2File) (kept instIdxs : List Nat)
    (hndI : instIdxs.Nodup)
    (hkb : ∀ i ∈ kept, i + 1 < m.presets.length)
    (hdist : ∀ j2 < m.presets.length, ∀ j1 < j2,
      pCore (m.presets.getD j1 default) ≠ pCore (m.presets.getD j2 default))
    (haddsP : ∀ i ∈ kept, ∀ bagIdx ∈
      pyRange (m.presets.getD i default).bag_idx
        ((m.presets.getD (i + 1) default).bag_idx),
      ∀ genIdx ∈ pyRange (m.preset_bags.getD bagIdx default).gen_idx
        (pbagGenEnd m bagIdx),
      (m.preset_gens.getD genIdx default).oper = GEN_INSTRUMENT →
      (m.preset_gens.getD genIdx default).amount ∈ instIdxs) :
    ∀ g ∈ (presetPhase m kept
      ((pySorted instIdxs).enum.map (fun e => (e.2, e.1)))).outGens,
      g.oper = GEN_INSTRUMENT → g.amount < instIdxs.length := by
  intro g hg hop
  simp only [presetPhase] at hg
  rcases List.mem_append.mp hg with h | h
  · have hQ : presQP m instIdxs.length
        (kept.foldl
          (presetPhaseStep m
            ((pySorted instIdxs).enum.map (fun e => (e.2, e.1))))
          { presetsSrc := m.presets, outPresets := [], outBags := []
            outGens := [], outMods := [] }) := by
      refine foldl_invariant_mem _ (presQP m instIdxs.length) _ ?_ _
        ⟨fun g hgm => absurd hgm (List.not_mem_nil g),
         fun k => rfl, rfl⟩
      intro s i hi hQs
      exact presetPhaseStep_gbound m kept instIdxs hndI hkb hdist haddsP
        s i hi hQs
    exact hQ.1 g h hop
  · have hgeq := List.mem_singleton.mp h
    subst hgeq
    exact absurd hop (by decide)

/-- C4: closure completeness fails on a model satisfying the
referential-bounds invariant.  `dupModel` holds two structurally equal
presets; `list.index` finds the first while the walk processes the
second, so its bag range is delimited by the wrong neighbour and the
output keeps a `GEN_INSTRUMENT` generator whose amount (1) indexes the
terminal sentinel of the 2-record output instrument table. -/
theorem c4_refbounds_counterexample :
    (∀ g ∈ dupModel.preset_gens, g.oper = GEN_INSTRUMENT →
      g.amount + 1 < dupModel.instruments.length) ∧
    (∀ g ∈ dupModel.inst_gens, g.oper = GEN_SAMPLE_ID →
      g.amount + 1 < dupModel.samples.length) ∧
    (∀ s ∈ dupModel.samples, s.sample_link ≠ 0 →
      s.sample_link + 1 < dupModel.samples.length) ∧
    SF2Generator.mk GEN_INSTRUMENT 1 ∈
      (subset_sf2 dupModel [(0, 0)]).1.preset_gens ∧
    (subset_sf2 dupModel [(0, 0)]).1.instruments.length = 2 := by
  decide

/-- C4 (amended): with the referential-bounds invariant strengthened by
pairwise distinctness of the input's preset records (their parsed
cores), every instrument reference and sample reference in the output
of `subset_sf2` is an in-bounds, non-sentinel index of the
corresponding output table. -/
theorem c4_refbounds_amended (m : SF2File) (w : List (Nat × Nat))
    (hdist : ∀ j2 < m.presets.length, ∀ j1 < j2,
      pCore (m.presets.getD j1 default) ≠ pCore (m.presets.getD j2 default))
    (hpg : ∀ g ∈ m.preset_gens, g.oper = GEN_INSTRUMENT →
      g.amount + 1 < m.instruments.length) :
    (∀ g ∈ (subset_sf2 m w).1.preset_gens, g.oper = GEN_INSTRUMENT →
      g.amount + 1 < (subset_sf2 m w).1.instruments.length) ∧
    (∀ g ∈ (subset_sf2 m w).1.inst_gens, g.oper = GEN_SAMPLE_ID →
      g.amount + 1 < (subset_sf2 m w).1.samples.length) := by
  by_cases hk : keptPresetIdxs m w = []
  · have h : subset_sf2 m w = ({ info_chunks := m.info_chunks }, m) := by
      simp only [subset_sf2, if_pos hk]
    rw [h]
    exact ⟨fun g hg => absurd hg (List.not_mem_nil g),
      fun g hg => absurd hg (List.not_mem_nil g)⟩
  · have hkb : ∀ i ∈ keptPresetIdxs m w, i + 1 < m.presets.length := by
      intro i hi
      unfold keptPresetIdxs at hi
      have := List.mem_range.mp (List.mem_of_mem_filter hi)
      omega
    have haddsP : ∀ i ∈ keptPresetIdxs m w, ∀ bagIdx ∈
        pyRange (m.presets.getD i default).bag_idx
          ((m.presets.getD (i + 1) default).bag_idx),
        ∀ genIdx ∈ pyRange (m.preset_bags.getD bagIdx default).gen_idx
          (pbagGenEnd m bagIdx),
        (m.preset_gens.getD genIdx default).oper = GEN_INSTRUMENT →
        (m.preset_gens.getD genIdx default).amount ∈
          collectInstIdxs m (keptPresetIdxs m w) := by
      intro i hi bagIdx hb genIdx hg hop
      have hidxm : m.presets.indexOf (m.presets.getD i default) = i := by
        refine indexOf_eq _ _ i (by have := hkb i hi; omega) rfl ?_
        intro j hj heq
        exact hdist i (by have := hkb i hi; omega) j hj (congrArg pCore heq)
      have hvia : presetBagEndVia m.presets (m.presets.getD i default) =
          (m.presets.getD (i + 1) default).bag_idx := by
        unfold presetBagEndVia
        rw [hidxm]
      refine collectInst_adds m (keptPresetIdxs m w) i hi bagIdx ?_
        genIdx hg hop
      rw [hvia]
      exact hb
    refine ⟨?_, ?_⟩
    · intro g hg hop
      have h1 : (subset_sf2 m w).1.preset_gens =
          (presetPhase m (keptPresetIdxs m w)
            ((pySorted (collectInstIdxs m (keptPresetIdxs m w))).enum.map
              (fun e => (e.2, e.1)))).outGens := by
        rw [subset_out m w hk]
        show (presetPhase m (keptPresetIdxs m w)
          (instPhase m (collectInstIdxs m (keptPresetIdxs m w))
            (samplePhase m (collectSampleIdxs m
              (collectInstIdxs m (keptPresetIdxs m w)))).smap).imap
          ).outGens = _
        rw [(samplePhase_spec m (collectSampleIdxs m
          (collectInstIdxs m (keptPresetIdxs m w)))).2.1, instPhase_imap]
      rw [h1] at hg
      have hbnd := presetPhase_gens_bounded m (keptPresetIdxs m w)
        (collectInstIdxs m (keptPresetIdxs m w))
        (collectInst_nodup m (keptPresetIdxs m w)) hkb hdist haddsP
        g hg hop
      have h2 : (subset_sf2 m w).1.instruments.length =
          (collectInstIdxs m (keptPresetIdxs m w)).length + 1 := by
        rw [subset_out m w hk]
        show (instPhase m (collectInstIdxs m (keptPresetIdxs m w))
          (samplePhase m (collectSampleIdxs m
            (collectInstIdxs m (keptPresetIdxs m w)))).smap
          ).outInsts.length = _
        rw [instPhase_len]
      rw [h2]
      omega
    · intro g hg hop
      have h1 : (subset_sf2 m w).1.inst_gens =
          (instPhase m (collectInstIdxs m (keptPresetIdxs m w))
            ((pySorted (collectSampleIdxs m
              (collectInstIdxs m (keptPresetIdxs m w)))).enum.map
              (fun e => (e.2, e.1)))).outGens := by
        rw [subset_out m w hk]
        show (instPhase m (collectInstIdxs m (keptPresetIdxs m w))
          (samplePhase m (collectSampleIdxs m
            (collectInstIdxs m (keptPresetIdxs m w)))).smap).outGens = _
        rw [(samplePhase_spec m (collectSampleIdxs m
          (collectInstIdxs m (keptPresetIdxs m w)))).2.1]
      rw [h1] at hg
      have hbnd := instPhase_gens_bounded m
        (collectInstIdxs m (keptPresetIdxs m w))
        (collectSampleIdxs m (collectInstIdxs m (keptPresetIdxs m w)))
        (collectSamp_nodup m (collectInstIdxs m (keptPresetIdxs m w)))
        (collectInst_bounded m (keptPresetIdxs m w) hpg)
        (fun old hold bagIdx hb genIdx hgen hopg =>
          collectSamp_adds m (collectInstIdxs m (keptPresetIdxs m w))
            old hold bagIdx hb genIdx hgen hopg)
        g hg hop
      have h2 : (subset_sf2 m w).1.samples.length =
          (collectSampleIdxs m
            (collectInstIdxs m (keptPresetIdxs m w))).length + 1 := by
        rw [subset_out m w hk]
        show (samplePhase m (collectSampleIdxs m
          (collectInstIdxs m (keptPresetIdxs m w)))).outSamples.length = _
        rw [(samplePhase_terminal m _).2, pySorted_length]
      rw [h2]
      omega

set_option synthInstance.maxSize 1000 in
theorem c4_refbounds_amended_witness :
    ((∀ j2 < baseModel.presets.length, ∀ j1 < j2,
       pCore (baseModel.presets.getD j1 default) ≠
         pCore (baseModel.presets.getD j2 default)) ∧
     (∀ g ∈ baseModel.preset_gens, g.oper = GEN_INSTRUMENT →
       g.amount + 1 < baseModel.instruments.length)) ∧
    ((∀ g ∈ (subset_sf2 baseModel [(0, 0)]).1.preset_gens,
       g.oper = GEN_INSTRUMENT →
       g.amount + 1 < (subset_sf2 baseModel [(0, 0)]).1.instruments.length) ∧
     (∀ g ∈ (subset_sf2 baseModel [(0, 0)]).1.inst_gens,
       g.oper = GEN_SAMPLE_ID →
       g.amount + 1 < (subset_sf2 baseModel [(0, 0)]).1.samples.length)) :=
  ⟨⟨by decide, by decide⟩,
   c4_refbounds_amended baseModel [(0, 0)] (by decide) (by decide)⟩
